import Mathlib

/-!
# Skraafoto viewer: data-access core

A shallow embedding of the geospatial core of the viewer
(`src/util/centerImage.js`, `src/util/api.js`, `src/util/imgsFromBox.js`,
`src/util/addressSearch.js`) and of the effects that drive it
(`src/pages/MapPage.jsx`, `src/pages/MultiViewerPage.jsx`,
`src/components/modules/refreshItems.jsx`), together with theorems about
it.

## Asynchronous code

An asynchronous operation is a function of its arguments and of the state
of the outside world that settles with a value or an error and leaves a new
state (`Operation`).  What a call does besides settling is kept in a trace
(`Run`, `Round`).  Library functions (`getSTAC`, `axios.get`, `fetch`,
`localeCompare`, `Math.cos`, …) are parameters.

## Numbers

JavaScript numbers are modelled by `JSNum`: the IEEE-754 values `NaN`,
`+Infinity`, `-Infinity` and `-0` next to the finite values, which are
rationals (`fin 0` is `+0`).  The arithmetic operators follow IEEE-754: the
exact result of an operation on finite operands is rounded to a Number by
the platform's rounding `fl`, a zero result takes the sign the standard
gives it, and the special values combine as the standard says.  The
platform is a parameter (`MathLib`): `ieee754` is the arithmetic of the
language, binary64 with round-to-nearest, ties to even, gradual underflow
and overflow to an infinity (`binary64`); exact arithmetic, in which
nothing is rounded and zero has no sign (`MathLib.Exact`), is the
arithmetic of the real numbers on the same code.
-/

namespace Skraafoto

/-! ## JavaScript numbers -/

/-- A JavaScript number: a finite value (`fin 0` is `+0`), the negative
zero `-0`, a signed infinity (`neg = true` is `-Infinity`) or `NaN`. -/
inductive JSNum where
  | fin (q : ℚ)
  | negZero
  | inf (neg : Bool)
  | nan
  deriving DecidableEq

namespace JSNum

instance : OfNat JSNum n := ⟨fin n⟩

/-- The global `isFinite` on numbers. -/
def isFinite : JSNum → Bool
  | fin _ => true
  | negZero => true
  | _ => false

/-- Whether a number is `+0` or `-0`. -/
def isZero : JSNum → Bool
  | fin a => decide (a = 0)
  | negZero => true
  | _ => false

/-- The sign bit of a number that is not `NaN`: `true` on the negative
numbers, `-0` and `-Infinity`. -/
def sign : JSNum → Bool
  | fin a => decide (a < 0)
  | negZero => true
  | inf s => s
  | nan => false

/-- The value of a finite number. -/
def toRat : JSNum → ℚ
  | fin a => a
  | _ => 0

/-- The comparison `x <= y` of numbers: false when an operand is `NaN`;
the two zeros are equal. -/
def le : JSNum → JSNum → Bool
  | nan, _ => false
  | _, nan => false
  | inf s, inf t => s || !t
  | inf s, _ => s
  | _, inf t => !t
  | x, y => decide (x.toRat ≤ y.toRat)

/-- The function `Number.isInteger`. -/
def isInteger : JSNum → Bool
  | fin a => decide (a.den = 1)
  | negZero => true
  | _ => false

/-- Nearest integer to a rational, ties towards `+∞` (the rule of `Math.round`). -/
def roundHalfUp (q : ℚ) : ℤ := ⌊q + 1 / 2⌋

/-- Conversion `ToNumber` of a value that is a number or `undefined`
(`none`): `undefined` becomes `NaN`. -/
def toNumber : Option JSNum → JSNum
  | some x => x
  | none => nan

end JSNum

open JSNum

/-- The platform's numbers: the part of the `Math` object used by the
projection (`Math.cos`, `Math.sin` on finite arguments, the constant
`Math.PI`) and the arithmetic of Numbers, given by the rounding `fl` of a
non-zero exact result to a Number and by whether zero carries a sign. -/
structure MathLib where
  cos : ℚ → ℚ
  sin : ℚ → ℚ
  PI : ℚ
  fl : ℚ → JSNum
  signedZero : Bool

namespace MathLib

/-- The zero of the given sign (`neg = true` asks for `-0`). -/
def zero (M : MathLib) (neg : Bool) : JSNum := if neg && M.signedZero then negZero else fin 0

/-- The Number for an exact result `q`; `neg` is the sign the standard
gives to the result when it is zero. -/
def result (M : MathLib) (q : ℚ) (neg : Bool) : JSNum := if q = 0 then M.zero neg else M.fl q

/-- Unary minus. -/
def neg (M : MathLib) : JSNum → JSNum
  | fin a => if a = 0 then M.zero true else fin (-a)
  | negZero => fin 0
  | inf s => inf (!s)
  | nan => nan

/-- Binary `+`.  A zero sum is `-0` only when both operands are negative. -/
def add (M : MathLib) : JSNum → JSNum → JSNum
  | nan, _ => nan
  | _, nan => nan
  | inf s, inf t => if s = t then inf s else nan
  | inf s, _ => inf s
  | _, inf t => inf t
  | x, y => M.result (x.toRat + y.toRat) (x.sign && y.sign)

/-- Binary `-`. -/
def sub (M : MathLib) (a b : JSNum) : JSNum := M.add a (M.neg b)

/-- Binary `*`.  The sign of the product is the exclusive or of the signs;
zero times an infinity is `NaN`. -/
def mul (M : MathLib) : JSNum → JSNum → JSNum
  | nan, _ => nan
  | _, nan => nan
  | inf s, y => if y.isZero then nan else inf (xor s y.sign)
  | x, inf t => if x.isZero then nan else inf (xor x.sign t)
  | x, y => M.result (x.toRat * y.toRat) (xor x.sign y.sign)

/-- Binary `/`.  Division by zero does not raise: it gives `NaN` for `0/0`
and an infinity otherwise. -/
def div (M : MathLib) : JSNum → JSNum → JSNum
  | nan, _ => nan
  | _, nan => nan
  | inf _, inf _ => nan
  | inf s, y => inf (xor s y.sign)
  | x, inf t => M.zero (xor x.sign t)
  | x, y =>
    if y.isZero then (if x.isZero then nan else inf (xor x.sign y.sign))
    else M.result (x.toRat / y.toRat) (xor x.sign y.sign)

/-- The function `Math.round`: the nearest integer, ties towards `+∞`; a
negative argument that rounds to zero gives `-0`. -/
def round (M : MathLib) : JSNum → JSNum
  | fin a => if a < 0 ∧ roundHalfUp a = 0 then M.zero true else fin (roundHalfUp a)
  | x => x

/-- The function `Math.cos`: the platform's answer as a Number, `NaN` on a
non-finite argument. -/
def jsCos (M : MathLib) : JSNum → JSNum
  | fin a => M.result (M.cos a) false
  | negZero => M.result (M.cos 0) false
  | _ => nan

/-- The function `Math.sin`: the platform's answer as a Number, `NaN` on a
non-finite argument. -/
def jsSin (M : MathLib) : JSNum → JSNum
  | fin a => M.result (M.sin a) (decide (a < 0))
  | negZero => M.result (M.sin 0) true
  | _ => nan

/-- Exact arithmetic: no result is rounded and zero has no sign. -/
structure Exact (M : MathLib) : Prop where
  fl_eq : ∀ q, M.fl q = fin q
  signedZero_eq : M.signedZero = false

end MathLib

/-! ### Double precision -/

/-- The number of binary digits of `n`, found in at most `fuel` halvings. -/
def bitLength : ℕ → ℕ → ℕ
  | 0, _ => 0
  | fuel + 1, n => if n = 0 then 0 else bitLength fuel (n / 2) + 1

/-- The integer `⌊log₂ (n / d)⌋` for positive `n` and `d`. -/
def floorLog2 (n d : ℕ) : ℤ :=
  let k : ℤ := (bitLength n n : ℤ) - (bitLength d d : ℤ)
  if d * 2 ^ k.toNat ≤ n * 2 ^ (-k).toNat then k else k - 1

/-- The integer nearest to `x`, a tie going to the even one. -/
def roundHalfEven (x : ℚ) : ℤ :=
  if 2 * (x - ⌊x⌋) < 1 then ⌊x⌋
  else if 1 < 2 * (x - ⌊x⌋) then ⌊x⌋ + 1
  else ⌊x⌋ + ⌊x⌋ % 2

/-- The exponent of the unit in the last place of the binary64 number
nearest to a non-zero `q`: 52 places below the leading bit of `q`, and
`-1074` at least (the subnormal numbers). -/
def exponent64 (q : ℚ) : ℤ := max (floorLog2 q.num.natAbs q.den - 52) (-1074)

/-- The magnitude of a non-zero `q` rounded to a multiple of its unit in
the last place, to nearest with ties to even. -/
def round64 (q : ℚ) : ℚ := roundHalfEven (|q| / 2 ^ exponent64 q) * 2 ^ exponent64 q

/-- Rounding of a non-zero rational to binary64, to nearest with ties to
even: a magnitude that rounds to `2^1024` or more overflows to the infinity
of its sign, and one that rounds to zero gives the zero of its sign. -/
def binary64 (q : ℚ) : JSNum :=
  if round64 q = 0 then (if q < 0 then negZero else fin 0)
  else if 2 ^ 1024 ≤ round64 q then inf (decide (q < 0))
  else fin (if q < 0 then -round64 q else round64 q)

/-- Whether a rational is the value of a binary64 number: zero, or a value
that rounding leaves as it is. -/
def isBinary64 (v : ℚ) : Bool := decide (v = 0 ∨ binary64 v = fin v)

/-- The arithmetic of the language: binary64 numbers with a signed zero;
`Math.PI` is the Number nearest to `π`.  `Math.cos` and `Math.sin` stay
parameters. -/
def ieee754 (cos sin : ℚ → ℚ) : MathLib where
  cos := cos
  sin := sin
  PI := 884279719003555 / 281474976710656
  fl := binary64
  signedZero := true

/-- Double arithmetic: results are rounded to binary64, zero has a sign
and `Math.PI` is the Number nearest to `π`. -/
structure MathLib.IEEE (M : MathLib) : Prop where
  fl_eq : M.fl = binary64
  signedZero_eq : M.signedZero = true
  PI_eq : M.PI = 884279719003555 / 281474976710656

/-! ## Errors -/

/-- A raised JavaScript exception. -/
inductive JSError where
  | typeError
  deriving DecidableEq

/-- Reading a property of a value that may be `undefined`: raises a
`TypeError` on `undefined`. -/
def deref {α : Type} : Option α → Except JSError α
  | some a => .ok a
  | none => .error .typeError

/-- Indexing an array: `undefined` outside its bounds. -/
def index (xs : List JSNum) (i : Nat) : Option JSNum := xs.get? i

/-! ## Image metadata (`centerImage.js`) -/

/-- The object under `properties['pers:interior_orientation']`; an absent
key is `none`. -/
structure InteriorOrientation where
  principal_point_offset : Option (List JSNum)
  focal_length : Option JSNum
  pixel_spacing : Option (List JSNum)
  sensor_array_dimensions : Option (List JSNum)

/-- The object under `properties` of a catalog item; an absent key is `none`. -/
structure Properties where
  interior_orientation : Option InteriorOrientation
  perspective_center : Option (List JSNum)
  omega : Option JSNum
  phi : Option JSNum
  kappa : Option JSNum

/-- The argument `image_data` of `getImageXY`. -/
structure ImageData where
  properties : Option Properties

/-- The expression `image_data.properties['pers:interior_orientation']`
followed by a property read. -/
def interior (image_data : ImageData) : Except JSError InteriorOrientation := do
  let props ← deref image_data.properties
  deref props.interior_orientation

/-- The function `radians`. -/
def radians (M : MathLib) (degrees : JSNum) : JSNum := M.mul degrees (M.div (fin M.PI) 180)

/-- The nine entries `D11 .. D33` of the rotation matrix, row by row. -/
structure Rotation where
  D11 : JSNum
  D12 : JSNum
  D13 : JSNum
  D21 : JSNum
  D22 : JSNum
  D23 : JSNum
  D31 : JSNum
  D32 : JSNum
  D33 : JSNum
  deriving DecidableEq

/-- The rotation matrix components of `getImageXY` from the angles in radians. -/
def rotation (M : MathLib) (o p k : JSNum) : Rotation where
  D11 := M.mul (M.jsCos p) (M.jsCos k)
  D12 := M.mul (M.neg (M.jsCos p)) (M.jsSin k)
  D13 := M.jsSin p
  D21 := M.add (M.mul (M.jsCos o) (M.jsSin k)) (M.mul (M.mul (M.jsSin o) (M.jsSin p)) (M.jsCos k))
  D22 := M.sub (M.mul (M.jsCos o) (M.jsCos k)) (M.mul (M.mul (M.jsSin o) (M.jsSin p)) (M.jsSin k))
  D23 := M.mul (M.neg (M.jsSin o)) (M.jsCos p)
  D31 := M.sub (M.mul (M.jsSin o) (M.jsSin k)) (M.mul (M.mul (M.jsCos o) (M.jsSin p)) (M.jsCos k))
  D32 := M.add (M.mul (M.jsSin o) (M.jsCos k)) (M.mul (M.mul (M.jsCos o) (M.jsSin p)) (M.jsSin k))
  D33 := M.mul (M.jsCos o) (M.jsCos p)

/-- The denominator of lines 79-80, `D13 * (X - X0) + D23 * (Y - Y0) +
D33 * (Z - Z0)`, as `getImageXY` computes it. -/
def getImageXY.denominator (M : MathLib) (X0 Y0 Z0 Ome Phi Kap X Y Z : JSNum) : JSNum :=
  let D := rotation M (radians M Ome) (radians M Phi) (radians M Kap)
  M.add (M.add (M.mul D.D13 (M.sub X X0)) (M.mul D.D23 (M.sub Y Y0))) (M.mul D.D33 (M.sub Z Z0))

/-- Lines 57-85 of `getImageXY`: the computation on the twelve extracted
constants and the ground point, up to the returned pair. -/
def getImageXY.compute (M : MathLib)
    (xx0 yy0 ci pix dimXi dimYi X0 Y0 Z0 Ome Phi Kap X Y Z : JSNum) : JSNum × JSNum :=
  -- Recalculate values
  let c := M.mul ci (M.neg 1)
  let dimX := M.mul (M.div (M.mul dimXi pix) 2) (M.neg 1)
  let dimY := M.mul (M.div (M.mul dimYi pix) 2) (M.neg 1)
  -- Convert degrees to radians
  let o := radians M Ome
  let p := radians M Phi
  let k := radians M Kap
  -- Rotation matrix components
  let D := rotation M o p k
  -- Image coordinates
  let x_dot := M.mul (M.mul (M.neg 1) c)
    (M.div
      (M.add (M.add (M.mul D.D11 (M.sub X X0)) (M.mul D.D21 (M.sub Y Y0)))
        (M.mul D.D31 (M.sub Z Z0)))
      (M.add (M.add (M.mul D.D13 (M.sub X X0)) (M.mul D.D23 (M.sub Y Y0)))
        (M.mul D.D33 (M.sub Z Z0))))
  let y_dot := M.mul (M.mul (M.neg 1) c)
    (M.div
      (M.add (M.add (M.mul D.D12 (M.sub X X0)) (M.mul D.D22 (M.sub Y Y0)))
        (M.mul D.D32 (M.sub Z Z0)))
      (M.add (M.add (M.mul D.D13 (M.sub X X0)) (M.mul D.D23 (M.sub Y Y0)))
        (M.mul D.D33 (M.sub Z Z0))))
  let col := M.div (M.mul (M.add (M.sub x_dot xx0) dimX) (M.neg 1)) pix
  let row := M.div (M.mul (M.add (M.sub y_dot yy0) dimY) (M.neg 1)) pix
  (M.round col, M.round row)

/-- The body of the `try` block of `getImageXY`: lines 43-55 extract the
constants (a read through an absent object or array raises), then
`getImageXY.compute` is the rest. -/
def getImageXY.tryBlock (M : MathLib) (image_data : ImageData) (X Y Z : JSNum) :
    Except JSError (JSNum × JSNum) := do
  -- Extract constants from image_data
  let xx0 := toNumber (index (← deref (← interior image_data).principal_point_offset) 0)
  let yy0 := toNumber (index (← deref (← interior image_data).principal_point_offset) 1)
  let ci := toNumber (← interior image_data).focal_length
  let pix := toNumber (index (← deref (← interior image_data).pixel_spacing) 0)
  let dimXi := toNumber (index (← deref (← interior image_data).sensor_array_dimensions) 0)
  let dimYi := toNumber (index (← deref (← interior image_data).sensor_array_dimensions) 1)
  let X0 := toNumber (index (← deref (← deref image_data.properties).perspective_center) 0)
  let Y0 := toNumber (index (← deref (← deref image_data.properties).perspective_center) 1)
  let Z0 := toNumber (index (← deref (← deref image_data.properties).perspective_center) 2)
  let Ome := toNumber (← deref image_data.properties).omega
  let Phi := toNumber (← deref image_data.properties).phi
  let Kap := toNumber (← deref image_data.properties).kappa
  return getImageXY.compute M xx0 yy0 ci pix dimXi dimYi X0 Y0 Z0 Ome Phi Kap X Y Z

/-- The function `getImageXY(image_data, X, Y, Z = 0)`: the `try` block,
with every exception caught and replaced by the default `[0, 0]`.  An
omitted `Z` is `none`. -/
def getImageXY (M : MathLib) (image_data : ImageData) (X Y : JSNum) (Z : Option JSNum) :
    Except JSError (JSNum × JSNum) :=
  match getImageXY.tryBlock M image_data X Y (Z.getD 0) with
  | .ok r => .ok r
  | .error _ => .ok (0, 0)

/-! ### The projection as the design document words it -/

/-- A camera orientation whose twelve fields are all present and finite:
their values. -/
structure Camera where
  xx0 : ℚ
  yy0 : ℚ
  ci : ℚ
  pix : ℚ
  dimXi : ℚ
  dimYi : ℚ
  X0 : ℚ
  Y0 : ℚ
  Z0 : ℚ
  Ome : ℚ
  Phi : ℚ
  Kap : ℚ

/-- A present number with a finite value `fin q` (a negative zero, which
exact arithmetic does not have, is not read). -/
def finite? : Option JSNum → Option ℚ
  | some (fin q) => some q
  | _ => none

/-- A present array entry that is a finite number. -/
def finiteAt (xs : Option (List JSNum)) (i : Nat) : Option ℚ :=
  match xs with
  | some l => finite? (index l i)
  | none => none

/-- The six interior-orientation scalars, when present and finite. -/
def readInterior (io : InteriorOrientation) : Option (ℚ × ℚ × ℚ × ℚ × ℚ × ℚ) := do
  let xx0 ← finiteAt io.principal_point_offset 0
  let yy0 ← finiteAt io.principal_point_offset 1
  let ci ← finite? io.focal_length
  let pix ← finiteAt io.pixel_spacing 0
  let dimXi ← finiteAt io.sensor_array_dimensions 0
  let dimYi ← finiteAt io.sensor_array_dimensions 1
  pure (xx0, yy0, ci, pix, dimXi, dimYi)

/-- The six exterior-orientation scalars, when present and finite. -/
def readExterior (props : Properties) : Option (ℚ × ℚ × ℚ × ℚ × ℚ × ℚ) := do
  let X0 ← finiteAt props.perspective_center 0
  let Y0 ← finiteAt props.perspective_center 1
  let Z0 ← finiteAt props.perspective_center 2
  let Ome ← finite? props.omega
  let Phi ← finite? props.phi
  let Kap ← finite? props.kappa
  pure (X0, Y0, Z0, Ome, Phi, Kap)

/-- The camera orientation carried by `image_data`, when every container
is present and each of the twelve scalars read by `getImageXY` is present
with a finite value `fin q`. -/
def readCamera (image_data : ImageData) : Option Camera := do
  let props ← image_data.properties
  let io ← props.interior_orientation
  let (xx0, yy0, ci, pix, dimXi, dimYi) ← readInterior io
  let (X0, Y0, Z0, Ome, Phi, Kap) ← readExterior props
  pure { xx0, yy0, ci, pix, dimXi, dimYi, X0, Y0, Z0, Ome, Phi, Kap }

/-- Angles in radians: `o = Ome·π/180`, `p = Phi·π/180`, `k = Kap·π/180`. -/
def Camera.o (M : MathLib) (cam : Camera) : ℚ := cam.Ome * (M.PI / 180)
/-- See `Camera.o`. -/
def Camera.p (M : MathLib) (cam : Camera) : ℚ := cam.Phi * (M.PI / 180)
/-- See `Camera.o`. -/
def Camera.k (M : MathLib) (cam : Camera) : ℚ := cam.Kap * (M.PI / 180)

/-- Entry of the omega-phi-kappa matrix. -/
def Camera.D11 (M : MathLib) (cam : Camera) : ℚ := M.cos (cam.p M) * M.cos (cam.k M)
/-- Entry of the omega-phi-kappa matrix. -/
def Camera.D12 (M : MathLib) (cam : Camera) : ℚ := -(M.cos (cam.p M) * M.sin (cam.k M))
/-- Entry of the omega-phi-kappa matrix. -/
def Camera.D13 (M : MathLib) (cam : Camera) : ℚ := M.sin (cam.p M)
/-- Entry of the omega-phi-kappa matrix. -/
def Camera.D21 (M : MathLib) (cam : Camera) : ℚ :=
  M.cos (cam.o M) * M.sin (cam.k M) + M.sin (cam.o M) * M.sin (cam.p M) * M.cos (cam.k M)
/-- Entry of the omega-phi-kappa matrix. -/
def Camera.D22 (M : MathLib) (cam : Camera) : ℚ :=
  M.cos (cam.o M) * M.cos (cam.k M) - M.sin (cam.o M) * M.sin (cam.p M) * M.sin (cam.k M)
/-- Entry of the omega-phi-kappa matrix. -/
def Camera.D23 (M : MathLib) (cam : Camera) : ℚ := -(M.sin (cam.o M) * M.cos (cam.p M))
/-- Entry of the omega-phi-kappa matrix. -/
def Camera.D31 (M : MathLib) (cam : Camera) : ℚ :=
  M.sin (cam.o M) * M.sin (cam.k M) - M.cos (cam.o M) * M.sin (cam.p M) * M.cos (cam.k M)
/-- Entry of the omega-phi-kappa matrix. -/
def Camera.D32 (M : MathLib) (cam : Camera) : ℚ :=
  M.sin (cam.o M) * M.cos (cam.k M) + M.cos (cam.o M) * M.sin (cam.p M) * M.sin (cam.k M)
/-- Entry of the omega-phi-kappa matrix. -/
def Camera.D33 (M : MathLib) (cam : Camera) : ℚ := M.cos (cam.o M) * M.cos (cam.p M)

/-- The common denominator `w = D13·dX + D23·dY + D33·dZ`. -/
def Camera.w (M : MathLib) (cam : Camera) (X Y Z : ℚ) : ℚ :=
  cam.D13 M * (X - cam.X0) + cam.D23 M * (Y - cam.Y0) + cam.D33 M * (Z - cam.Z0)

/-- The sensor-plane abscissa `x_dot = -c · (D11·dX + D21·dY + D31·dZ) / w`
with `c = -ci`. -/
def Camera.x_dot (M : MathLib) (cam : Camera) (X Y Z : ℚ) : ℚ :=
  -(-cam.ci) * (cam.D11 M * (X - cam.X0) + cam.D21 M * (Y - cam.Y0) + cam.D31 M * (Z - cam.Z0))
    / cam.w M X Y Z

/-- The sensor-plane ordinate `y_dot = -c · (D12·dX + D22·dY + D32·dZ) / w`
with `c = -ci`. -/
def Camera.y_dot (M : MathLib) (cam : Camera) (X Y Z : ℚ) : ℚ :=
  -(-cam.ci) * (cam.D12 M * (X - cam.X0) + cam.D22 M * (Y - cam.Y0) + cam.D32 M * (Z - cam.Z0))
    / cam.w M X Y Z

/-- The half-sensor extent `dimX = -dimXi·pix/2`. -/
def Camera.dimX (cam : Camera) : ℚ := -cam.dimXi * cam.pix / 2
/-- The half-sensor extent `dimY = -dimYi·pix/2`. -/
def Camera.dimY (cam : Camera) : ℚ := -cam.dimYi * cam.pix / 2

/-- The column `round( -((x_dot − xx0) + dimX) / pix )`. -/
def Camera.col (M : MathLib) (cam : Camera) (X Y Z : ℚ) : ℤ :=
  roundHalfUp (-((cam.x_dot M X Y Z - cam.xx0) + cam.dimX) / cam.pix)

/-- The row `round( -((y_dot − yy0) + dimY) / pix )`. -/
def Camera.row (M : MathLib) (cam : Camera) (X Y Z : ℚ) : ℤ :=
  roundHalfUp (-((cam.y_dot M X Y Z - cam.yy0) + cam.dimY) / cam.pix)

/-- Whether the objects and arrays that `getImageXY` reads through are
all present: `properties`, `pers:interior_orientation`,
`principal_point_offset`, `pixel_spacing`, `sensor_array_dimensions` and
`pers:perspective_center`. -/
def hasContainers (image_data : ImageData) : Bool :=
  match image_data.properties with
  | none => false
  | some props =>
    match props.interior_orientation with
    | none => false
    | some io =>
      io.principal_point_offset.isSome && io.pixel_spacing.isSome
        && io.sensor_array_dimensions.isSome && props.perspective_center.isSome

/-- Whether the entry `i` of an array is a finite number (`-0` included). -/
def isFiniteAt (xs : Option (List JSNum)) (i : Nat) : Bool :=
  match xs with
  | some l => (toNumber (index l i)).isFinite
  | none => false

/-- Whether each of the twelve scalars read by `getImageXY` is present and
finite: the principal-point offset, the focal length, the pixel spacing,
the sensor dimensions, the perspective centre and the three angles. -/
def hasFiniteScalars (image_data : ImageData) : Bool :=
  match image_data.properties with
  | none => false
  | some props =>
    match props.interior_orientation with
    | none => false
    | some io =>
      isFiniteAt io.principal_point_offset 0 && isFiniteAt io.principal_point_offset 1
        && (toNumber io.focal_length).isFinite && isFiniteAt io.pixel_spacing 0
        && isFiniteAt io.sensor_array_dimensions 0 && isFiniteAt io.sensor_array_dimensions 1
        && isFiniteAt props.perspective_center 0 && isFiniteAt props.perspective_center 1
        && isFiniteAt props.perspective_center 2 && (toNumber props.omega).isFinite
        && (toNumber props.phi).isFinite && (toNumber props.kappa).isFinite

/-! ### Sample data -/

/-- Exact arithmetic with a rational stand-in for `Math`, exact at angle
zero: second-order Taylor polynomials and `π ≈ 355/113`. -/
def approxMath : MathLib where
  cos := fun x => 1 - x * x / 2
  sin := fun x => x
  PI := 355 / 113
  fl := fin
  signedZero := false

/-- The radian measure that `radians(45)` computes in double arithmetic,
`0.7853981633974483`. -/
def radians45 : ℚ := 884279719003555 / 1125899906842624

/-- Double arithmetic with the answers of `Math.cos` and `Math.sin` at the
arguments used below: `cos 0 = 1`, `sin 0 = 0`, and at `radians(45)` the
Numbers `0.7071067811865476` and `0.7071067811865475`; elsewhere the
second-order Taylor polynomials stand in. -/
def doubleMath : MathLib :=
  ieee754
    (fun x => if x = radians45 then 6369051672525773 / 9007199254740992 else 1 - x * x / 2)
    (fun x => if x = radians45 then 1592262918131443 / 2251799813685248 else x)

/-- The Number written `0.006`. -/
def pix006 : ℚ := 3458764513820541 / 576460752303423488

/-- A nadir image with the given sensor dimensions: focal length 50, pixel
spacing 0.006, zero rotation, perspective centre 1000 above the origin. -/
def nadirImage (dimXi dimYi : ℚ) : ImageData where
  properties := some {
    interior_orientation := some {
      principal_point_offset := some [fin 0, fin 0]
      focal_length := some (fin 50)
      pixel_spacing := some [fin pix006, fin pix006]
      sensor_array_dimensions := some [fin dimXi, fin dimYi] }
    perspective_center := some [fin 0, fin 0, fin 1000]
    omega := some (fin 0)
    phi := some (fin 0)
    kappa := some (fin 0) }

/-- The camera of `nadirImage`. -/
def nadirCamera (dimXi dimYi : ℚ) : Camera where
  xx0 := 0
  yy0 := 0
  ci := 50
  pix := pix006
  dimXi := dimXi
  dimYi := dimYi
  X0 := 0
  Y0 := 0
  Z0 := 1000
  Ome := 0
  Phi := 0
  Kap := 0

/-- A nadir image: focal length 50, pixel spacing 0.006, sensor 8000×6000,
zero rotation, perspective centre 1000 above the origin. -/
def sampleImage : ImageData := nadirImage 8000 6000

/-- The camera of `sampleImage`. -/
def sampleCamera : Camera := nadirCamera 8000 6000

/-- The image `sampleImage` with the key `focal_length` absent. -/
def imageWithoutFocalLength : ImageData where
  properties := some {
    interior_orientation := some {
      principal_point_offset := some [fin 0, fin 0]
      focal_length := none
      pixel_spacing := some [fin pix006, fin pix006]
      sensor_array_dimensions := some [fin 8000, fin 6000] }
    perspective_center := some [fin 0, fin 0, fin 1000]
    omega := some (fin 0)
    phi := some (fin 0)
    kappa := some (fin 0) }

/-- A nadir image whose perspective centre lies far out on the second
axis, at `Y0 = -2^1023`: focal length 50, pixel spacing 0.006, sensor
8000×6000, zero rotation, `Z0 = 1000`. -/
def farImage : ImageData where
  properties := some {
    interior_orientation := some {
      principal_point_offset := some [fin 0, fin 0]
      focal_length := some (fin 50)
      pixel_spacing := some [fin pix006, fin pix006]
      sensor_array_dimensions := some [fin 8000, fin 6000] }
    perspective_center := some [fin 0, fin (-2 ^ 1023), fin 1000]
    omega := some (fin 0)
    phi := some (fin 0)
    kappa := some (fin 0) }

/-- The camera of `farImage`. -/
def farCamera : Camera :=
  { sampleCamera with Y0 := -2 ^ 1023 }

/-! ## The retry wrapper (`api.js`) -/

/-- What a wrapped call does that can be observed from outside: an
invocation of the wrapped operation, a line logged for a failed attempt, and
a pause of a number of milliseconds. -/
inductive Event (A : Type) where
  | invoke (args : A)
  | logFailed (attempt : Nat)
  | wait (ms : Nat)
  deriving DecidableEq

/-- An asynchronous operation: on arguments and a state of the outside
world it settles with a value or an error and leaves a new state. -/
abbrev Operation (A σ ε α : Type) := A → σ → Except ε α × σ

/-- A finished wrapped call: how the promise settled (`none` is
`undefined`), the state of the outside world, and what happened in order. -/
structure Run (A σ ε α : Type) where
  result : Except ε (Option α)
  state : σ
  trace : List (Event A)

/-- The `for` loop of `retryWrapper`, entered with the loop variable
`attempt`. -/
def retryWrapper.loop {A σ ε α : Type} (fn : Operation A σ ε α) (args : A)
    (retries delay : Nat) (attempt : Nat) (s : σ) : Run A σ ε α :=
  if attempt ≤ retries then
    match fn args s with
    | (.ok v, s1) => ⟨.ok (some v), s1, [.invoke args]⟩
    | (.error error, s1) =>
      if attempt ≥ retries then
        ⟨.error error, s1, [.invoke args, .logFailed attempt]⟩
      else
        let r := retryWrapper.loop fn args retries delay (attempt + 1) s1
        ⟨r.result, r.state, .invoke args :: .logFailed attempt :: .wait delay :: r.trace⟩
  else
    ⟨.ok none, s, []⟩
termination_by retries + 1 - attempt

/-- The function returned by `retryWrapper(fn)`, applied to `args`:
`retries = 5`, `delay = 5000`, and the loop starts at `attempt = 1`. -/
def retryWrapper {A σ ε α : Type} (fn : Operation A σ ε α) (args : A) (s : σ) : Run A σ ε α :=
  retryWrapper.loop fn args 5 5000 1 s

/-- The arguments of the invocations of the wrapped operation, in order. -/
def invocations {A : Type} : List (Event A) → List A
  | [] => []
  | .invoke a :: tr => a :: invocations tr
  | _ :: tr => invocations tr

/-- The pauses, in order. -/
def waits {A : Type} : List (Event A) → List Nat
  | [] => []
  | .wait ms :: tr => ms :: waits tr
  | _ :: tr => waits tr

/-- The state of the outside world after `n` successive invocations of
`fn` on `args`. -/
def stateAfter {A σ ε α : Type} (fn : Operation A σ ε α) (args : A) : Nat → σ → σ
  | 0, s => s
  | n + 1, s => stateAfter fn args n (fn args s).2

/-- How the invocation number `n + 1` of `fn` on `args` settles. -/
def outcome {A σ ε α : Type} (fn : Operation A σ ε α) (args : A) (n : Nat) (s : σ) :
    Except ε α :=
  (fn args (stateAfter fn args n s)).1

/-- The events of `n` failed attempts numbered from `a`, each followed by
a pause. -/
def failedRounds {A : Type} (args : A) (delay : Nat) : Nat → Nat → List (Event A)
  | _, 0 => []
  | a, n + 1 => .invoke args :: .logFailed a :: .wait delay :: failedRounds args delay (a + 1) n

/-- An operation that counts its invocations and fails on each of the
first `k` with the invocation number as error, then succeeds with `v`. -/
def failsThenSucceeds (k : Nat) (v : String) : Operation Unit Nat Nat String :=
  fun _ n => (if n < k then .error (n + 1) else .ok v, n + 1)

/-- An operation that counts its invocations and fails on each with the
invocation number as error. -/
def alwaysFails : Operation Unit Nat Nat String :=
  fun _ n => (.error (n + 1), n + 1)

/-! ## Catalog queries (`api.js`) -/

/-- A JavaScript value as it occurs in the search filter. -/
inductive JSValue where
  | undefined
  | num (n : JSNum)
  | str (s : String)
  | arr (items : List JSValue)
  | obj (entries : List (String × JSValue))

/-- An array element read by index: `undefined` outside the bounds. -/
def elementAt (xs : List JSNum) (i : Nat) : JSValue :=
  match xs.get? i with
  | some n => .num n
  | none => .undefined

/-- Truthiness of an optional string argument: `undefined` (`none`) and
the empty string are falsy. -/
def truthy : Option String → Bool
  | none => false
  | some c => c != ""

/-- The object `search_query` of `queryItems`, after the conditional
`push`. -/
def queryItems.search_query (coord : List JSNum) (direction : String)
    (collection : Option String) : JSValue :=
  let and0 : List JSValue := [
    .obj [("contains", .arr [.obj [("property", .str "geometry")],
      .obj [("type", .str "Point"), ("coordinates", .arr [elementAt coord 0, elementAt coord 1])]])],
    .obj [("eq", .arr [.obj [("property", .str "direction")], .str direction])]]
  let and1 : List JSValue :=
    if truthy collection then
      and0 ++ [.obj [("eq", .arr [.obj [("property", .str "collection")],
        match collection with
        | some c => .str c
        | none => .undefined])]]
    else and0
  .obj [("and", .arr and1)]

/-- The request `/search?limit=…&filter=…&filter-lang=cql-json&…` handed
to `getSTAC`: its `limit` and the value whose JSON text is the `filter`
parameter. -/
structure SearchRequest where
  limit : JSNum
  filter : JSValue

/-- The arguments of `queryItems`: `coord`, `direction`, the optional
`collection` and the optional `limit` (default `1`). -/
structure QueryArgs where
  coord : List JSNum
  direction : String
  collection : Option String
  limit : Option JSNum

/-- The function `queryItems`: one `getSTAC` search; an error is logged and
thrown again. -/
def queryItems {σ ε ρ : Type} (getSTAC : Operation SearchRequest σ ε ρ) :
    Operation QueryArgs σ ε ρ :=
  fun q s =>
    match getSTAC ⟨q.limit.getD 1, queryItems.search_query q.coord q.direction q.collection⟩ s with
    | (.ok response, s1) => (.ok response, s1)
    | (.error error, s1) => (.error error, s1)

/-- A record of the catalog's collection list: its `id` and the rest of
the record. -/
structure Collection where
  id : String
  title : String
  deriving DecidableEq

/-- The method `toLowerCase` (on the ASCII letters, the only ones whose
lower case is a letter of `test`). -/
def toLowerCase (s : String) : String := s.map Char.toLower

/-- The method `includes`: `t` occurs in `s` as a contiguous substring. -/
def includes (s t : String) : Bool := decide (t.toList <:+: s.toList)

/-- The method `sort` with a comparator function: a stable sort that puts
`a` before `b` when `compare a b ≤ 0`. -/
def sortBy {α : Type} (compare : α → α → Int) (xs : List α) : List α :=
  xs.insertionSort (fun a b => compare a b ≤ 0)

/-- The `then` callback of `getCollections`. -/
def getCollections.onData (localeCompare : String → String → Int)
    (collections : List Collection) : List Collection :=
  let sorted_collections := sortBy (fun a b => localeCompare a.id b.id) collections
  sorted_collections.filter (fun coll => !includes (toLowerCase coll.id) "test")

/-- The function `getCollections`: `getSTAC('/collections')`, then
`getCollections.onData`; an error is logged and thrown again. -/
def getCollections {σ ε : Type} (localeCompare : String → String → Int)
    (getSTAC : Operation String σ ε (List Collection)) : Operation Unit σ ε (List Collection) :=
  fun _ s =>
    match getSTAC "/collections" s with
    | (.ok data, s1) => (.ok (getCollections.onData localeCompare data), s1)
    | (.error error, s1) => (.error error, s1)

/-! ### The filter as the design document words it -/

/-- A term of the filter. -/
inductive FilterTerm where
  | containsPoint (property : String) (x y : JSNum)
  | eq (property : String) (value : String)

/-- The cql-json form of a term. -/
def FilterTerm.toJSValue : FilterTerm → JSValue
  | .containsPoint property x y =>
    .obj [("contains", .arr [.obj [("property", .str property)],
      .obj [("type", .str "Point"), ("coordinates", .arr [.num x, .num y])]])]
  | .eq property value => .obj [("eq", .arr [.obj [("property", .str property)], .str value])]

/-- The cql-json form of a conjunction of terms. -/
def andFilter (terms : List FilterTerm) : JSValue := .obj [("and", .arr (terms.map FilterTerm.toJSValue))]

/-- The terms required of the filter: the geometry contains the query
point, the direction equals `d`, and, for a supplied (non-empty)
collection `c`, the collection equals `c`. -/
def requiredTerms (x y : JSNum) (d : String) (collection : Option String) : List FilterTerm :=
  [.containsPoint "geometry" x y, .eq "direction" d] ++
    (match collection with
     | some c => if c = "" then [] else [.eq "collection" c]
     | none => [])

/-- An id contains `test` in some letter case: a contiguous part of it
reads `test` once lowered. -/
def containsTestAnyCase (id : String) : Prop :=
  ∃ u : List Char, u <:+: id.toList ∧ u.map Char.toLower = "test".toList

/-- Comparison of strings by code points, in the shape of `localeCompare`. -/
def compareCodePoints (a b : String) : Int :=
  if a < b then -1 else if a = b then 0 else 1

/-- The rank of a character in the collation that the platform's
`localeCompare` uses by default, on the characters of collection ids: the
underscore, a punctuation mark, sorts before the digits and the digits
before the letters, whose case does not count at this level; any other
character is ranked after the letters, by code point. -/
def collationRank (c : Char) : Nat :=
  if c = '_' then 0
  else if c.isDigit then 1 + (c.toNat - 48)
  else if c.isLower then 11 + (c.toNat - 97)
  else if c.isUpper then 11 + (c.toNat - 65)
  else 37 + c.toNat

/-- A comparator in the shape of `localeCompare` for that collation: by the
ranks of the characters first and, between strings of equal ranks, lower
case before upper case. -/
def collationCompare (a b : String) : Int :=
  if a.toList.map collationRank < b.toList.map collationRank then -1
  else if b.toList.map collationRank < a.toList.map collationRank then 1
  else if a.toList.map (fun c => c.isUpper.toNat) < b.toList.map (fun c => c.isUpper.toNat) then -1
  else if b.toList.map (fun c => c.isUpper.toNat) < a.toList.map (fun c => c.isUpper.toNat) then 1
  else 0

/-- A sample collection list. -/
def sampleCollections : List Collection :=
  [⟨"skraafotos2021", "2021"⟩, ⟨"skraafotos_TEST", "test data"⟩, ⟨"skraafotos2017", "2017"⟩]

/-- A collection list with an underscore where another id has a digit. -/
def underscoreCollections : List Collection :=
  [⟨"skraafotos2017", "2017"⟩, ⟨"skraafotos_x", "extra"⟩]

/-! ## The bounding-box sweep (`imgsFromBox.js`) -/

/-- A catalog item (a feature of a response page): its `id`, the links
`assets.data.href` and `assets.thumbnail.href` when present, its
`properties.direction`, and the camera metadata read by `getImageXY`. -/
structure Feature where
  id : String
  dataHref : Option String
  thumbnailHref : Option String
  direction : String
  image_data : ImageData

/-- An entry of `links`. -/
structure Link where
  rel : String
  href : String

/-- A response page of the catalog. -/
structure Page where
  links : List Link
  features : List Feature

/-- Why a sweep raises: a property read on `undefined`, or a request that
fails. -/
inductive SweepError where
  | typeError
  | fetchFailed
  deriving DecidableEq

/-- A generator run to its end: the batches yielded, in order, and whether
it returned or raised. -/
structure GenRun where
  yielded : List (List Feature)
  ending : Except SweepError Unit

/-- The batches `ys` are yielded before the rest of the run. -/
def GenRun.after (ys : List (List Feature)) (r : GenRun) : GenRun :=
  ⟨ys ++ r.yielded, r.ending⟩

/-- The generator `getNextSet(first)` run to its end against a catalog
`fetchPage` (`none` is a failed request).  Each iteration of the `do … while`
loop uses one unit of `fuel`; `none` means the loop is still running when
the fuel is spent. -/
def getNextSet (fetchPage : String → Option Page) : Nat → Page → Option GenRun
  | 0, _ => none
  | fuel + 1, next =>
    if next.links.length < 2 then some ⟨[], .ok ()⟩
    else
      match next.links.get? 1 with
      | none => some ⟨[], .error .typeError⟩
      | some link =>
        match fetchPage link.href with
        | none => some ⟨[], .error .fetchFailed⟩
        | some fetched =>
          let current := next
          -- yield current.features
          match fetched.links.get? 1 with
          | none => some ⟨[current.features], .error .typeError⟩
          | some link1 =>
            let ys :=
              if link1.rel == "previous" then [current.features, fetched.features]
              else [current.features]
            if link1.rel == "next" || false then
              (getNextSet fetchPage fuel fetched).map (GenRun.after ys)
            else some ⟨ys, .ok ()⟩

/-- The request URL of `findImgLinksInBox` from the four entries of `bbox`
in their text form. -/
def findImgLinksInBox.url (bbox : List String) : String :=
  "https://api.dataforsyningen.dk/rest/skraafoto_api/v1.0/search?bbox="
    ++ bbox.getD 0 "undefined" ++ "," ++ bbox.getD 1 "undefined" ++ ","
    ++ bbox.getD 2 "undefined" ++ "," ++ bbox.getD 3 "undefined"

/-- The function `findImgLinksInBox(bbox)`: fetch the first page, drain
`getNextSet` into `elemntsOfBox`, and drop the sentinel id.  `none` means the
sweep is still running when the fuel is spent. -/
def findImgLinksInBox (fetchPage : String → Option Page) (fuel : Nat) (bbox : List String) :
    Option (Except SweepError (List Feature)) :=
  match fetchPage (findImgLinksInBox.url bbox) with
  | none => some (.error .fetchFailed)
  | some first =>
    match getNextSet fetchPage fuel first with
    | none => none
    | some ⟨_, .error e⟩ => some (.error e)
    | some ⟨batches, .ok ()⟩ =>
      let elemntsOfBox := batches.flatten
      some (.ok (elemntsOfBox.filter (fun e => e.id != "2023_jul_i_job")))

/-! ### Sample catalogs -/

/-- A feature with the given id and nothing else. -/
def bareFeature (id : String) : Feature :=
  ⟨id, none, none, "", ⟨none⟩⟩

/-- A two-page catalog: the first page links to `p1` as `next`, and `p1`
links back as `previous`; the sentinel item is on the first page. -/
def twoPageCatalog : String → Option Page := fun url =>
  if url = findImgLinksInBox.url ["1", "2", "3", "4"] then
    some ⟨[⟨"self", "p0"⟩, ⟨"next", "p1"⟩], [bareFeature "a", bareFeature "2023_jul_i_job"]⟩
  else if url = "p1" then
    some ⟨[⟨"self", "p1"⟩, ⟨"previous", "p0"⟩], [bareFeature "b"]⟩
  else none

/-- A two-page catalog whose last page has a single link: the first page
links to `p1` as `next`, and `p1` carries only its `self` link. -/
def shortLastPageCatalog : String → Option Page := fun url =>
  if url = findImgLinksInBox.url ["1", "2", "3", "4"] then
    some ⟨[⟨"self", "p0"⟩, ⟨"next", "p1"⟩], [bareFeature "a"]⟩
  else if url = "p1" then
    some ⟨[⟨"self", "p1"⟩], [bareFeature "b"]⟩
  else none

/-- A catalog with a single page that carries one item and only its `self`
link. -/
def singlePageCatalog : String → Option Page := fun _ =>
  some ⟨[⟨"self", "p0"⟩], [bareFeature "a"]⟩

/-- A page whose second link has relation `next`. -/
def echoPage : Page := ⟨[⟨"self", "p"⟩, ⟨"next", "p"⟩], [bareFeature "a"]⟩

/-- A catalog that answers every request with `echoPage`. -/
def echoCatalog : String → Option Page := fun _ => some echoPage

/-! ## Elevation and address requests (`api.js`) -/

/-- An operation instrumented with a counter of its invocations. -/
def counted {A σ ε α : Type} (op : Operation A σ ε α) : Operation A (σ × Nat) ε α :=
  fun a s => ((op a s.1).1, ((op a s.1).2, s.2 + 1))

/-- An operation instrumented to record its invocations: the arguments of
each call are appended to a log kept in the state of the outside world. -/
def recorded {A σ ε α : Type} (op : Operation A σ ε α) : Operation A (σ × List A) ε α :=
  fun a s => ((op a s.1).1, ((op a s.1).2, s.2 ++ [a]))

/-- An operation run next to such a log, which it does not touch. -/
def unrecorded {A B σ ε α : Type} (op : Operation A σ ε α) : Operation A (σ × List B) ε α :=
  fun a s => ((op a s.1).1, ((op a s.1).2, s.2))

/-- An elevation sample `{kote: …}`. -/
structure Sample where
  kote : Option JSNum

/-- The envelope `HentKoterRespons`; an absent `data` is `none`. -/
structure HentKoterRespons where
  data : Option (List Sample)

/-- The body `response.data` of the elevation response. -/
structure ElevationBody where
  HentKoterRespons : Option HentKoterRespons

/-- The response of `axios.get`; an absent `data` is `none`. -/
structure ElevationResponse where
  data : Option ElevationBody

/-- An error raised by `getElevationData`: `new Error('No elevation data
found.')`, a `TypeError`, or the rejection of the request. -/
inductive ElevationError (ε : Type) where
  | noElevationData
  | typeError
  | request (e : ε)

/-- The process-wide `configuration` object. -/
structure Configuration where
  API_DHM_TOKENA : String
  API_DHM_TOKENB : String
  API_STAC_TOKEN : String

/-- The arguments of `getElevationData`; an omitted one is `none`, the
coordinates are in their text form. -/
structure ElevationArgs where
  username : Option String
  password : Option String
  coordinates : Option (List String)

/-- The GET request of `getElevationData`: the values of the query
parameters `username`, `password` and `geop`. -/
structure ElevationRequest where
  username : String
  password : String
  geop : String
  deriving DecidableEq

/-- The function `getElevationData`: one `axios.get`; the first `kote`
when the envelope holds a sample, the error `No elevation data found.`
otherwise; every error is logged and thrown again. -/
def getElevationData {σ ε : Type} (configuration : Configuration)
    (axiosGet : Operation ElevationRequest σ ε ElevationResponse) :
    Operation ElevationArgs σ (ElevationError ε) (Option JSNum) :=
  fun a s =>
    let username := a.username.getD configuration.API_DHM_TOKENA
    let password := a.password.getD configuration.API_DHM_TOKENB
    match a.coordinates with
    | none => (.error .typeError, s)
    | some coordinates =>
      let point := "POINT(" ++ " ".intercalate coordinates ++ ")"
      match axiosGet ⟨username, password, point⟩ s with
      | (.error e, s1) => (.error (.request e), s1)
      | (.ok response, s1) =>
        match response.data with
        | none => (.error .noElevationData, s1)
        | some body =>
          match body.HentKoterRespons with
          | none => (.error .noElevationData, s1)
          | some envelope =>
            match envelope.data with
            | none => (.error .typeError, s1)
            | some samples =>
              if samples.length > 0 then
                match samples.head? with
                | some sample => (.ok sample.kote, s1)
                | none => (.error .typeError, s1)
              else (.error .noElevationData, s1)

/-- The outcome worded for a well-formed envelope: the `kote` of the first
sample, or the no-elevation-data error when there is no sample. -/
def expectedElevation {ε : Type} : List Sample → Except (ElevationError ε) (Option JSNum)
  | sample :: _ => .ok sample.kote
  | [] => .error .noElevationData

/-- The exported `getElevationData`: `getElevationDataWithRetry`. -/
def getElevationDataWithRetry {σ ε : Type} (configuration : Configuration)
    (axiosGet : Operation ElevationRequest σ ε ElevationResponse) (a : ElevationArgs) (s : σ) :
    Run ElevationArgs σ (ElevationError ε) (Option JSNum) :=
  retryWrapper (getElevationData configuration axiosGet) a s

/-- The response to the address request of `imgsFromPolygon`: the flag
`response.ok`, the status, and how `response.json()` settles. -/
structure AddressResponse (ε D : Type) where
  ok : Bool
  status : Nat
  json : Except ε D

/-- An error inside `imgsFromPolygon`: `new Error('HTTP error! Status: …')`
or a rejection of the request or of `response.json()`. -/
inductive PolygonError (ε : Type) where
  | httpError (status : Nat)
  | request (e : ε)

/-- The `try` block of `imgsFromPolygon`. -/
def imgsFromPolygon.tryBlock {P σ ε D : Type} (fetch : Operation P σ ε (AddressResponse ε D)) :
    Operation P σ (PolygonError ε) D :=
  fun polygon s =>
    match fetch polygon s with
    | (.error e, s1) => (.error (.request e), s1)
    | (.ok response, s1) =>
      if !response.ok then (.error (.httpError response.status), s1)
      else
        match response.json with
        | .error e => (.error (.request e), s1)
        | .ok data => (.ok data, s1)

/-- The function `imgsFromPolygon`: the `try` block; a caught error is
logged and the function returns `undefined` (`none`).  The text
`JSON.stringify(polygon)`, built before the `try`, is part of the request
`polygon` handed to `fetch`. -/
def imgsFromPolygon {P σ ε D : Type} (fetch : Operation P σ ε (AddressResponse ε D)) :
    Operation P σ (PolygonError ε) (Option D) :=
  fun polygon s =>
    match imgsFromPolygon.tryBlock fetch polygon s with
    | (.ok data, s1) => (.ok (some data), s1)
    | (.error _, s1) => (.ok none, s1)

/-- The exported `imgsFromPolygon`: `imgsFromPolygonWithRetry`. -/
def imgsFromPolygonWithRetry {P σ ε D : Type} (fetch : Operation P σ ε (AddressResponse ε D))
    (polygon : P) (s : σ) : Run P σ (PolygonError ε) (Option D) :=
  retryWrapper (imgsFromPolygon fetch) polygon s

/-- The call `retryWrapper(fn, retries, delay)`: the function declares the
single parameter `fn`, so further arguments are ignored. -/
def retryWrapper.withPolicy {A σ ε α : Type} (fn : Operation A σ ε α) (_retries _delay : Nat)
    (args : A) (s : σ) : Run A σ ε α :=
  retryWrapper fn args s

/-! ### Sample services -/

/-- A sample configuration. -/
def sampleConfiguration : Configuration := ⟨"user", "secret", "token"⟩

/-- An elevation service that answers every request with a well-formed
envelope holding the given samples. -/
def elevationService (samples : List Sample) : Operation ElevationRequest Unit String ElevationResponse :=
  fun _ s => (.ok ⟨some ⟨some ⟨some samples⟩⟩⟩, s)

/-- Arguments of a sample elevation call. -/
def sampleElevationArgs : ElevationArgs := ⟨none, none, some ["728368.05", "6174304.56"]⟩

/-- An address service that answers every request with status 503. -/
def unavailableAddressService : Operation String Unit String (AddressResponse String (List String)) :=
  fun _ s => (.ok ⟨false, 503, .ok []⟩, s)

/-! ## Address lookup (`addressSearch.js`) -/

/-- The object `geometri` of a candidate; an absent `coordinates` is
`none`, and an entry of `coordinates` that is not an array is `none`. -/
structure Geometri where
  coordinates : Option (List (Option (List JSNum)))

/-- A candidate address of the lookup response. -/
structure House where
  vejnavn : String
  husnummertekst : String
  postnummer : String
  geometri : Option Geometri

/-- The argument `address` of `addressToCoords`. -/
structure Address where
  road : String
  housenumber : String
  postalcode : String

/-- An error raised by `addressToCoords`: one of its three `new Error(…)`
or the rejection of the request. -/
inductive AddressError (ε : Type) where
  | noHouses
  | houseNotFound
  | invalidCoordinates
  | request (e : ε)

/-- The function `addressToCoords`; the lookup takes the text
`road housenumber postalcode` and answers with an array of candidates
(`none` when the answer is not an array).  Every error is logged and thrown
again. -/
def addressToCoords {σ ε : Type} (fetch : Operation String σ ε (Option (List House))) :
    Operation Address σ (AddressError ε) (List JSNum) :=
  fun address s =>
    let query := address.road ++ " " ++ address.housenumber ++ " " ++ address.postalcode
    match fetch query s with
    | (.error e, s1) => (.error (.request e), s1)
    | (.ok none, s1) => (.error .noHouses, s1)
    | (.ok (some houses), s1) =>
      if houses.length == 0 then (.error .noHouses, s1)
      else
        -- Find the house that matches the road name, house number, and postal code
        let house := houses.find? (fun h =>
          h.husnummertekst == address.housenumber &&
          h.postnummer == address.postalcode)
        match house with
        | none => (.error .houseNotFound, s1)
        | some house =>
          match house.geometri with
          | none => (.error .houseNotFound, s1)
          | some geometri =>
            match geometri.coordinates with
            | none => (.error .houseNotFound, s1)
            | some coordinates =>
              match coordinates.get? 0 with
              | some (some coords) =>
                if coords.length < 2 then (.error .invalidCoordinates, s1)
                else (.ok coords, s1)
              | _ => (.error .invalidCoordinates, s1)

/-- A lookup answering with two candidates that share house number and
postal code and differ in the road name. -/
def twoRoadsLookup : Operation String Unit String (Option (List House)) :=
  fun _ s => (.ok (some [
    ⟨"Other Road", "1", "1000", some ⟨some [some [fin 1, fin 2]]⟩⟩,
    ⟨"Main Street", "1", "1000", some ⟨some [some [fin 3, fin 4]]⟩⟩]), s)

/-! ### The rotation matrix as a matrix -/

/-- The matrix `D` of the camera, with the entries worded in the design
document. -/
def Camera.D (M : MathLib) (cam : Camera) : Matrix (Fin 3) (Fin 3) ℚ :=
  !![cam.D11 M, cam.D12 M, cam.D13 M;
     cam.D21 M, cam.D22 M, cam.D23 M;
     cam.D31 M, cam.D32 M, cam.D33 M]

/-- The rotation about the first axis by the angle with cosine `c` and
sine `s`. -/
def rotX (c s : ℚ) : Matrix (Fin 3) (Fin 3) ℚ :=
  !![1, 0, 0; 0, c, -s; 0, s, c]

/-- The rotation about the second axis. -/
def rotY (c s : ℚ) : Matrix (Fin 3) (Fin 3) ℚ :=
  !![c, 0, s; 0, 1, 0; -s, 0, c]

/-- The rotation about the third axis. -/
def rotZ (c s : ℚ) : Matrix (Fin 3) (Fin 3) ℚ :=
  !![c, -s, 0; s, c, 0; 0, 0, 1]

/-- The entries of a rational matrix as a `Rotation` of finite numbers. -/
def Rotation.ofMatrix (R : Matrix (Fin 3) (Fin 3) ℚ) : Rotation where
  D11 := fin (R 0 0)
  D12 := fin (R 0 1)
  D13 := fin (R 0 2)
  D21 := fin (R 1 0)
  D22 := fin (R 1 1)
  D23 := fin (R 1 2)
  D31 := fin (R 2 0)
  D32 := fin (R 2 1)
  D33 := fin (R 2 2)

/-- The values of the entries of a `Rotation` as a rational matrix. -/
def Rotation.toMatrix (D : Rotation) : Matrix (Fin 3) (Fin 3) ℚ :=
  !![D.D11.toRat, D.D12.toRat, D.D13.toRat;
     D.D21.toRat, D.D22.toRat, D.D23.toRat;
     D.D31.toRat, D.D32.toRat, D.D33.toRat]

/-- Exact arithmetic with a rational stand-in for `Math` whose cosine and
sine lie exactly on the unit circle: the rational parametrisation of the
circle by the half angle. -/
def circleMath : MathLib where
  cos := fun x => (1 - (x / 2) ^ 2) / (1 + (x / 2) ^ 2)
  sin := fun x => 2 * (x / 2) / (1 + (x / 2) ^ 2)
  PI := 355 / 113
  fl := fin
  signedZero := false

/-- An oblique camera: `sampleCamera` turned by 45, 10 and 90 degrees. -/
def obliqueCamera : Camera :=
  { sampleCamera with Ome := 45, Phi := 10, Kap := 90 }

/-! ## The pages (`MapPage.jsx`, `MultiViewerPage.jsx`, `refreshItems.jsx`) -/

/-- The feature collection returned by `queryItems`; an absent `features`
is `none`. -/
structure QueryResponse where
  features : Option (List Feature)

/-- The feature `response.features[0]` when `response.features &&
response.features.length > 0`. -/
def firstFeature (response : QueryResponse) : Option Feature :=
  match response.features with
  | some (feature :: _) => some feature
  | _ => none

/-- The expression `href || null` on an optional (`?.`) link. -/
def orNull : Option String → Option String
  | some url => if url = "" then none else some url
  | none => none

/-- The constant `directions` of both pages. -/
def directions : List String := ["north", "south", "east", "west", "nadir"]

/-- The constant `limit` of both pages. -/
def limit : JSNum := 5

/-- A call of a state setter of a page component. -/
inductive Setter where
  | setErrorMessage (message : String) (statusCode : Nat)
  | setSelectedItem (item : Option Feature)
  | setImagesTif (mapping : List (String × Option String))
  | setImages (mapping : List (String × Option String))
  | setCenter (imageCoord : JSNum × JSNum)
  | setKote (kote : Option JSNum)

/-- What one run of a page effect did: the calls of `queryItems` in order,
each with how it settled; the call of `getElevationData`, if any, with how
it settled; the arguments `(coordinates, item, kote)` of the call of
`updateCenter`, if any; and the calls of state setters in order. -/
structure Round (ε : Type) where
  queries : List (QueryArgs × Except ε QueryResponse)
  elevation : Option (List JSNum × Except ε (Option JSNum))
  projection : Option (List JSNum × Feature × Option JSNum)
  setters : List Setter

/-- The object returned by `updateCenter`. -/
structure CenterResult where
  worldCoord : List (Option JSNum)
  imageCoord : JSNum × JSNum

/-- The function `updateCenter(coordinate, item, kote)` of `centerImage.js`;
`none` is its `undefined` or `null` result. -/
def updateCenter (M : MathLib) (coordinate : List JSNum) (item : Option Feature)
    (kote : Option JSNum) : Option CenterResult :=
  match item with
  | none => none
  | some item =>
    match getImageXY M item.image_data (toNumber (index coordinate 0))
        (toNumber (index coordinate 1)) kote with
    | .ok imageCoord => some ⟨coordinate.map some ++ [kote], imageCoord⟩
    | .error _ => none

/-- The local variables of the `for` loop of `fetchImages` in `MapPage`,
with the calls made so far and the state of the outside world. -/
structure MapLoop (σ ε : Type) where
  newImagesTif : List (String × Option String)
  currentSelectedItem : Option Feature
  queries : List (QueryArgs × Except ε QueryResponse)
  setters : List Setter
  state : σ

/-- One iteration of the `for` loop of `fetchImages` in `MapPage`. -/
def MapPage.fetchImages.step {σ ε : Type} (queryItems : Operation QueryArgs σ ε QueryResponse)
    (coordinates : List JSNum) (selectedDirection selectedCollection : String)
    (acc : MapLoop σ ε) (direction : String) : MapLoop σ ε :=
  let args : QueryArgs := ⟨coordinates, direction, some selectedCollection, some limit⟩
  match queryItems args acc.state with
  | (.ok response, s1) =>
    match firstFeature response with
    | some feature =>
      { newImagesTif := acc.newImagesTif ++ [(direction, orNull feature.dataHref)]
        currentSelectedItem :=
          if direction = selectedDirection then some feature else acc.currentSelectedItem
        queries := acc.queries ++ [(args, .ok response)]
        setters := acc.setters
        state := s1 }
    | none =>
      { newImagesTif := acc.newImagesTif ++ [(direction, none)]
        currentSelectedItem := acc.currentSelectedItem
        queries := acc.queries ++ [(args, .ok response)]
        setters := acc.setters ++ [.setErrorMessage "Invalid authorization credentials" 401]
        state := s1 }
  | (.error error, s1) =>
    { newImagesTif := acc.newImagesTif ++ [(direction, none)]
      currentSelectedItem := acc.currentSelectedItem
      queries := acc.queries ++ [(args, .error error)]
      setters := acc.setters
        ++ [.setErrorMessage "The API server seems to be down for the moment" 503]
      state := s1 }

/-- The function `fetchImages` of `MapPage`, for the `coordinates`,
`selectedDirection` and `selectedCollection` of the render that started it;
`getElevationData` is applied to the configured tokens and the coordinates. -/
def MapPage.fetchImages {σ ε : Type} (M : MathLib)
    (queryItems : Operation QueryArgs σ ε QueryResponse)
    (getElevationData : Operation (List JSNum) σ ε (Option JSNum))
    (coordinates : List JSNum) (selectedDirection selectedCollection : String) (s : σ) :
    Round ε × σ :=
  let acc := directions.foldl
    (MapPage.fetchImages.step queryItems coordinates selectedDirection selectedCollection)
    ⟨[], none, [], [], s⟩
  let setters := acc.setters
    ++ [.setSelectedItem acc.currentSelectedItem, .setImagesTif acc.newImagesTif]
  match acc.currentSelectedItem with
  | none => (⟨acc.queries, none, none, setters⟩, acc.state)
  | some item =>
    match getElevationData coordinates acc.state with
    | (.ok elevation, s1) =>
      match updateCenter M coordinates (some item) elevation with
      | some result =>
        (⟨acc.queries, some (coordinates, .ok elevation), some (coordinates, item, elevation),
          setters ++ [.setCenter result.imageCoord]⟩, s1)
      | none =>
        (⟨acc.queries, some (coordinates, .ok elevation), some (coordinates, item, elevation),
          setters⟩, s1)
    | (.error error, s1) =>
      (⟨acc.queries, some (coordinates, .error error), none,
        setters ++ [.setErrorMessage "The API server seems to be down for the moment" 503]⟩, s1)

/-- The state of the `MapPage` component that the effect publishes to;
`errorMessage = none` is `{message: null, statusCode: null}`. -/
structure MapPageState where
  imagesTif : List (String × Option String)
  selectedItem : Option Feature
  center : Option (JSNum × JSNum)
  errorMessage : Option (String × Nat)

/-- The effect of one setter call on the state of `MapPage`. -/
def MapPageState.set (st : MapPageState) : Setter → MapPageState
  | .setErrorMessage message statusCode => { st with errorMessage := some (message, statusCode) }
  | .setSelectedItem item => { st with selectedItem := item }
  | .setImagesTif mapping => { st with imagesTif := mapping }
  | .setCenter imageCoord => { st with center := some imageCoord }
  | _ => st

/-- The state of `MapPage` after the setter calls of a round, in order. -/
def MapPageState.after (st : MapPageState) (setters : List Setter) : MapPageState :=
  setters.foldl MapPageState.set st

/-- The initial state of `MapPage`. -/
def MapPageState.initial : MapPageState := ⟨[], none, none, none⟩

/-- The local variables of the `for` loop of `fetchImages` in
`MultiViewerPage`, with the calls made so far and the state of the outside
world. -/
structure MultiLoop (σ ε : Type) where
  newImages : List (String × Option String)
  newImagesTif : List (String × Option String)
  currentSelectedItem : Option Feature
  queries : List (QueryArgs × Except ε QueryResponse)
  state : σ

/-- The constant `collection` of `MultiViewerPage`. -/
def MultiViewerPage.collection : String := "skraafotos2023"

/-- One iteration of the `for` loop of `fetchImages` in `MultiViewerPage`. -/
def MultiViewerPage.fetchImages.step {σ ε : Type}
    (queryItems : Operation QueryArgs σ ε QueryResponse)
    (coordinates : List JSNum) (selectedDirection : String)
    (acc : MultiLoop σ ε) (direction : String) : MultiLoop σ ε :=
  let args : QueryArgs := ⟨coordinates, direction, some MultiViewerPage.collection, some limit⟩
  match queryItems args acc.state with
  | (.ok response, s1) =>
    match firstFeature response with
    | some feature =>
      { newImages := acc.newImages ++ [(direction, orNull feature.thumbnailHref)]
        newImagesTif := acc.newImagesTif ++ [(direction, orNull feature.dataHref)]
        currentSelectedItem :=
          if direction = selectedDirection then some feature else acc.currentSelectedItem
        queries := acc.queries ++ [(args, .ok response)]
        state := s1 }
    | none =>
      { newImages := acc.newImages ++ [(direction, none)]
        newImagesTif := acc.newImagesTif ++ [(direction, none)]
        currentSelectedItem := acc.currentSelectedItem
        queries := acc.queries ++ [(args, .ok response)]
        state := s1 }
  | (.error error, s1) =>
    { newImages := acc.newImages ++ [(direction, none)]
      newImagesTif := acc.newImagesTif ++ [(direction, none)]
      currentSelectedItem := acc.currentSelectedItem
      queries := acc.queries ++ [(args, .error error)]
      state := s1 }

/-- The function `fetchImages` of `MultiViewerPage`. -/
def MultiViewerPage.fetchImages {σ ε : Type}
    (queryItems : Operation QueryArgs σ ε QueryResponse)
    (coordinates : List JSNum) (selectedDirection : String) (s : σ) : Round ε × σ :=
  let acc := directions.foldl
    (MultiViewerPage.fetchImages.step queryItems coordinates selectedDirection)
    ⟨[], [], none, [], s⟩
  (⟨acc.queries, none, none,
    [.setSelectedItem acc.currentSelectedItem, .setImages acc.newImages,
      .setImagesTif acc.newImagesTif]⟩, acc.state)

/-- The function `fetchElevationAndUpdateCenter` of `MultiViewerPage`, for
the `coordinates`, `selectedItem` and `kote` of the render that started it. -/
def MultiViewerPage.fetchElevationAndUpdateCenter {σ ε : Type} (M : MathLib)
    (getElevationData : Operation (List JSNum) σ ε (Option JSNum))
    (coordinates : Option (List JSNum)) (selectedItem : Option Feature) (kote : Option JSNum)
    (s : σ) : Round ε × σ :=
  match coordinates, selectedItem with
  | some coordinates, some selectedItem =>
    match getElevationData coordinates s with
    | (.ok elevation, s1) =>
      match updateCenter M coordinates (some selectedItem) kote with
      | some result =>
        (⟨[], some (coordinates, .ok elevation), some (coordinates, selectedItem, kote),
          [.setKote elevation, .setCenter result.imageCoord]⟩, s1)
      | none =>
        (⟨[], some (coordinates, .ok elevation), some (coordinates, selectedItem, kote),
          [.setKote elevation]⟩, s1)
    | (.error error, s1) =>
      (⟨[], some (coordinates, .error error), none, [.setKote none]⟩, s1)
  | _, _ => (⟨[], none, none, []⟩, s)

/-- The keys of `itemTerrainPairs` in `refreshItems`, in order. -/
def refreshItems.keys : List String := ["nadir", "north", "south", "east", "west"]

/-- Why `refreshItems` rejects: a property read on `undefined`, or a
rejected request. -/
inductive RefreshError (ε : Type) where
  | typeError
  | rejected (e : ε)

/-- The calls `op(a)` for the arguments in order, each with how it
settles. -/
def issueAll {A σ ε α : Type} (op : Operation A σ ε α) : List A → σ → List (A × Except ε α) × σ
  | [], s => ([], s)
  | a :: rest, s =>
    ((a, (op a s).1) :: (issueAll op rest (op a s).2).1, (issueAll op rest (op a s).2).2)

/-- The function `Promise.all` on settled promises: the values in order,
or the first rejection. -/
def promiseAll {ε α : Type} : List (Except ε α) → Except ε (List α)
  | [] => .ok []
  | .error e :: _ => .error e
  | .ok a :: rest =>
    match promiseAll rest with
    | .ok as => .ok (a :: as)
    | .error e => .error e

/-- The assignment `object[key] = value` on an object with its keys in
order. -/
def setKey {V : Type} : List (String × V) → String → V → List (String × V)
  | [], key, value => [(key, value)]
  | (k, v) :: rest, key, value =>
    if k = key then (k, value) :: rest else (k, v) :: setKey rest key value

/-- The last loop of `refreshItems`: each pair of an item and its terrain
is stored under the item's direction; an absent `features[0]` raises. -/
def refreshItems.assign {ε T : Type} :
    List (QueryResponse × T) → List (String × Option (Feature × T)) →
      Except (RefreshError ε) (List (String × Option (Feature × T)))
  | [], pairs => .ok pairs
  | (response, terrain) :: rest, pairs =>
    match response.features with
    | none => .error .typeError
    | some features =>
      match features.head? with
      | none => .error .typeError
      | some item =>
        refreshItems.assign rest (setKey pairs item.direction (some (item, terrain)))

/-- The second loop of `refreshItems`: `getTerrainData(items[i].features[0])`
for each response in order; an absent `features` raises on the spot. -/
def refreshItems.terrains {σ ε T : Type} (getTerrainData : Operation (Option Feature) σ ε T) :
    List QueryResponse → σ → Except (RefreshError ε) (List (Except ε T)) × σ
  | [], s => (.ok [], s)
  | item :: rest, s =>
    match item.features with
    | none => (.error .typeError, s)
    | some features =>
      match refreshItems.terrains getTerrainData rest (getTerrainData features.head? s).2 with
      | (.ok promises, s2) => (.ok ((getTerrainData features.head? s).1 :: promises), s2)
      | (.error e, s2) => (.error e, s2)

/-- A finished call of `refreshItems`: the calls of `queryItems` in order,
each with how it settled, and the mapping returned or the rejection. -/
structure RefreshRun (ε T : Type) where
  queries : List (QueryArgs × Except ε QueryResponse)
  result : Except (RefreshError ε) (List (String × Option (Feature × T)))

/-- The function `refreshItems(coordinates, collection)`. -/
def refreshItems {σ ε T : Type} (queryItems : Operation QueryArgs σ ε QueryResponse)
    (getTerrainData : Operation (Option Feature) σ ε T)
    (coordinates : List JSNum) (collection : Option String) (s : σ) : RefreshRun ε T × σ :=
  let itemTerrainPairs : List (String × Option (Feature × T)) :=
    refreshItems.keys.map (fun key => (key, none))
  let itemPromises :=
    issueAll queryItems (refreshItems.keys.map (fun key => ⟨coordinates, key, collection, none⟩)) s
  match promiseAll (itemPromises.1.map Prod.snd) with
  | .error e => (⟨itemPromises.1, .error (.rejected e)⟩, itemPromises.2)
  | .ok items =>
    match refreshItems.terrains getTerrainData items itemPromises.2 with
    | (.error e, s2) => (⟨itemPromises.1, .error e⟩, s2)
    | (.ok terrainPromises, s2) =>
      match promiseAll terrainPromises with
      | .error e => (⟨itemPromises.1, .error (.rejected e)⟩, s2)
      | .ok terrains =>
        (⟨itemPromises.1, refreshItems.assign (items.zip terrains) itemTerrainPairs⟩, s2)

/-! ### Sample catalog answers -/

/-- A feature with the given id, asset link and direction. -/
def sampleFeature (id href direction : String) : Feature :=
  ⟨id, some href, none, direction, sampleImage⟩

/-- A catalog in which `north` fails, `nadir` is empty and the other
directions have one item each. -/
def northDownCatalog : Operation QueryArgs Unit String QueryResponse :=
  fun q s =>
    if q.direction = "north" then (.error "503", s)
    else if q.direction = "nadir" then (.ok ⟨some []⟩, s)
    else (.ok ⟨some [sampleFeature q.direction (q.direction ++ ".tif") q.direction]⟩, s)

/-- A catalog in which every direction has one item, whose asset link names
the coordinate (`A` for a first coordinate `0`, `B` otherwise) and the
direction. -/
def fullCatalog : Operation QueryArgs Unit String QueryResponse :=
  fun q s =>
    (.ok ⟨some [sampleFeature q.direction
      ((if index q.coord 0 = some (fin 0) then "A-" else "B-") ++ q.direction ++ ".tif")
      q.direction]⟩, s)

/-- A catalog in which `east` and `west` are empty and the other directions
have one item each. -/
def twoEmptyCatalog : Operation QueryArgs Unit String QueryResponse :=
  fun q s =>
    if q.direction = "east" ∨ q.direction = "west" then (.ok ⟨some []⟩, s)
    else (.ok ⟨some [sampleFeature q.direction (q.direction ++ ".tif") q.direction]⟩, s)

/-- An elevation service that answers `12`. -/
def flatElevation : Operation (List JSNum) Unit String (Option JSNum) :=
  fun _ s => (.ok (some (fin 12)), s)

/-- A terrain service that answers with the id of the item. -/
def idTerrain : Operation (Option Feature) Unit String String :=
  fun item s => (.ok ((item.map Feature.id).getD "none"), s)

/-! ### The published mapping and error state as the design document words them -/

/-- The entry published for a direction query: the data asset link of the
first feature when the response has one, `null` when the query was empty or
failed. -/
def entryOf {ε : Type} (q : QueryArgs × Except ε QueryResponse) : String × Option String :=
  (q.1.direction,
    match q.2 with
    | .ok response => (firstFeature response).bind (fun feature => orNull feature.dataHref)
    | .error _ => none)

/-- The thumbnail entry published for a direction query. -/
def thumbnailOf {ε : Type} (q : QueryArgs × Except ε QueryResponse) : String × Option String :=
  (q.1.direction,
    match q.2 with
    | .ok response => (firstFeature response).bind (fun feature => orNull feature.thumbnailHref)
    | .error _ => none)

/-- The error state that a direction query sets in `MapPage`: 503 when it
failed, 401 when it was empty, none when it has a feature. -/
def errorOf {ε : Type} (q : QueryArgs × Except ε QueryResponse) : Option (String × Nat) :=
  match q.2 with
  | .ok response =>
    match firstFeature response with
    | some _ => none
    | none => some ("Invalid authorization credentials", 401)
  | .error _ => some ("The API server seems to be down for the moment", 503)

/-- The item selected by a sequence of direction queries: the first feature
of the last answered query for the selected direction. -/
def pickSelected {ε : Type} (selectedDirection : String) :
    Option Feature → List (QueryArgs × Except ε QueryResponse) → Option Feature
  | current, [] => current
  | current, q :: rest =>
    pickSelected selectedDirection
      (match q.2 with
       | .ok response =>
         match firstFeature response with
         | some feature => if q.1.direction = selectedDirection then some feature else current
         | none => current
       | .error _ => current) rest

/-- The error state after the direction queries of a round, given the
one published before: that of the last query that failed or was empty, and
the previous one when there is none. -/
def publishedError {ε : Type} (previous : Option (String × Nat))
    (queries : List (QueryArgs × Except ε QueryResponse)) : Option (String × Nat) :=
  match (queries.filterMap errorOf).getLast? with
  | some e => some e
  | none => previous

/-! ## Lemmas on numbers -/

namespace JSNum

@[simp] theorem ofNat_eq_fin (n : ℕ) [n.AtLeastTwo] : (OfNat.ofNat n : JSNum) = fin (OfNat.ofNat n) := rfl
@[simp] theorem one_eq_fin : (1 : JSNum) = fin 1 := rfl
@[simp] theorem zero_eq_fin : (0 : JSNum) = fin 0 := rfl

@[simp] theorem isFinite_fin (a : ℚ) : (fin a).isFinite = true := rfl
@[simp] theorem isFinite_negZero : negZero.isFinite = true := rfl
@[simp] theorem isFinite_inf (s : Bool) : (inf s).isFinite = false := rfl
@[simp] theorem isFinite_nan : nan.isFinite = false := rfl

@[simp] theorem toNumber_some (x : JSNum) : toNumber (some x) = x := rfl
@[simp] theorem toNumber_none : toNumber none = nan := rfl

theorem roundHalfUp_intCast (n : ℤ) : roundHalfUp (n : ℚ) = n := by
  unfold roundHalfUp
  rw [Int.floor_eq_iff]
  constructor <;> norm_num

theorem roundHalfUp_mono {a b : ℚ} (h : a ≤ b) : roundHalfUp a ≤ roundHalfUp b := by
  unfold roundHalfUp
  exact Int.floor_le_floor (by linarith)

end JSNum

namespace MathLib

@[simp] theorem isFinite_zero (M : MathLib) (s : Bool) : (M.zero s).isFinite = true := by
  unfold zero
  split <;> rfl

@[simp] theorem isInteger_zero (M : MathLib) (s : Bool) : (M.zero s).isInteger = true := by
  unfold zero
  split <;> rfl

theorem isFinite_neg (M : MathLib) (a : JSNum) : (M.neg a).isFinite = a.isFinite := by
  cases a <;> simp [neg]
  split <;> simp

theorem isFinite_of_add {M : MathLib} {a b : JSNum} (h : (M.add a b).isFinite = true) :
    a.isFinite = true ∧ b.isFinite = true := by
  cases a <;> cases b <;> simp_all [add]
  split at h <;> simp_all

theorem isFinite_of_sub {M : MathLib} {a b : JSNum} (h : (M.sub a b).isFinite = true) :
    a.isFinite = true ∧ b.isFinite = true := by
  have := isFinite_of_add h
  rwa [isFinite_neg] at this

theorem isFinite_of_mul {M : MathLib} {a b : JSNum} (h : (M.mul a b).isFinite = true) :
    a.isFinite = true ∧ b.isFinite = true := by
  cases a <;> cases b <;> simp_all [mul] <;> split at h <;> simp_all

theorem isFinite_of_div {M : MathLib} {a b : JSNum} (h : (M.div a b).isFinite = true) :
    a.isFinite = true := by
  cases a <;> cases b <;> simp_all [div]

/-- A quotient by a zero is not finite. -/
theorem div_zero_not_finite (M : MathLib) (a : JSNum) {z : JSNum} (hz : z.isZero = true) :
    (M.div a z).isFinite = false := by
  cases a <;> cases z <;> simp_all [div, isZero] <;> split <;> simp

theorem isFinite_round (M : MathLib) (a : JSNum) : (M.round a).isFinite = a.isFinite := by
  cases a <;> simp [round]
  split <;> simp

/-- A finite result of `Math.round` is an integer. -/
theorem isInteger_round (M : MathLib) (a : JSNum) (h : (M.round a).isFinite = true) :
    (M.round a).isInteger = true := by
  cases a with
  | fin q =>
    by_cases hq : q < 0 ∧ roundHalfUp q = 0
    · simp [round, hq]
    · simp [round, hq, isInteger]
  | negZero => rfl
  | inf s => simp [round] at h
  | nan => simp [round] at h

theorem isFinite_of_jsCos {M : MathLib} {a : JSNum} (h : (M.jsCos a).isFinite = true) :
    a.isFinite = true := by
  cases a <;> simp_all [jsCos]

theorem isFinite_of_jsSin {M : MathLib} {a : JSNum} (h : (M.jsSin a).isFinite = true) :
    a.isFinite = true := by
  cases a <;> simp_all [jsSin]

theorem nan_mul (M : MathLib) (x : JSNum) : M.mul nan x = nan := by cases x <;> rfl
theorem mul_nan (M : MathLib) (x : JSNum) : M.mul x nan = nan := by cases x <;> rfl
theorem nan_add (M : MathLib) (x : JSNum) : M.add nan x = nan := by cases x <;> rfl
theorem nan_sub (M : MathLib) (x : JSNum) : M.sub nan x = nan := by
  unfold sub
  exact nan_add M _
theorem nan_div (M : MathLib) (x : JSNum) : M.div nan x = nan := by cases x <;> rfl
theorem round_nan (M : MathLib) : M.round nan = nan := rfl

namespace Exact

variable {M : MathLib}

theorem zero (hM : M.Exact) (s : Bool) : M.zero s = fin 0 := by
  simp [MathLib.zero, hM.signedZero_eq]

theorem result (hM : M.Exact) (q : ℚ) (s : Bool) : M.result q s = fin q := by
  unfold MathLib.result
  split
  · rw [hM.zero]
    simp_all
  · exact hM.fl_eq q

theorem neg_fin (hM : M.Exact) (a : ℚ) : M.neg (fin a) = fin (-a) := by
  by_cases ha : a = 0
  · simp [MathLib.neg, ha, hM.zero]
  · simp [MathLib.neg, ha]

theorem add_fin (hM : M.Exact) (a b : ℚ) : M.add (fin a) (fin b) = fin (a + b) := by
  simp [MathLib.add, hM.result, toRat]

theorem sub_fin (hM : M.Exact) (a b : ℚ) : M.sub (fin a) (fin b) = fin (a - b) := by
  rw [MathLib.sub, hM.neg_fin, hM.add_fin, sub_eq_add_neg]

theorem mul_fin (hM : M.Exact) (a b : ℚ) : M.mul (fin a) (fin b) = fin (a * b) := by
  simp [MathLib.mul, hM.result, toRat]

theorem div_fin (hM : M.Exact) (a b : ℚ) :
    M.div (fin a) (fin b)
      = if b = 0 then (if a = 0 then nan else inf (decide (a < 0))) else fin (a / b) := by
  by_cases hb : b = 0
  · by_cases ha : a = 0 <;> simp [MathLib.div, isZero, sign, ha, hb]
  · simp [MathLib.div, isZero, hM.result, toRat, hb]

theorem div_fin_of_ne (hM : M.Exact) (a : ℚ) {b : ℚ} (h : b ≠ 0) :
    M.div (fin a) (fin b) = fin (a / b) := by
  rw [hM.div_fin, if_neg h]

theorem round_fin (hM : M.Exact) (a : ℚ) : M.round (fin a) = fin (roundHalfUp a) := by
  by_cases h : a < 0 ∧ roundHalfUp a = 0
  · simp [MathLib.round, h, hM.zero]
  · simp [MathLib.round, h]

theorem jsCos_fin (hM : M.Exact) (a : ℚ) : M.jsCos (fin a) = fin (M.cos a) := by
  simp [MathLib.jsCos, hM.result]

theorem jsSin_fin (hM : M.Exact) (a : ℚ) : M.jsSin (fin a) = fin (M.sin a) := by
  simp [MathLib.jsSin, hM.result]

end Exact

end MathLib

theorem approxMath_exact : approxMath.Exact := ⟨fun _ => rfl, rfl⟩

theorem circleMath_exact : circleMath.Exact := ⟨fun _ => rfl, rfl⟩

theorem finite?_eq_some {v : Option JSNum} {q : ℚ} (h : finite? v = some q) : v = some (fin q) := by
  cases v with
  | none => simp [finite?] at h
  | some x => cases x <;> simp_all [finite?]

theorem finiteAt_eq_some {xs : Option (List JSNum)} {i : Nat} {q : ℚ}
    (h : finiteAt xs i = some q) : ∃ l, xs = some l ∧ index l i = some (fin q) := by
  cases xs with
  | none => simp [finiteAt] at h
  | some l => exact ⟨l, rfl, finite?_eq_some h⟩

/-! ## Lemmas on the projection -/

/-- On an `image_data` that carries the camera `cam`, the `try` block of
`getImageXY` computes with the finite values of `cam`. -/
theorem tryBlock_of_readCamera (M : MathLib) (image_data : ImageData) (cam : Camera)
    (X Y Z : JSNum) (hcam : readCamera image_data = some cam) :
    getImageXY.tryBlock M image_data X Y Z =
      .ok (getImageXY.compute M (fin cam.xx0) (fin cam.yy0) (fin cam.ci) (fin cam.pix)
        (fin cam.dimXi) (fin cam.dimYi) (fin cam.X0) (fin cam.Y0) (fin cam.Z0)
        (fin cam.Ome) (fin cam.Phi) (fin cam.Kap) X Y Z) := by
  obtain ⟨props⟩ := image_data
  cases props with
  | none => simp [readCamera] at hcam
  | some props =>
    obtain ⟨io, pc, om, ph, ka⟩ := props
    cases io with
    | none => simp [readCamera] at hcam
    | some io =>
      obtain ⟨ppo, fl, ps, dims⟩ := io
      simp only [readCamera, Option.bind_eq_bind, Option.some_bind] at hcam
      simp only [readInterior, readExterior, Option.bind_eq_bind, Option.pure_def,
        Option.bind_eq_some, Prod.exists, Option.some.injEq, Prod.mk.injEq] at hcam
      obtain ⟨a2, a3, a4, a5, a6, b, ⟨x1, h1, x2, h2, x3, h3, x4, h4, x5, h5, x6, h6,
        rfl, rfl, rfl, rfl, rfl, rfl⟩, a7, a8, a9, a10, a11, b1, ⟨y1, g1, y2, g2, y3, g3, y4, g4,
        y5, g5, y6, g6, rfl, rfl, rfl, rfl, rfl, rfl⟩, rfl⟩ := hcam
      obtain ⟨l1, e1, i1⟩ := finiteAt_eq_some h1
      obtain ⟨l2, e2, i2⟩ := finiteAt_eq_some h2
      obtain ⟨l4, e4, i4⟩ := finiteAt_eq_some h4
      obtain ⟨l5, e5, i5⟩ := finiteAt_eq_some h5
      obtain ⟨l6, e6, i6⟩ := finiteAt_eq_some h6
      obtain ⟨m1, f1, j1⟩ := finiteAt_eq_some g1
      obtain ⟨m2, f2, j2⟩ := finiteAt_eq_some g2
      obtain ⟨m3, f3, j3⟩ := finiteAt_eq_some g3
      have k3 := finite?_eq_some h3
      have k4 := finite?_eq_some g4
      have k5 := finite?_eq_some g5
      have k6 := finite?_eq_some g6
      simp only at e1 e2 e4 e5 e6 f1 f2 f3 k3 k4 k5 k6
      subst e1 e4 e5 f1 k3 k4 k5 k6
      cases e2
      cases e6
      cases f2
      cases f3
      simp [getImageXY.tryBlock, interior, deref, i1, i2, i4, i5, i6, j1, j2, j3, bind,
        Except.bind, pure, Except.pure]

/-- In exact arithmetic the denominator computed by `getImageXY` from
finite constants is the worded `w`. -/
theorem denominator_exact {M : MathLib} (hM : M.Exact) (cam : Camera) (X Y Z : ℚ) :
    getImageXY.denominator M (fin cam.X0) (fin cam.Y0) (fin cam.Z0) (fin cam.Ome) (fin cam.Phi)
        (fin cam.Kap) (fin X) (fin Y) (fin Z) = fin (cam.w M X Y Z) := by
  have h180 : (180 : ℚ) ≠ 0 := by norm_num
  simp only [getImageXY.denominator, rotation, radians, ofNat_eq_fin, hM.neg_fin,
    hM.div_fin_of_ne _ h180, hM.mul_fin, hM.add_fin, hM.sub_fin, hM.jsCos_fin, hM.jsSin_fin]
  simp only [Camera.w, Camera.D13, Camera.D23, Camera.D33, Camera.o, Camera.p]
  congr 1
  ring

/-- In exact arithmetic, on finite constants with non-zero pixel spacing
and non-zero denominator, the computation of `getImageXY` is the worded
projection. -/
theorem compute_finite {M : MathLib} (hM : M.Exact) (cam : Camera) (X Y Z : ℚ)
    (hpix : cam.pix ≠ 0) (hw : cam.w M X Y Z ≠ 0) :
    getImageXY.compute M (fin cam.xx0) (fin cam.yy0) (fin cam.ci) (fin cam.pix)
        (fin cam.dimXi) (fin cam.dimYi) (fin cam.X0) (fin cam.Y0) (fin cam.Z0)
        (fin cam.Ome) (fin cam.Phi) (fin cam.Kap) (fin X) (fin Y) (fin Z)
      = (fin (cam.col M X Y Z), fin (cam.row M X Y Z)) := by
  have h180 : (180 : ℚ) ≠ 0 := by norm_num
  have h2 : (2 : ℚ) ≠ 0 := by norm_num
  have hw2 : M.sin (cam.Phi * (M.PI / 180)) * (X - cam.X0)
      + -M.sin (cam.Ome * (M.PI / 180)) * M.cos (cam.Phi * (M.PI / 180)) * (Y - cam.Y0)
      + M.cos (cam.Ome * (M.PI / 180)) * M.cos (cam.Phi * (M.PI / 180)) * (Z - cam.Z0) ≠ 0 := by
    have e : cam.w M X Y Z = M.sin (cam.Phi * (M.PI / 180)) * (X - cam.X0)
        + -M.sin (cam.Ome * (M.PI / 180)) * M.cos (cam.Phi * (M.PI / 180)) * (Y - cam.Y0)
        + M.cos (cam.Ome * (M.PI / 180)) * M.cos (cam.Phi * (M.PI / 180)) * (Z - cam.Z0) := by
      simp only [Camera.w, Camera.D13, Camera.D23, Camera.D33, Camera.o, Camera.p]
      ring
    rw [← e]
    exact hw
  simp only [getImageXY.compute, rotation, radians, ofNat_eq_fin, one_eq_fin, hM.neg_fin,
    hM.div_fin_of_ne _ h180, hM.div_fin_of_ne _ h2, hM.mul_fin, hM.add_fin, hM.sub_fin,
    hM.jsCos_fin, hM.jsSin_fin, hM.div_fin_of_ne _ hw2, hM.div_fin_of_ne _ hpix, hM.round_fin]
  simp only [Camera.col, Camera.row, Camera.x_dot, Camera.y_dot, Camera.w, Camera.dimX,
    Camera.dimY, Camera.D11, Camera.D12, Camera.D13, Camera.D21, Camera.D22, Camera.D23,
    Camera.D31, Camera.D32, Camera.D33, Camera.o, Camera.p, Camera.k]
  congr 1 <;> congr 3 <;> ring

theorem readCamera_nadirImage (dimXi dimYi : ℚ) :
    readCamera (nadirImage dimXi dimYi) = some (nadirCamera dimXi dimYi) := by
  simp [readCamera, readInterior, readExterior, finiteAt, finite?, index, nadirImage,
    nadirCamera]

theorem readCamera_sampleImage : readCamera sampleImage = some sampleCamera :=
  readCamera_nadirImage 8000 6000

theorem nadirCamera_w (M : MathLib) (hcos : M.cos 0 = 1) (hsin : M.sin 0 = 0) (dimXi dimYi Z : ℚ) :
    (nadirCamera dimXi dimYi).w M 0 0 Z = Z - 1000 := by
  simp [Camera.w, Camera.D13, Camera.D23, Camera.D33, Camera.o, Camera.p, nadirCamera, hcos,
    hsin]

theorem sampleCamera_w (Z : ℚ) : sampleCamera.w approxMath 0 0 Z = Z - 1000 :=
  nadirCamera_w approxMath (by norm_num [approxMath]) (by norm_num [approxMath]) _ _ Z

/-- The result of `getImageXY` in exact arithmetic on finite camera fields
with non-zero pixel spacing and denominator. -/
theorem getImageXY_finite {M : MathLib} (hM : M.Exact) (image_data : ImageData) (cam : Camera)
    (X Y : ℚ) (Z : Option ℚ) (hcam : readCamera image_data = some cam)
    (hpix : cam.pix ≠ 0) (hw : cam.w M X Y (Z.getD 0) ≠ 0) :
    getImageXY M image_data (fin X) (fin Y) (Z.map fin)
      = .ok (fin (cam.col M X Y (Z.getD 0)), fin (cam.row M X Y (Z.getD 0))) := by
  have hZ : (Z.map fin).getD 0 = fin (Z.getD 0) := by cases Z <;> rfl
  simp only [getImageXY, hZ, tryBlock_of_readCamera M image_data cam _ _ _ hcam,
    compute_finite hM cam X Y _ hpix hw]

/-- On an `image_data` that carries a camera, `getImageXY` returns the
pair computed from the values of the camera. -/
theorem getImageXY_of_readCamera (M : MathLib) (image_data : ImageData) (cam : Camera)
    (X Y : JSNum) (Z : Option JSNum) (hcam : readCamera image_data = some cam) :
    getImageXY M image_data X Y Z
      = .ok (getImageXY.compute M (fin cam.xx0) (fin cam.yy0) (fin cam.ci) (fin cam.pix)
        (fin cam.dimXi) (fin cam.dimYi) (fin cam.X0) (fin cam.Y0) (fin cam.Z0)
        (fin cam.Ome) (fin cam.Phi) (fin cam.Kap) X Y (Z.getD 0)) := by
  simp only [getImageXY, tryBlock_of_readCamera M image_data cam _ _ _ hcam]

/-- A quotient by a zero makes the rounded pixel component non-finite,
whatever the other operands are. -/
theorem pixel_not_finite_of_zero_denominator (M : MathLib) (A N x d m p z : JSNum)
    (hz : z.isZero = true) :
    (M.round (M.div (M.mul (M.add (M.sub (M.mul A (M.div N z)) x) d) m) p)).isFinite = false := by
  rw [MathLib.isFinite_round]
  cases hE : (M.div (M.mul (M.add (M.sub (M.mul A (M.div N z)) x) d) m) p).isFinite
  · rfl
  · have h1 := (MathLib.isFinite_of_mul (MathLib.isFinite_of_div hE)).1
    have h2 := (MathLib.isFinite_of_sub (MathLib.isFinite_of_add h1).1).1
    have h3 := (MathLib.isFinite_of_mul h2).2
    rw [MathLib.div_zero_not_finite M N hz] at h3
    cases h3

/-- Whenever the denominator computed by `getImageXY` is a zero, both
components it computes are non-finite. -/
theorem compute_zero_denominator (M : MathLib)
    (xx0 yy0 ci pix dimXi dimYi X0 Y0 Z0 Ome Phi Kap X Y Z : JSNum)
    (hw : (getImageXY.denominator M X0 Y0 Z0 Ome Phi Kap X Y Z).isZero = true) :
    (getImageXY.compute M xx0 yy0 ci pix dimXi dimYi X0 Y0 Z0 Ome Phi Kap X Y Z).1.isFinite
        = false
    ∧ (getImageXY.compute M xx0 yy0 ci pix dimXi dimYi X0 Y0 Z0 Ome Phi Kap X Y Z).2.isFinite
        = false :=
  ⟨pixel_not_finite_of_zero_denominator M _ _ _ _ _ _ _ hw,
    pixel_not_finite_of_zero_denominator M _ _ _ _ _ _ _ hw⟩

/-- Both components computed by `getImageXY` are finite only if each of
the twelve constants is finite. -/
theorem compute_finite_args (M : MathLib)
    (xx0 yy0 ci pix dimXi dimYi X0 Y0 Z0 Ome Phi Kap X Y Z : JSNum)
    (h1 : (getImageXY.compute M xx0 yy0 ci pix dimXi dimYi X0 Y0 Z0 Ome Phi Kap X Y Z).1.isFinite
      = true)
    (h2 : (getImageXY.compute M xx0 yy0 ci pix dimXi dimYi X0 Y0 Z0 Ome Phi Kap X Y Z).2.isFinite
      = true) :
    (xx0.isFinite = true ∧ yy0.isFinite = true ∧ ci.isFinite = true ∧ pix.isFinite = true
      ∧ dimXi.isFinite = true ∧ dimYi.isFinite = true)
    ∧ (X0.isFinite = true ∧ Y0.isFinite = true ∧ Z0.isFinite = true ∧ Ome.isFinite = true
      ∧ Phi.isFinite = true ∧ Kap.isFinite = true) := by
  simp only [getImageXY.compute, MathLib.isFinite_round] at h1 h2
  -- the column
  have a1 := (MathLib.isFinite_of_mul (MathLib.isFinite_of_div h1)).1
  have a2 := MathLib.isFinite_of_add a1
  have a3 := MathLib.isFinite_of_sub a2.1
  have a4 := MathLib.isFinite_of_mul a3.1
  have hci := (MathLib.isFinite_of_mul (MathLib.isFinite_of_mul a4.1).2).1
  have hdimX := MathLib.isFinite_of_mul
    (MathLib.isFinite_of_div (MathLib.isFinite_of_mul a2.2).1)
  have a5 := MathLib.isFinite_of_add (MathLib.isFinite_of_div a4.2)
  have a6 := MathLib.isFinite_of_add a5.1
  have b11 := MathLib.isFinite_of_mul a6.1
  have b21 := MathLib.isFinite_of_mul a6.2
  have b31 := MathLib.isFinite_of_mul a5.2
  have hX0 := (MathLib.isFinite_of_sub b11.2).2
  have hY0 := (MathLib.isFinite_of_sub b21.2).2
  have hZ0 := (MathLib.isFinite_of_sub b31.2).2
  have c11 := MathLib.isFinite_of_mul b11.1
  have hPhi := (MathLib.isFinite_of_mul (MathLib.isFinite_of_jsCos c11.1)).1
  have hKap := (MathLib.isFinite_of_mul (MathLib.isFinite_of_jsCos c11.2)).1
  have c21 := MathLib.isFinite_of_mul (MathLib.isFinite_of_add b21.1).1
  have hOme := (MathLib.isFinite_of_mul (MathLib.isFinite_of_jsCos c21.1)).1
  -- the row
  have r1 := (MathLib.isFinite_of_mul (MathLib.isFinite_of_div h2)).1
  have r2 := MathLib.isFinite_of_add r1
  have r3 := MathLib.isFinite_of_sub r2.1
  have hdimY := MathLib.isFinite_of_mul
    (MathLib.isFinite_of_div (MathLib.isFinite_of_mul r2.2).1)
  exact ⟨⟨a3.2, r3.2, hci, hdimX.2, hdimX.1, hdimY.1⟩, hX0, hY0, hZ0, hOme, hPhi, hKap⟩

/-- When an object or array read by `getImageXY` is absent, the `try`
block raises. -/
theorem tryBlock_of_not_hasContainers (M : MathLib) (image_data : ImageData) (X Y Z : JSNum)
    (h : hasContainers image_data = false) :
    getImageXY.tryBlock M image_data X Y Z = .error .typeError := by
  obtain ⟨props⟩ := image_data
  cases props with
  | none => rfl
  | some props =>
    obtain ⟨io, pc, om, ph, ka⟩ := props
    cases io with
    | none => rfl
    | some io =>
      obtain ⟨ppo, fl, ps, dims⟩ := io
      cases ppo <;> cases ps <;> cases dims <;> cases pc <;>
        first
          | rfl
          | simp [hasContainers] at h

/-- When every object and array read by `getImageXY` is present, the
`try` block does not raise; if moreover both returned components are
finite, the twelve scalars are present and finite. -/
theorem tryBlock_of_hasContainers (M : MathLib) (image_data : ImageData) (X Y Z : JSNum)
    (h : hasContainers image_data = true) :
    ∃ r, getImageXY.tryBlock M image_data X Y Z = .ok r
      ∧ (r.1.isFinite = true → r.2.isFinite = true → hasFiniteScalars image_data = true) := by
  obtain ⟨props⟩ := image_data
  cases props with
  | none => simp [hasContainers] at h
  | some props =>
    obtain ⟨io, pc, om, ph, ka⟩ := props
    cases io with
    | none => simp [hasContainers] at h
    | some io =>
      obtain ⟨ppo, fl, ps, dims⟩ := io
      cases ppo with
      | none => simp [hasContainers] at h
      | some ppo =>
      cases ps with
      | none => simp [hasContainers] at h
      | some ps =>
      cases dims with
      | none => simp [hasContainers] at h
      | some dims =>
      cases pc with
      | none => simp [hasContainers] at h
      | some pc =>
        refine ⟨getImageXY.compute M (toNumber (index ppo 0)) (toNumber (index ppo 1))
          (toNumber fl) (toNumber (index ps 0)) (toNumber (index dims 0))
          (toNumber (index dims 1)) (toNumber (index pc 0)) (toNumber (index pc 1))
          (toNumber (index pc 2)) (toNumber om) (toNumber ph) (toNumber ka) X Y Z, rfl, ?_⟩
        intro h1 h2
        obtain ⟨⟨c1, c2, c3, c4, c5, c6⟩, c7, c8, c9, c10, c11, c12⟩ :=
          compute_finite_args M _ _ _ _ _ _ _ _ _ _ _ _ X Y Z h1 h2
        simp [hasFiniteScalars, isFiniteAt, c1, c2, c3, c4, c5, c6, c7, c8, c9, c10, c11, c12]

/-- With an absent focal length (`undefined`, hence `NaN` in arithmetic)
both computed components are `NaN`. -/
theorem compute_focal_nan (M : MathLib)
    (xx0 yy0 pix dimXi dimYi X0 Y0 Z0 Ome Phi Kap X Y Z : JSNum) :
    getImageXY.compute M xx0 yy0 nan pix dimXi dimYi X0 Y0 Z0 Ome Phi Kap X Y Z = (nan, nan) := by
  simp only [getImageXY.compute, MathLib.nan_mul, MathLib.mul_nan, MathLib.nan_sub,
    MathLib.nan_add, MathLib.nan_div, MathLib.round_nan]

/-! ## Lemmas on double precision -/

theorem bitLength_spec : ∀ (fuel n : ℕ), n ≤ fuel → 0 < n →
    0 < bitLength fuel n ∧ 2 ^ (bitLength fuel n - 1) ≤ n ∧ n < 2 ^ bitLength fuel n := by
  intro fuel
  induction fuel with
  | zero => intro n h1 h2; omega
  | succ fuel ih =>
    intro n hn hpos
    have hne : n ≠ 0 := by omega
    simp only [bitLength, hne, if_false]
    by_cases h2 : n / 2 = 0
    · have h1 : n = 1 := by omega
      subst h1
      cases fuel <;> simp [bitLength]
    · obtain ⟨b0, b1, b2⟩ := ih (n / 2) (by omega) (by omega)
      refine ⟨by omega, ?_, ?_⟩
      · have e : bitLength fuel (n / 2) + 1 - 1 = (bitLength fuel (n / 2) - 1) + 1 := by omega
        rw [e, pow_succ]
        omega
      · rw [pow_succ]
        omega

theorem two_zpow_eq (k : ℤ) : (2 : ℚ) ^ k = (2 : ℚ) ^ k.toNat / (2 : ℚ) ^ (-k).toNat := by
  rcases le_total 0 k with h | h
  · have h1 : (-k).toNat = 0 := Int.toNat_eq_zero.mpr (by omega)
    rw [h1, pow_zero, div_one, ← zpow_natCast, Int.toNat_of_nonneg h]
  · have h1 : k.toNat = 0 := Int.toNat_eq_zero.mpr h
    have h2 : ((-k).toNat : ℤ) = -k := Int.toNat_of_nonneg (by omega)
    rw [h1, pow_zero, one_div, ← zpow_natCast, h2, zpow_neg, inv_inv]

/-- The function `floorLog2` finds the binary exponent of a positive
fraction. -/
theorem floorLog2_spec (n d : ℕ) (hn : 0 < n) (hd : 0 < d) :
    (2 : ℚ) ^ floorLog2 n d ≤ (n : ℚ) / d ∧ (n : ℚ) / d < 2 ^ (floorLog2 n d + 1) := by
  obtain ⟨n0, n1, n2⟩ := bitLength_spec n n le_rfl hn
  obtain ⟨d0, d1, d2⟩ := bitLength_spec d d le_rfl hd
  have hdq : (0 : ℚ) < d := by exact_mod_cast hd
  have hnq : (0 : ℚ) < n := by exact_mod_cast hn
  have n1q : (2 : ℚ) ^ ((bitLength n n : ℤ) - 1) ≤ n := by
    have : ((bitLength n n : ℤ) - 1) = ((bitLength n n - 1 : ℕ) : ℤ) := by omega
    rw [this, zpow_natCast]
    exact_mod_cast n1
  have n2q : (n : ℚ) < (2 : ℚ) ^ (bitLength n n : ℤ) := by
    rw [zpow_natCast]
    exact_mod_cast n2
  have d1q : (2 : ℚ) ^ ((bitLength d d : ℤ) - 1) ≤ d := by
    have : ((bitLength d d : ℤ) - 1) = ((bitLength d d - 1 : ℕ) : ℤ) := by omega
    rw [this, zpow_natCast]
    exact_mod_cast d1
  have d2q : (d : ℚ) < (2 : ℚ) ^ (bitLength d d : ℤ) := by
    rw [zpow_natCast]
    exact_mod_cast d2
  have two_pos : ∀ z : ℤ, (0 : ℚ) < 2 ^ z := fun z => zpow_pos (by norm_num) z
  -- the quotient lies strictly between 2^(k-1) and 2^(k+1)
  have lower : (2 : ℚ) ^ ((bitLength n n : ℤ) - (bitLength d d : ℤ) - 1) ≤ (n : ℚ) / d := by
    rw [le_div_iff₀ hdq]
    calc (2 : ℚ) ^ ((bitLength n n : ℤ) - (bitLength d d : ℤ) - 1) * d
        ≤ (2 : ℚ) ^ ((bitLength n n : ℤ) - (bitLength d d : ℤ) - 1) * 2 ^ (bitLength d d : ℤ) :=
          mul_le_mul_of_nonneg_left (le_of_lt d2q) (le_of_lt (two_pos _))
      _ = (2 : ℚ) ^ ((bitLength n n : ℤ) - 1) := by
          rw [← zpow_add₀ (by norm_num : (2 : ℚ) ≠ 0)]
          congr 1
          ring
      _ ≤ n := n1q
  have upper : (n : ℚ) / d < (2 : ℚ) ^ ((bitLength n n : ℤ) - (bitLength d d : ℤ) + 1) := by
    rw [div_lt_iff₀ hdq]
    calc (n : ℚ) < (2 : ℚ) ^ (bitLength n n : ℤ) := n2q
      _ = (2 : ℚ) ^ ((bitLength n n : ℤ) - (bitLength d d : ℤ) + 1)
            * 2 ^ ((bitLength d d : ℤ) - 1) := by
          rw [← zpow_add₀ (by norm_num : (2 : ℚ) ≠ 0)]
          congr 1
          ring
      _ ≤ (2 : ℚ) ^ ((bitLength n n : ℤ) - (bitLength d d : ℤ) + 1) * d :=
          mul_le_mul_of_nonneg_left d1q (le_of_lt (two_pos _))
  -- the test of `floorLog2` compares the quotient with 2^k
  have test : (d * 2 ^ ((bitLength n n : ℤ) - (bitLength d d : ℤ)).toNat
        ≤ n * 2 ^ (-((bitLength n n : ℤ) - (bitLength d d : ℤ))).toNat)
      ↔ (2 : ℚ) ^ ((bitLength n n : ℤ) - (bitLength d d : ℤ)) ≤ (n : ℚ) / d := by
    rw [two_zpow_eq, le_div_iff₀ hdq, div_mul_eq_mul_div,
      div_le_iff₀ (pow_pos (by norm_num) _)]
    constructor
    · intro h
      have : ((d * 2 ^ ((bitLength n n : ℤ) - (bitLength d d : ℤ)).toNat : ℕ) : ℚ)
          ≤ ((n * 2 ^ (-((bitLength n n : ℤ) - (bitLength d d : ℤ))).toNat : ℕ) : ℚ) := by
        exact_mod_cast h
      push_cast at this
      linarith
    · intro h
      have : ((d * 2 ^ ((bitLength n n : ℤ) - (bitLength d d : ℤ)).toNat : ℕ) : ℚ)
          ≤ ((n * 2 ^ (-((bitLength n n : ℤ) - (bitLength d d : ℤ))).toNat : ℕ) : ℚ) := by
        push_cast
        linarith
      exact_mod_cast this
  unfold floorLog2
  simp only
  by_cases ht : d * 2 ^ ((bitLength n n : ℤ) - (bitLength d d : ℤ)).toNat
      ≤ n * 2 ^ (-((bitLength n n : ℤ) - (bitLength d d : ℤ))).toNat
  · rw [if_pos ht]
    exact ⟨test.mp ht, upper⟩
  · rw [if_neg ht]
    refine ⟨lower, ?_⟩
    have := mt test.mpr ht
    rw [sub_add_cancel]
    exact not_le.mp this

theorem floor_le_roundHalfEven (x : ℚ) : ⌊x⌋ ≤ roundHalfEven x := by
  unfold roundHalfEven
  split_ifs
  · exact le_rfl
  · omega
  · have := Int.emod_nonneg ⌊x⌋ (by norm_num : (2 : ℤ) ≠ 0)
    omega

theorem roundHalfEven_le_floor_add_one (x : ℚ) : roundHalfEven x ≤ ⌊x⌋ + 1 := by
  unfold roundHalfEven
  split_ifs
  · omega
  · exact le_rfl
  · have := Int.emod_lt_of_pos ⌊x⌋ (by norm_num : (0 : ℤ) < 2)
    omega

theorem roundHalfEven_intCast (z : ℤ) : roundHalfEven (z : ℚ) = z := by
  unfold roundHalfEven
  simp

theorem roundHalfEven_mono {x y : ℚ} (h : x ≤ y) : roundHalfEven x ≤ roundHalfEven y := by
  have hf : ⌊x⌋ ≤ ⌊y⌋ := Int.floor_le_floor h
  rcases lt_or_eq_of_le hf with hlt | heq
  · calc roundHalfEven x ≤ ⌊x⌋ + 1 := roundHalfEven_le_floor_add_one x
      _ ≤ ⌊y⌋ := hlt
      _ ≤ roundHalfEven y := floor_le_roundHalfEven y
  · unfold roundHalfEven
    rw [heq]
    have hxy : x - (⌊y⌋ : ℚ) ≤ y - (⌊y⌋ : ℚ) := by linarith
    have hm0 := Int.emod_nonneg ⌊y⌋ (by norm_num : (2 : ℤ) ≠ 0)
    have hm1 := Int.emod_lt_of_pos ⌊y⌋ (by norm_num : (0 : ℤ) < 2)
    split_ifs <;> first | omega | (exfalso; linarith)

theorem le_roundHalfEven {x : ℚ} {z : ℤ} (h : (z : ℚ) ≤ x) : z ≤ roundHalfEven x := by
  have := roundHalfEven_mono h
  rwa [roundHalfEven_intCast] at this

theorem roundHalfEven_le {x : ℚ} {z : ℤ} (h : x ≤ (z : ℚ)) : roundHalfEven x ≤ z := by
  have := roundHalfEven_mono h
  rwa [roundHalfEven_intCast] at this

theorem two_zpow_pos (z : ℤ) : (0 : ℚ) < 2 ^ z := zpow_pos (by norm_num) z

/-- The magnitude of a rational from its numerator and denominator. -/
theorem natAbs_num_div_den (q : ℚ) : ((q.num.natAbs : ℕ) : ℚ) / (q.den : ℚ) = |q| := by
  have h1 : ((q.num.natAbs : ℕ) : ℚ) = |(q.num : ℚ)| := by
    rw [Nat.cast_natAbs, Int.cast_abs]
  have h2 : |(q.den : ℚ)| = q.den := abs_of_nonneg (by positivity)
  rw [h1, ← h2, ← abs_div, Rat.num_div_den]

/-- The binary exponent found for a non-zero rational. -/
theorem exponent_spec (q : ℚ) (hq : q ≠ 0) :
    (2 : ℚ) ^ floorLog2 q.num.natAbs q.den ≤ |q|
      ∧ |q| < 2 ^ (floorLog2 q.num.natAbs q.den + 1) := by
  have hn : 0 < q.num.natAbs := Int.natAbs_pos.mpr (Rat.num_ne_zero.mpr hq)
  have := floorLog2_spec q.num.natAbs q.den hn q.den_pos
  rwa [natAbs_num_div_den] at this

/-- The binary exponent found is the only one. -/
theorem floorLog2_unique (q : ℚ) (hq : q ≠ 0) (k : ℤ) (h1 : (2 : ℚ) ^ k ≤ |q|)
    (h2 : |q| < 2 ^ (k + 1)) : floorLog2 q.num.natAbs q.den = k := by
  obtain ⟨e1, e2⟩ := exponent_spec q hq
  have a : (2 : ℚ) ^ k < 2 ^ (floorLog2 q.num.natAbs q.den + 1) := lt_of_le_of_lt h1 e2
  have b : (2 : ℚ) ^ floorLog2 q.num.natAbs q.den < 2 ^ (k + 1) := lt_of_le_of_lt e1 h2
  rw [zpow_lt_zpow_iff_right₀ (by norm_num : (1 : ℚ) < 2)] at a b
  omega

theorem floorLog2_mono {q r : ℚ} (hq : q ≠ 0) (hr : r ≠ 0) (h : |q| ≤ |r|) :
    floorLog2 q.num.natAbs q.den ≤ floorLog2 r.num.natAbs r.den := by
  obtain ⟨e1, -⟩ := exponent_spec q hq
  obtain ⟨-, f2⟩ := exponent_spec r hr
  have a : (2 : ℚ) ^ floorLog2 q.num.natAbs q.den < 2 ^ (floorLog2 r.num.natAbs r.den + 1) :=
    lt_of_le_of_lt (le_trans e1 h) f2
  rw [zpow_lt_zpow_iff_right₀ (by norm_num : (1 : ℚ) < 2)] at a
  omega

theorem exponent64_neg (q : ℚ) : exponent64 (-q) = exponent64 q := by
  simp [exponent64]

theorem round64_neg (q : ℚ) : round64 (-q) = round64 q := by
  simp [round64, exponent64_neg]

theorem round64_nonneg (q : ℚ) : 0 ≤ round64 q := by
  unfold round64
  apply mul_nonneg _ (le_of_lt (two_zpow_pos _))
  have h : ((0 : ℤ) : ℚ) ≤ |q| / 2 ^ exponent64 q := by
    simpa using div_nonneg (abs_nonneg q) (le_of_lt (two_zpow_pos _))
  have := le_roundHalfEven h
  exact_mod_cast this

theorem exponent64_ge (q : ℚ) : -1074 ≤ exponent64 q := le_max_right _ _

theorem exponent64_mono {q r : ℚ} (hq : q ≠ 0) (hr : r ≠ 0) (h : |q| ≤ |r|) :
    exponent64 q ≤ exponent64 r := by
  unfold exponent64
  have := floorLog2_mono hq hr h
  exact max_le_max (by omega) le_rfl

/-- Rounding is monotone on the magnitudes. -/
theorem round64_mono {q r : ℚ} (hq : q ≠ 0) (hr : r ≠ 0) (h : |q| ≤ |r|) :
    round64 q ≤ round64 r := by
  rcases lt_or_eq_of_le (exponent64_mono hq hr h) with hlt | heq
  · -- different exponents: a power of two lies between the two results
    have hr52 : exponent64 r = floorLog2 r.num.natAbs r.den - 52 := by
      unfold exponent64 at hlt ⊢
      have := exponent64_ge q
      unfold exponent64 at this
      rcases max_cases (floorLog2 r.num.natAbs r.den - 52) (-1074) with ⟨h1, -⟩ | ⟨h1, -⟩
      · exact h1
      · rw [h1] at hlt
        omega
    have hqk : floorLog2 q.num.natAbs q.den - 52 ≤ exponent64 q := le_max_left _ _
    obtain ⟨-, q2⟩ := exponent_spec q hq
    obtain ⟨r1, -⟩ := exponent_spec r hr
    set K := floorLog2 r.num.natAbs r.den with hK
    have hKq : floorLog2 q.num.natAbs q.den + 1 ≤ K := by omega
    have hqK : |q| ≤ 2 ^ K :=
      le_trans (le_of_lt q2) (zpow_le_zpow_right₀ (by norm_num) hKq)
    -- the result for q is at most 2^K
    have hA : round64 q ≤ 2 ^ K := by
      unfold round64
      have hpos : 0 ≤ K - exponent64 q := by omega
      have hz : |q| / 2 ^ exponent64 q ≤ (((2 : ℤ) ^ (K - exponent64 q).toNat : ℤ) : ℚ) := by
        rw [div_le_iff₀ (two_zpow_pos _)]
        push_cast
        rw [← zpow_natCast, Int.toNat_of_nonneg hpos, ← zpow_add₀ (by norm_num : (2 : ℚ) ≠ 0)]
        simpa using hqK
      have := roundHalfEven_le hz
      calc (roundHalfEven (|q| / 2 ^ exponent64 q) : ℚ) * 2 ^ exponent64 q
          ≤ (((2 : ℤ) ^ (K - exponent64 q).toNat : ℤ) : ℚ) * 2 ^ exponent64 q :=
            mul_le_mul_of_nonneg_right (by exact_mod_cast this) (le_of_lt (two_zpow_pos _))
        _ = 2 ^ K := by
            push_cast
            rw [← zpow_natCast, Int.toNat_of_nonneg hpos,
              ← zpow_add₀ (by norm_num : (2 : ℚ) ≠ 0)]
            simp
    -- the result for r is at least 2^K
    have h52 : (4503599627370496 : ℚ) * 2 ^ (K - 52) = 2 ^ K := by
      have : (4503599627370496 : ℚ) = 2 ^ (52 : ℤ) := by norm_num
      rw [this, ← zpow_add₀ (by norm_num : (2 : ℚ) ≠ 0)]
      congr 1
      ring
    have hB : (2 : ℚ) ^ K ≤ round64 r := by
      unfold round64
      have hz : ((4503599627370496 : ℤ) : ℚ) ≤ |r| / 2 ^ exponent64 r := by
        rw [le_div_iff₀ (two_zpow_pos _), hr52]
        push_cast
        rw [h52]
        exact r1
      have := le_roundHalfEven hz
      calc (2 : ℚ) ^ K = ((4503599627370496 : ℤ) : ℚ) * 2 ^ exponent64 r := by
            rw [hr52]
            push_cast
            exact h52.symm
        _ ≤ (roundHalfEven (|r| / 2 ^ exponent64 r) : ℚ) * 2 ^ exponent64 r :=
            mul_le_mul_of_nonneg_right (by exact_mod_cast this) (le_of_lt (two_zpow_pos _))
    exact le_trans hA hB
  · unfold round64
    rw [heq]
    apply mul_le_mul_of_nonneg_right _ (le_of_lt (two_zpow_pos _))
    have : |q| / 2 ^ exponent64 r ≤ |r| / 2 ^ exponent64 r :=
      div_le_div_of_nonneg_right h (le_of_lt (two_zpow_pos _))
    exact_mod_cast roundHalfEven_mono this

/-- The result of rounding is a multiple `m · 2^e` of its unit in the last
place with `m ≤ 2^53`. -/
theorem round64_form (q : ℚ) (hq : q ≠ 0) :
    ∃ m : ℕ, m ≤ 2 ^ 53 ∧ round64 q = m * 2 ^ exponent64 q := by
  have hk : floorLog2 q.num.natAbs q.den - 52 ≤ exponent64 q := le_max_left _ _
  obtain ⟨-, q2⟩ := exponent_spec q hq
  have h0 : (0 : ℤ) ≤ roundHalfEven (|q| / 2 ^ exponent64 q) := by
    have h : ((0 : ℤ) : ℚ) ≤ |q| / 2 ^ exponent64 q := by
      simpa using div_nonneg (abs_nonneg q) (le_of_lt (two_zpow_pos _))
    exact le_roundHalfEven h
  have h1 : roundHalfEven (|q| / 2 ^ exponent64 q) ≤ 9007199254740992 := by
    apply roundHalfEven_le
    rw [div_le_iff₀ (two_zpow_pos _)]
    have e : ((9007199254740992 : ℤ) : ℚ) = 2 ^ (53 : ℤ) := by norm_num
    rw [e, ← zpow_add₀ (by norm_num : (2 : ℚ) ≠ 0)]
    exact le_trans (le_of_lt q2) (zpow_le_zpow_right₀ (by norm_num) (by omega))
  refine ⟨(roundHalfEven (|q| / 2 ^ exponent64 q)).toNat, ?_, ?_⟩
  · have : (2 : ℕ) ^ 53 = 9007199254740992 := by norm_num
    omega
  · unfold round64
    congr 1
    have : (((roundHalfEven (|q| / 2 ^ exponent64 q)).toNat : ℤ) : ℚ)
        = (roundHalfEven (|q| / 2 ^ exponent64 q) : ℚ) := by
      rw [Int.toNat_of_nonneg h0]
    exact_mod_cast this.symm

/-- A multiple `m · 2^E` with `0 < m ≤ 2^53` and `E ≥ -1074` is left as it
is by rounding. -/
theorem round64_of_form (m : ℕ) (E : ℤ) (hm0 : 0 < m) (hm : m ≤ 2 ^ 53) (hE : -1074 ≤ E) :
    round64 ((m : ℚ) * 2 ^ E) = (m : ℚ) * 2 ^ E := by
  have hmq : (0 : ℚ) < m := by exact_mod_cast hm0
  have hv : (0 : ℚ) < (m : ℚ) * 2 ^ E := mul_pos hmq (two_zpow_pos _)
  have hne : (m : ℚ) * 2 ^ E ≠ 0 := ne_of_gt hv
  have habs : |(m : ℚ) * 2 ^ E| = (m : ℚ) * 2 ^ E := abs_of_pos hv
  obtain ⟨k1, k2⟩ := exponent_spec _ hne
  rw [habs] at k1 k2
  set k := floorLog2 ((m : ℚ) * 2 ^ E).num.natAbs ((m : ℚ) * 2 ^ E).den with hk
  have hm53 : (m : ℚ) ≤ 2 ^ (53 : ℤ) := by
    have : ((m : ℕ) : ℚ) ≤ ((2 ^ 53 : ℕ) : ℚ) := by exact_mod_cast hm
    have e : (((2 : ℕ) ^ 53 : ℕ) : ℚ) = (2 : ℚ) ^ (53 : ℤ) := by norm_num
    rwa [e] at this
  -- k ≤ E + 53
  have hkE : k ≤ E + 53 := by
    have : (2 : ℚ) ^ k ≤ 2 ^ (E + 53) := by
      calc (2 : ℚ) ^ k ≤ (m : ℚ) * 2 ^ E := k1
        _ ≤ 2 ^ (53 : ℤ) * 2 ^ E := mul_le_mul_of_nonneg_right hm53 (le_of_lt (two_zpow_pos _))
        _ = 2 ^ (E + 53) := by
            rw [← zpow_add₀ (by norm_num : (2 : ℚ) ≠ 0)]
            congr 1
            ring
    exact (zpow_le_zpow_iff_right₀ (by norm_num : (1 : ℚ) < 2)).mp this
  have he : exponent64 ((m : ℚ) * 2 ^ E) = max (k - 52) (-1074) := rfl
  have heE : exponent64 ((m : ℚ) * 2 ^ E) ≤ E + 1 := by
    rw [he]
    exact max_le (by omega) (by omega)
  -- the scaled magnitude is an integer
  have hint : ∃ z : ℤ, (m : ℚ) * 2 ^ E / 2 ^ exponent64 ((m : ℚ) * 2 ^ E) = (z : ℚ) := by
    rcases lt_or_eq_of_le heE with hlt | heq
    · have hj : 0 ≤ E - exponent64 ((m : ℚ) * 2 ^ E) := by omega
      refine ⟨(m : ℤ) * 2 ^ (E - exponent64 ((m : ℚ) * 2 ^ E)).toNat, ?_⟩
      push_cast
      rw [← zpow_natCast, Int.toNat_of_nonneg hj, mul_div_assoc,
        ← zpow_sub₀ (by norm_num : (2 : ℚ) ≠ 0)]
    · -- the exponent is E + 1 only when m = 2^53
      have hk53 : k = E + 53 := by
        rw [he] at heq
        rcases max_cases (k - 52) (-1074) with ⟨h1, -⟩ | ⟨h1, -⟩ <;> rw [h1] at heq <;> omega
      have hm' : (2 : ℚ) ^ (53 : ℤ) ≤ m := by
        have : (2 : ℚ) ^ (E + 53) ≤ (m : ℚ) * 2 ^ E := by rw [← hk53]; exact k1
        have e : (2 : ℚ) ^ (E + 53) = 2 ^ (53 : ℤ) * 2 ^ E := by
          rw [← zpow_add₀ (by norm_num : (2 : ℚ) ≠ 0)]
          congr 1
          ring
        rw [e] at this
        exact le_of_mul_le_mul_right this (two_zpow_pos _)
      have hmeq : (m : ℚ) = 2 ^ (53 : ℤ) := le_antisymm hm53 hm'
      refine ⟨4503599627370496, ?_⟩
      rw [heq, hmeq, ← zpow_add₀ (by norm_num : (2 : ℚ) ≠ 0),
        ← zpow_sub₀ (by norm_num : (2 : ℚ) ≠ 0)]
      have : 53 + E - (E + 1) = (52 : ℤ) := by ring
      rw [this]
      norm_num
  obtain ⟨z, hz⟩ := hint
  unfold round64
  rw [habs, hz, roundHalfEven_intCast, ← hz]
  exact div_mul_cancel₀ _ (ne_of_gt (two_zpow_pos _))

/-- Rounding twice is rounding once. -/
theorem round64_round64 (q : ℚ) (hq : q ≠ 0) (h : round64 q ≠ 0) :
    round64 (round64 q) = round64 q := by
  obtain ⟨m, hm, hr⟩ := round64_form q hq
  rw [hr]
  have hm0 : 0 < m := by
    rcases Nat.eq_zero_or_pos m with h0 | h0
    · rw [hr, h0] at h
      simp at h
    · exact h0
  exact round64_of_form m _ hm0 hm (exponent64_ge q)

theorem round64_pos_of_ne {q : ℚ} (h : round64 q ≠ 0) : 0 < round64 q :=
  lt_of_le_of_ne (round64_nonneg q) (Ne.symm h)

/-- The rounding of a positive rational. -/
theorem binary64_of_pos {q : ℚ} (hq : 0 < q) :
    binary64 q = if round64 q = 0 then fin 0
      else if 2 ^ 1024 ≤ round64 q then inf false else fin (round64 q) := by
  have h : ¬ q < 0 := not_lt.mpr (le_of_lt hq)
  simp [binary64, h]

/-- The rounding of a negative rational. -/
theorem binary64_of_neg {q : ℚ} (hq : q < 0) :
    binary64 q = if round64 q = 0 then negZero
      else if 2 ^ 1024 ≤ round64 q then inf true else fin (-round64 q) := by
  simp [binary64, hq]

/-- A finite non-zero result of rounding is left as it is by rounding. -/
theorem binary64_idempotent {q v : ℚ} (hq : q ≠ 0) (h : binary64 q = fin v) (hv : v ≠ 0) :
    binary64 v = fin v := by
  rcases lt_or_gt_of_ne hq with hneg | hpos
  · rw [binary64_of_neg hneg] at h
    split_ifs at h with h1 h2
    have hR := round64_pos_of_ne h1
    have e : v = -round64 q := by
      injection h with h
      exact h.symm
    have hv0 : v < 0 := by rw [e]; linarith
    have hrr : round64 v = round64 q := by
      rw [e, round64_neg, round64_round64 q hq h1]
    rw [binary64_of_neg hv0, hrr, if_neg h1, if_neg h2, e]
  · rw [binary64_of_pos hpos] at h
    split_ifs at h with h1 h2
    · injection h with h
      exact absurd h.symm hv
    · have hR := round64_pos_of_ne h1
      have e : v = round64 q := by
        injection h with h
        exact h.symm
      have hv0 : 0 < v := by rw [e]; exact hR
      have hrr : round64 v = round64 q := by
        rw [e, round64_round64 q hq h1]
      rw [binary64_of_pos hv0, hrr, if_neg h1, if_neg h2, e]

namespace JSNum

theorem le_fin_fin (a b : ℚ) : (fin a).le (fin b) = decide (a ≤ b) := rfl

theorem le_of_toRat {x y : JSNum} (hx : x.isFinite = true) (hy : y.isFinite = true)
    (h : x.toRat ≤ y.toRat) : x.le y = true := by
  cases x <;> cases y <;> simp_all [le, toRat, isFinite]

theorem le_inf_false {x : JSNum} (hx : x ≠ nan) : x.le (inf false) = true := by
  cases x <;> simp_all [le]

theorem inf_true_le {y : JSNum} (hy : y ≠ nan) : (inf true).le y = true := by
  cases y <;> simp_all [le]

theorem ne_nan_of_le_left {x y : JSNum} (h : x.le y = true) : x ≠ nan := by
  cases x <;> simp_all [le]

theorem ne_nan_of_le_right {x y : JSNum} (h : x.le y = true) : y ≠ nan := by
  cases x <;> cases y <;> simp_all [le]

end JSNum

/-- A positive rational rounds to `+Infinity` or to a finite number that is
not negative. -/
theorem binary64_pos_form {q : ℚ} (hq : 0 < q) :
    binary64 q = inf false ∨ ∃ v, 0 ≤ v ∧ binary64 q = fin v := by
  rw [binary64_of_pos hq]
  split_ifs
  · exact Or.inr ⟨0, le_rfl, rfl⟩
  · exact Or.inl rfl
  · exact Or.inr ⟨_, round64_nonneg q, rfl⟩

/-- A negative rational rounds to `-Infinity`, to `-0` or to a negative
finite number. -/
theorem binary64_neg_form {q : ℚ} (hq : q < 0) :
    binary64 q = inf true ∨ binary64 q = negZero ∨ ∃ v, v < 0 ∧ binary64 q = fin v := by
  rw [binary64_of_neg hq]
  split_ifs with h1 h2
  · exact Or.inr (Or.inl rfl)
  · exact Or.inl rfl
  · exact Or.inr (Or.inr ⟨_, by linarith [round64_pos_of_ne h1], rfl⟩)

/-- Rounding is monotone on the positive rationals. -/
theorem binary64_le_of_pos {q r : ℚ} (hq : 0 < q) (h : q ≤ r) :
    (binary64 q).le (binary64 r) = true := by
  have hr : 0 < r := lt_of_lt_of_le hq h
  have hm : round64 q ≤ round64 r :=
    round64_mono (ne_of_gt hq) (ne_of_gt hr) (by rwa [abs_of_pos hq, abs_of_pos hr])
  have h0 := round64_nonneg q
  rw [binary64_of_pos hq, binary64_of_pos hr]
  split_ifs <;> simp [JSNum.le, toRat] <;> linarith

/-- Rounding is monotone on the negative rationals. -/
theorem binary64_le_of_neg {q r : ℚ} (hr : r < 0) (h : q ≤ r) :
    (binary64 q).le (binary64 r) = true := by
  have hq : q < 0 := lt_of_le_of_lt h hr
  have hm : round64 r ≤ round64 q :=
    round64_mono (ne_of_lt hr) (ne_of_lt hq) (by rw [abs_of_neg hq, abs_of_neg hr]; linarith)
  have h0 := round64_nonneg r
  rw [binary64_of_neg hq, binary64_of_neg hr]
  split_ifs <;> simp [JSNum.le, toRat] <;> linarith

namespace MathLib

namespace IEEE

variable {M : MathLib}

theorem zero_form (M : MathLib) (s : Bool) : M.zero s = fin 0 ∨ M.zero s = negZero := by
  unfold MathLib.zero
  split
  · exact Or.inr rfl
  · exact Or.inl rfl

/-- In double arithmetic the Number for an exact result is monotone in the
exact result. -/
theorem result_le_result (hM : M.IEEE) {q r : ℚ} (h : q ≤ r) (s t : Bool) :
    (M.result q s).le (M.result r t) = true := by
  unfold MathLib.result
  rw [hM.fl_eq]
  by_cases hq0 : q = 0
  · by_cases hr0 : r = 0
    · rw [if_pos hq0, if_pos hr0]
      rcases zero_form M s with e1 | e1 <;> rcases zero_form M t with e2 | e2 <;>
        rw [e1, e2] <;> rfl
    · rw [if_pos hq0, if_neg hr0]
      have hr : 0 < r := lt_of_le_of_ne (hq0 ▸ h) (Ne.symm hr0)
      rcases binary64_pos_form hr with e2 | ⟨v, hv, e2⟩
      · rw [e2]
        rcases zero_form M s with e1 | e1 <;> rw [e1] <;> rfl
      · rw [e2]
        rcases zero_form M s with e1 | e1 <;> rw [e1] <;> simp [JSNum.le, toRat, hv]
  · by_cases hr0 : r = 0
    · rw [if_neg hq0, if_pos hr0]
      have hq : q < 0 := lt_of_le_of_ne (hr0 ▸ h) hq0
      rcases binary64_neg_form hq with e2 | e2 | ⟨v, hv, e2⟩
      · rw [e2]
        rcases zero_form M t with e1 | e1 <;> rw [e1] <;> rfl
      · rw [e2]
        rcases zero_form M t with e1 | e1 <;> rw [e1] <;> rfl
      · rw [e2]
        rcases zero_form M t with e1 | e1 <;> rw [e1] <;> simp [JSNum.le, toRat, le_of_lt hv]
    · rw [if_neg hq0, if_neg hr0]
      rcases lt_or_gt_of_ne hq0 with hq | hq
      · rcases lt_or_gt_of_ne hr0 with hr | hr
        · exact binary64_le_of_neg hr h
        · rcases binary64_pos_form hr with e3 | ⟨w, hw, e3⟩
          · rw [e3]
            rcases binary64_neg_form hq with e2 | e2 | ⟨v, hv, e2⟩ <;> rw [e2] <;> rfl
          · rw [e3]
            rcases binary64_neg_form hq with e2 | e2 | ⟨v, hv, e2⟩
            · rw [e2]; rfl
            · rw [e2]; simp [JSNum.le, toRat, hw]
            · rw [e2]; simp [JSNum.le, toRat]; linarith
      · exact binary64_le_of_pos hq h

theorem result_ne_nan (hM : M.IEEE) (q : ℚ) (s : Bool) : M.result q s ≠ nan :=
  JSNum.ne_nan_of_le_left (hM.result_le_result (le_refl q) s s)

end IEEE

end MathLib

namespace JSNum

/-- A function on numbers that is monotone on the finite numbers and keeps
the infinities is monotone. -/
theorem le_map_of_mono (f : JSNum → JSNum)
    (hfin : ∀ x y, x.isFinite = true → y.isFinite = true → x.toRat ≤ y.toRat →
      (f x).le (f y) = true)
    (hpos : f (inf false) = inf false) (hneg : f (inf true) = inf true)
    {x y : JSNum} (h : x.le y = true) : (f x).le (f y) = true := by
  have hnan : ∀ z : JSNum, z.isFinite = true → f z ≠ nan := fun z hz =>
    ne_nan_of_le_left (hfin z z hz hz le_rfl)
  cases x with
  | nan => simp [le] at h
  | inf s =>
    cases s with
    | true =>
      rw [hneg]
      apply inf_true_le
      cases y with
      | nan => simp [le] at h
      | inf t => cases t <;> simp [hpos, hneg]
      | fin b => exact hnan _ rfl
      | negZero => exact hnan _ rfl
    | false =>
      cases y with
      | inf t =>
        cases t with
        | true => simp [le] at h
        | false => rw [hpos]; rfl
      | nan => simp [le] at h
      | fin b => simp [le] at h
      | negZero => simp [le] at h
  | fin a =>
    cases y with
    | nan => simp [le] at h
    | inf t =>
      cases t with
      | true => simp [le] at h
      | false => rw [hpos]; exact le_inf_false (hnan _ rfl)
    | fin b => exact hfin _ _ rfl rfl (by simpa [le, toRat] using h)
    | negZero => exact hfin _ _ rfl rfl (by simpa [le, toRat] using h)
  | negZero =>
    cases y with
    | nan => simp [le] at h
    | inf t =>
      cases t with
      | true => simp [le] at h
      | false => rw [hpos]; exact le_inf_false (hnan _ rfl)
    | fin b => exact hfin _ _ rfl rfl (by simpa [le, toRat] using h)
    | negZero => exact hfin _ _ rfl rfl (by simp [toRat])

/-- A function on numbers that is antitone on the finite numbers and swaps
the infinities is antitone. -/
theorem le_map_of_anti (f : JSNum → JSNum)
    (hfin : ∀ x y, x.isFinite = true → y.isFinite = true → x.toRat ≤ y.toRat →
      (f y).le (f x) = true)
    (hpos : f (inf false) = inf true) (hneg : f (inf true) = inf false)
    {x y : JSNum} (h : x.le y = true) : (f y).le (f x) = true := by
  have hnan : ∀ z : JSNum, z.isFinite = true → f z ≠ nan := fun z hz =>
    ne_nan_of_le_left (hfin z z hz hz le_rfl)
  cases x with
  | nan => simp [le] at h
  | inf s =>
    cases s with
    | true =>
      rw [hneg]
      apply le_inf_false
      cases y with
      | nan => simp [le] at h
      | inf t => cases t <;> simp [hpos, hneg]
      | fin b => exact hnan _ rfl
      | negZero => exact hnan _ rfl
    | false =>
      cases y with
      | inf t =>
        cases t with
        | true => simp [le] at h
        | false => rw [hpos]; rfl
      | nan => simp [le] at h
      | fin b => simp [le] at h
      | negZero => simp [le] at h
  | fin a =>
    cases y with
    | nan => simp [le] at h
    | inf t =>
      cases t with
      | true => simp [le] at h
      | false => rw [hpos]; exact inf_true_le (hnan _ rfl)
    | fin b => exact hfin _ _ rfl rfl (by simpa [le, toRat] using h)
    | negZero => exact hfin _ _ rfl rfl (by simpa [le, toRat] using h)
  | negZero =>
    cases y with
    | nan => simp [le] at h
    | inf t =>
      cases t with
      | true => simp [le] at h
      | false => rw [hpos]; exact inf_true_le (hnan _ rfl)
    | fin b => exact hfin _ _ rfl rfl (by simpa [le, toRat] using h)
    | negZero => exact hfin _ _ rfl rfl (by simp [toRat])

end JSNum

namespace MathLib

/-- The sum of two finite numbers. -/
theorem add_finite (M : MathLib) {x y : JSNum} (hx : x.isFinite = true) (hy : y.isFinite = true) :
    M.add x y = M.result (x.toRat + y.toRat) (x.sign && y.sign) := by
  cases x <;> cases y <;> simp_all [add, isFinite]

/-- The product of two finite numbers. -/
theorem mul_finite (M : MathLib) {x y : JSNum} (hx : x.isFinite = true) (hy : y.isFinite = true) :
    M.mul x y = M.result (x.toRat * y.toRat) (xor x.sign y.sign) := by
  cases x <;> cases y <;> simp_all [mul, isFinite]

/-- The quotient of a finite number by a finite number other than zero. -/
theorem div_finite (M : MathLib) {x y : JSNum} (hx : x.isFinite = true) (hy : y.isFinite = true)
    (h0 : y.isZero = false) :
    M.div x y = M.result (x.toRat / y.toRat) (xor x.sign y.sign) := by
  cases x <;> cases y <;> simp_all [div, isFinite]

namespace IEEE

variable {M : MathLib}

/-- Adding a finite number is monotone. -/
theorem add_le_add_right (hM : M.IEEE) {w : JSNum} (hw : w.isFinite = true) {x y : JSNum}
    (h : x.le y = true) : (M.add x w).le (M.add y w) = true := by
  refine JSNum.le_map_of_mono (fun z => M.add z w) ?_ ?_ ?_ h
  · intro x y hx hy hxy
    simp only [M.add_finite hx hw, M.add_finite hy hw]
    exact hM.result_le_result (by linarith) _ _
  · cases w <;> simp_all [add, isFinite]
  · cases w <;> simp_all [add, isFinite]

/-- Subtracting a finite number is monotone. -/
theorem sub_le_sub_right (hM : M.IEEE) (c : ℚ) {x y : JSNum} (h : x.le y = true) :
    (M.sub x (fin c)).le (M.sub y (fin c)) = true := by
  unfold MathLib.sub
  exact hM.add_le_add_right (by rw [isFinite_neg]; rfl) h

/-- Multiplying by a positive finite number is monotone. -/
theorem mul_le_mul_left (hM : M.IEEE) {c : ℚ} (hc : 0 < c) {x y : JSNum} (h : x.le y = true) :
    (M.mul (fin c) x).le (M.mul (fin c) y) = true := by
  have hc0 : ¬ c = 0 := ne_of_gt hc
  have hcn : ¬ c < 0 := not_lt.mpr (le_of_lt hc)
  refine JSNum.le_map_of_mono (fun z => M.mul (fin c) z) ?_ ?_ ?_ h
  · intro x y hx hy hxy
    simp only [M.mul_finite (rfl : (fin c).isFinite = true) hx,
      M.mul_finite (rfl : (fin c).isFinite = true) hy]
    have e : (fin c).toRat = c := rfl
    exact hM.result_le_result (by rw [e]; exact mul_le_mul_of_nonneg_left hxy (le_of_lt hc)) _ _
  · simp [mul, isZero, sign, hc0, hcn]
  · simp [mul, isZero, sign, hc0, hcn]

/-- Multiplying by `-1` is antitone. -/
theorem mul_neg_one_le (hM : M.IEEE) {x y : JSNum} (h : x.le y = true) :
    (M.mul y (fin (-1))).le (M.mul x (fin (-1))) = true := by
  refine JSNum.le_map_of_anti (fun z => M.mul z (fin (-1))) ?_ ?_ ?_ h
  · intro x y hx hy hxy
    simp only [M.mul_finite hx (rfl : (fin (-1)).isFinite = true),
      M.mul_finite hy (rfl : (fin (-1)).isFinite = true)]
    have e : (fin (-1)).toRat = -1 := rfl
    exact hM.result_le_result (by rw [e]; linarith) _ _
  · simp [mul, isZero, sign]
  · simp [mul, isZero, sign]

/-- Dividing by a positive finite number is monotone. -/
theorem div_le_div_right (hM : M.IEEE) {p : ℚ} (hp : 0 < p) {x y : JSNum} (h : x.le y = true) :
    (M.div x (fin p)).le (M.div y (fin p)) = true := by
  have hp0 : ¬ p = 0 := ne_of_gt hp
  have hpn : ¬ p < 0 := not_lt.mpr (le_of_lt hp)
  have hz : (fin p).isZero = false := by simp [isZero, hp0]
  refine JSNum.le_map_of_mono (fun z => M.div z (fin p)) ?_ ?_ ?_ h
  · intro x y hx hy hxy
    simp only [M.div_finite hx (rfl : (fin p).isFinite = true) hz,
      M.div_finite hy (rfl : (fin p).isFinite = true) hz]
    have e : (fin p).toRat = p := rfl
    exact hM.result_le_result (by rw [e]; exact div_le_div_of_nonneg_right hxy (le_of_lt hp)) _ _
  · simp [div, sign, hpn]
  · simp [div, sign, hpn]

/-- Dividing by a negative finite number is antitone. -/
theorem div_le_div_right_of_neg (hM : M.IEEE) {d : ℚ} (hd : d < 0) {x y : JSNum}
    (h : x.le y = true) : (M.div y (fin d)).le (M.div x (fin d)) = true := by
  have hd0 : ¬ d = 0 := ne_of_lt hd
  have hz : (fin d).isZero = false := by simp [isZero, hd0]
  refine JSNum.le_map_of_anti (fun z => M.div z (fin d)) ?_ ?_ ?_ h
  · intro x y hx hy hxy
    simp only [M.div_finite hx (rfl : (fin d).isFinite = true) hz,
      M.div_finite hy (rfl : (fin d).isFinite = true) hz]
    have e : (fin d).toRat = d := rfl
    exact hM.result_le_result (by rw [e]; exact div_le_div_of_nonpos_of_le (le_of_lt hd) hxy) _ _
  · simp [div, sign, hd]
  · simp [div, sign, hd]

/-- The function `Math.round` is monotone. -/
theorem round_le_round (M : MathLib) {x y : JSNum} (h : x.le y = true) :
    (M.round x).le (M.round y) = true := by
  have key : ∀ z : JSNum, z.isFinite = true →
      (M.round z).isFinite = true ∧ (M.round z).toRat = (roundHalfUp z.toRat : ℚ) := by
    intro z hz
    cases z with
    | fin a =>
      by_cases ha : a < 0 ∧ roundHalfUp a = 0
      · rcases zero_form M true with e | e <;> simp [round, ha, e, toRat, isFinite]
      · simp [round, ha, toRat, isFinite]
    | negZero =>
      have e : roundHalfUp 0 = 0 := by
        unfold roundHalfUp
        rw [Int.floor_eq_iff]
        norm_num
      simp [round, toRat, isFinite, e]
    | inf s => simp [isFinite] at hz
    | nan => simp [isFinite] at hz
  refine JSNum.le_map_of_mono (fun z => M.round z) ?_ rfl rfl h
  intro x y hx hy hxy
  apply JSNum.le_of_toRat (key x hx).1 (key y hy).1
  rw [(key x hx).2, (key y hy).2]
  exact_mod_cast roundHalfUp_mono hxy

end IEEE

end MathLib

/-- A non-zero rational is a binary64 value exactly when its magnitude is
kept by the rounding and is below the overflow threshold. -/
theorem binary64_eq_fin_iff {v : ℚ} (hv : v ≠ 0) :
    binary64 v = fin v ↔ round64 v = |v| ∧ round64 v < 2 ^ 1024 := by
  rcases lt_or_gt_of_ne hv with hneg | hpos
  · rw [binary64_of_neg hneg, abs_of_neg hneg]
    constructor
    · intro h
      split_ifs at h with h1 h2
      injection h with h
      exact ⟨by linarith, not_le.mp h2⟩
    · rintro ⟨h1, h2⟩
      have h0 : round64 v ≠ 0 := by
        rw [h1]
        exact neg_ne_zero.mpr hv
      rw [if_neg h0, if_neg (not_le.mpr h2), h1, neg_neg]
  · rw [binary64_of_pos hpos, abs_of_pos hpos]
    constructor
    · intro h
      split_ifs at h with h1 h2
      · injection h with h
        exact absurd h.symm hv
      · injection h with h
        exact ⟨h, not_le.mp h2⟩
    · rintro ⟨h1, h2⟩
      have h0 : round64 v ≠ 0 := by
        rw [h1]
        exact hv
      rw [if_neg h0, if_neg (not_le.mpr h2), h1]

theorem isBinary64_iff (v : ℚ) : isBinary64 v = true ↔ v = 0 ∨ binary64 v = fin v := by
  simp [isBinary64]

theorem isBinary64_zero : isBinary64 0 = true := by simp [isBinary64]

/-- The binary64 values are closed under negation. -/
theorem isBinary64_neg {v : ℚ} (h : isBinary64 v = true) : isBinary64 (-v) = true := by
  rw [isBinary64_iff] at h ⊢
  by_cases hv : v = 0
  · exact Or.inl (by rw [hv, neg_zero])
  · rcases h with h | h
    · exact absurd h hv
    · right
      rw [binary64_eq_fin_iff hv] at h
      rw [binary64_eq_fin_iff (neg_ne_zero.mpr hv), round64_neg, abs_neg]
      exact h

/-- A finite result of rounding is a binary64 value. -/
theorem isBinary64_of_binary64 {q v : ℚ} (hq : q ≠ 0) (h : binary64 q = fin v) :
    isBinary64 v = true := by
  rw [isBinary64_iff]
  by_cases hv : v = 0
  · exact Or.inl hv
  · exact Or.inr (binary64_idempotent hq h hv)

/-- Every binary64 value is an integer multiple of `2^(-1074)`. -/
theorem isBinary64_grid {v : ℚ} (h : isBinary64 v = true) :
    ∃ n : ℤ, v = n * 2 ^ (-1074 : ℤ) := by
  rw [isBinary64_iff] at h
  by_cases hv : v = 0
  · exact ⟨0, by simp [hv]⟩
  · rcases h with h | h
    · exact absurd h hv
    · rw [binary64_eq_fin_iff hv] at h
      obtain ⟨m, -, hm⟩ := round64_form v hv
      have he := exponent64_ge v
      have h2 : (2 : ℚ) ^ exponent64 v = 2 ^ (exponent64 v + 1074).toNat * 2 ^ (-1074 : ℤ) := by
        rw [← zpow_natCast, Int.toNat_of_nonneg (by linarith), ← zpow_add₀ (by norm_num)]
        congr 1
        ring
      have habs : |v| = ((m * 2 ^ (exponent64 v + 1074).toNat : ℕ) : ℚ) * 2 ^ (-1074 : ℤ) := by
        rw [← h.1, hm, h2]
        push_cast
        ring
      rcases lt_or_gt_of_ne hv with hneg | hpos
      · refine ⟨-((m * 2 ^ (exponent64 v + 1074).toNat : ℕ) : ℤ), ?_⟩
        rw [abs_of_neg hneg] at habs
        have : v = -(((m * 2 ^ (exponent64 v + 1074).toNat : ℕ) : ℚ) * 2 ^ (-1074 : ℤ)) := by
          linarith
        refine this.trans ?_
        push_cast
        ring
      · refine ⟨((m * 2 ^ (exponent64 v + 1074).toNat : ℕ) : ℤ), ?_⟩
        rw [abs_of_pos hpos] at habs
        refine habs.trans ?_
        push_cast
        ring

/-- The difference of two distinct binary64 values does not round to zero
(gradual underflow). -/
theorem round64_sub_ne_zero {a b : ℚ} (ha : isBinary64 a = true) (hb : isBinary64 b = true)
    (hab : a ≠ b) : round64 (a - b) ≠ 0 := by
  obtain ⟨n, hn⟩ := isBinary64_grid ha
  obtain ⟨k, hk⟩ := isBinary64_grid hb
  have hp := two_zpow_pos (-1074)
  have hnk : n - k ≠ 0 := by
    intro h
    apply hab
    rw [hn, hk, sub_eq_zero.mp h]
  have hd : a - b = ((n - k : ℤ) : ℚ) * 2 ^ (-1074 : ℤ) := by
    rw [hn, hk]
    push_cast
    ring
  have h1 : (1 : ℚ) ≤ |((n - k : ℤ) : ℚ)| := by
    rw [← Int.cast_abs]
    exact_mod_cast Int.one_le_abs hnk
  have habs : |(2 : ℚ) ^ (-1074 : ℤ)| ≤ |a - b| := by
    rw [hd, abs_mul, abs_of_pos hp]
    nlinarith
  have hne : a - b ≠ 0 := sub_ne_zero.mpr hab
  have hmono := round64_mono (ne_of_gt hp) hne habs
  have hone : round64 ((2 : ℚ) ^ (-1074 : ℤ)) = 2 ^ (-1074 : ℤ) := by
    have := round64_of_form 1 (-1074) (by norm_num) (by norm_num) (by norm_num)
    simpa using this
  rw [hone] at hmono
  linarith

namespace MathLib

/-- A product with a zero is a zero. -/
theorem isZero_mul_left (M : MathLib) {z x : JSNum} (hz : z.isZero = true)
    (hx : x.isFinite = true) : (M.mul z x).isZero = true := by
  have hzf : z.isFinite = true := by cases z <;> simp_all [isZero, isFinite]
  have hz0 : z.toRat = 0 := by cases z <;> simp_all [isZero, toRat]
  rw [M.mul_finite hzf hx, hz0, zero_mul]
  rcases IEEE.zero_form M (xor z.sign x.sign) with e | e <;> simp [result, e, isZero]

/-- A sum of two zeros is a zero. -/
theorem isZero_add (M : MathLib) {z w : JSNum} (hz : z.isZero = true) (hw : w.isZero = true) :
    (M.add z w).isZero = true := by
  have hzf : z.isFinite = true := by cases z <;> simp_all [isZero, isFinite]
  have hwf : w.isFinite = true := by cases w <;> simp_all [isZero, isFinite]
  have hz0 : z.toRat = 0 := by cases z <;> simp_all [isZero, toRat]
  have hw0 : w.toRat = 0 := by cases w <;> simp_all [isZero, toRat]
  rw [M.add_finite hzf hwf, hz0, hw0, add_zero]
  rcases IEEE.zero_form M (z.sign && w.sign) with e | e <;> simp [result, e, isZero]

namespace IEEE

variable {M : MathLib}

theorem zero_eq (hM : M.IEEE) (s : Bool) : M.zero s = if s then negZero else fin 0 := by
  cases s <;> simp [MathLib.zero, hM.signedZero_eq]

/-- The Number for a non-zero binary64 value is that value. -/
theorem result_of_ne_zero (hM : M.IEEE) {v : ℚ} (hv : isBinary64 v = true) (h0 : v ≠ 0)
    (s : Bool) : M.result v s = fin v := by
  rw [isBinary64_iff] at hv
  rcases hv with hv | hv
  · exact absurd hv h0
  · simp [MathLib.result, h0, hM.fl_eq, hv]

/-- The difference of two Numbers. -/
theorem sub_fin_fin (hM : M.IEEE) (a b : ℚ) :
    M.sub (fin a) (fin b) = if a = b then fin 0 else binary64 (a - b) := by
  by_cases hb : b = 0
  · subst hb
    by_cases ha : a = 0
    · subst ha
      simp [MathLib.sub, MathLib.neg, MathLib.add, MathLib.result, hM.zero_eq, toRat, sign]
    · simp [MathLib.sub, MathLib.neg, MathLib.add, MathLib.result, hM.zero_eq, toRat, ha,
        hM.fl_eq]
  · by_cases hab : a = b
    · subst hab
      have : ¬ (a < 0 ∧ 0 < a) := fun h => absurd h.1 (not_lt.mpr (le_of_lt h.2))
      simp [MathLib.sub, MathLib.neg, MathLib.add, MathLib.result, hM.zero_eq, toRat, sign, hb,
        this]
    · have hne : a + -b ≠ 0 := by
        intro h
        apply hab
        linarith
      simp [MathLib.sub, MathLib.neg, MathLib.add, MathLib.result, toRat, hb, hab, hne,
        hM.fl_eq, sub_eq_add_neg]

/-- A finite difference of two binary64 values is a binary64 value with the
sign of the exact difference, not the negative zero. -/
theorem sub_double (hM : M.IEEE) {a b : ℚ} (ha : isBinary64 a = true) (hb : isBinary64 b = true)
    (hf : (M.sub (fin a) (fin b)).isFinite = true) :
    ∃ v, M.sub (fin a) (fin b) = fin v ∧ isBinary64 v = true ∧ (a < b → v < 0) := by
  rw [hM.sub_fin_fin] at hf ⊢
  by_cases hab : a = b
  · exact ⟨0, by simp [hab], isBinary64_zero, fun h => absurd hab (ne_of_lt h)⟩
  · rw [if_neg hab] at hf ⊢
    have hne : a - b ≠ 0 := sub_ne_zero.mpr hab
    have hr := round64_sub_ne_zero ha hb hab
    have hpos := round64_pos_of_ne hr
    rcases lt_or_gt_of_ne hne with hneg | hp
    · rw [binary64_of_neg hneg, if_neg hr] at hf ⊢
      split_ifs at hf ⊢ with h2
      · cases hf
      · refine ⟨-round64 (a - b), rfl, ?_, fun _ => by linarith⟩
        apply isBinary64_of_binary64 hne
        rw [binary64_of_neg hneg, if_neg hr, if_neg h2]
    · rw [binary64_of_pos hp, if_neg hr] at hf ⊢
      split_ifs at hf ⊢ with h2
      · cases hf
      · refine ⟨round64 (a - b), rfl, ?_, fun h => ?_⟩
        · apply isBinary64_of_binary64 hne
          rw [binary64_of_pos hp, if_neg hr, if_neg h2]
        · exfalso
          linarith

/-- Multiplying a binary64 value by one leaves it as it is. -/
theorem one_mul (hM : M.IEEE) {v : ℚ} (hv : isBinary64 v = true) :
    M.mul (fin 1) (fin v) = fin v := by
  rw [M.mul_finite (isFinite_fin 1) (isFinite_fin v)]
  by_cases h0 : v = 0
  · simp [MathLib.result, h0, hM.zero_eq, toRat, sign]
  · have := hM.result_of_ne_zero hv h0 (xor (fin 1).sign (fin v).sign)
    simpa [toRat] using this

/-- Adding a zero on the right leaves a binary64 value as it is. -/
theorem add_isZero_right (hM : M.IEEE) {v : ℚ} (hv : isBinary64 v = true) {z : JSNum}
    (hz : z.isZero = true) : M.add (fin v) z = fin v := by
  have hzf : z.isFinite = true := by cases z <;> simp_all [isZero, isFinite]
  have hz0 : z.toRat = 0 := by cases z <;> simp_all [isZero, toRat]
  rw [M.add_finite (isFinite_fin v) hzf, hz0]
  by_cases h0 : v = 0
  · simp [MathLib.result, h0, hM.zero_eq, toRat, sign]
  · have := hM.result_of_ne_zero hv h0 ((fin v).sign && z.sign)
    simpa [toRat] using this

/-- Adding a zero on the left leaves a binary64 value as it is. -/
theorem add_isZero_left (hM : M.IEEE) {v : ℚ} (hv : isBinary64 v = true) {z : JSNum}
    (hz : z.isZero = true) : M.add z (fin v) = fin v := by
  have hzf : z.isFinite = true := by cases z <;> simp_all [isZero, isFinite]
  have hz0 : z.toRat = 0 := by cases z <;> simp_all [isZero, toRat]
  rw [M.add_finite hzf (isFinite_fin v), hz0]
  by_cases h0 : v = 0
  · simp [MathLib.result, h0, hM.zero_eq, toRat, sign]
  · have := hM.result_of_ne_zero hv h0 (z.sign && (fin v).sign)
    simpa [toRat] using this

/-- The three sums of the projection for the rotation matrix of the zero
angles: each is the one argument that the matrix multiplies by one. -/
theorem nadir_sums (hM : M.IEEE) {vx vy u : ℚ} (hx : isBinary64 vx = true)
    (hy : isBinary64 vy = true) (hu : isBinary64 u = true) :
    M.add (M.add (M.mul (fin 1) (fin vx)) (M.mul (fin 0) (fin vy))) (M.mul (fin 0) (fin u))
        = fin vx
      ∧ M.add (M.add (M.mul negZero (fin vx)) (M.mul (fin 1) (fin vy))) (M.mul (fin 0) (fin u))
        = fin vy
      ∧ M.add (M.add (M.mul (fin 0) (fin vx)) (M.mul negZero (fin vy))) (M.mul (fin 1) (fin u))
        = fin u := by
  have z0 : ∀ w : ℚ, (M.mul (fin 0) (fin w)).isZero = true := fun w =>
    M.isZero_mul_left (by simp [isZero]) rfl
  have zn : ∀ w : ℚ, (M.mul negZero (fin w)).isZero = true := fun w =>
    M.isZero_mul_left rfl rfl
  refine ⟨?_, ?_, ?_⟩
  · rw [hM.one_mul hx, hM.add_isZero_right hx (z0 vy), hM.add_isZero_right hx (z0 u)]
  · rw [hM.one_mul hy, hM.add_isZero_left hy (zn vx), hM.add_isZero_right hy (z0 u)]
  · rw [hM.one_mul hu, hM.add_isZero_left hu (M.isZero_add (z0 vx) (zn vy))]

theorem neg_one (M : MathLib) : M.neg 1 = fin (-1) := by
  show M.neg (fin 1) = fin (-1)
  simp [MathLib.neg]

/-- The function `radians` at zero. -/
theorem radians_zero (hM : M.IEEE) : radians M (fin 0) = fin 0 := by
  have hf : (binary64 (884279719003555 / 281474976710656 / 180)).isFinite = true := by decide!
  have hs : (binary64 (884279719003555 / 281474976710656 / 180)).sign = false := by decide!
  have hd : M.div (fin M.PI) 180 = binary64 (884279719003555 / 281474976710656 / 180) := by
    show M.div (fin M.PI) (fin 180) = _
    rw [M.div_finite (isFinite_fin _) (isFinite_fin 180) (by simp [isZero]), hM.PI_eq]
    simp [MathLib.result, toRat, hM.fl_eq]
  unfold radians
  rw [hd, M.mul_finite (isFinite_fin 0) hf, hs]
  simp [MathLib.result, toRat, sign, hM.zero_eq]

theorem jsCos_zero (hM : M.IEEE) (hcos : M.cos 0 = 1) : M.jsCos (fin 0) = fin 1 := by
  have h1 : binary64 1 = fin 1 := by decide!
  simp [MathLib.jsCos, MathLib.result, hcos, hM.fl_eq, h1]

theorem jsSin_zero (hM : M.IEEE) (hsin : M.sin 0 = 0) : M.jsSin (fin 0) = fin 0 := by
  simp [MathLib.jsSin, MathLib.result, hsin, hM.zero_eq]

/-- The rotation matrix of the zero angles in double arithmetic: the
identity, with negative zeros at `D12` and `D23`. -/
theorem rotation_zero (hM : M.IEEE) (hcos : M.cos 0 = 1) (hsin : M.sin 0 = 0) :
    rotation M (fin 0) (fin 0) (fin 0)
      = ⟨fin 1, negZero, fin 0, fin 0, fin 1, negZero, fin 0, fin 0, fin 1⟩ := by
  have h1 : binary64 1 = fin 1 := by decide!
  norm_num [rotation, hM.jsCos_zero hcos, hM.jsSin_zero hsin, MathLib.mul, MathLib.add,
    MathLib.sub, MathLib.neg, MathLib.result, hM.zero_eq, hM.fl_eq, toRat, sign, h1]

end IEEE

end MathLib

namespace MathLib

namespace IEEE

variable {M : MathLib}

/-- The factor `(-1) * c` of `getImageXY`, with `c = ci * (-1)`, is the
focal length. -/
theorem neg_one_mul_c (hM : M.IEEE) {ci : ℚ} (hci : isBinary64 ci = true) :
    M.mul (M.neg 1) (M.mul (fin ci) (M.neg 1)) = fin ci := by
  rw [neg_one]
  by_cases h0 : ci = 0
  · subst h0
    norm_num [MathLib.mul, MathLib.result, hM.zero_eq, toRat, sign]
  · have h1 : M.mul (fin ci) (fin (-1)) = fin (-ci) := by
      rw [M.mul_finite (isFinite_fin ci) (isFinite_fin (-1))]
      have := hM.result_of_ne_zero (isBinary64_neg hci) (neg_ne_zero.mpr h0)
        (xor (fin ci).sign (fin (-1 : ℚ)).sign)
      simpa [toRat] using this
    rw [h1, M.mul_finite (isFinite_fin (-1)) (isFinite_fin (-ci))]
    have := hM.result_of_ne_zero hci h0 (xor (fin (-1 : ℚ)).sign (fin (-ci)).sign)
    simpa [toRat] using this

/-- The pixel component of `getImageXY` is monotone in the numerator of the
collinearity quotient when the focal length and the pixel spacing are
positive, the denominator is negative and the half-size is finite. -/
theorem pixel_le_pixel (hM : M.IEEE) {ci u pix : ℚ} (xx0 : ℚ) (hci : 0 < ci) (hu : u < 0)
    (hpix : 0 < pix) {dim : JSNum} (hdim : dim.isFinite = true) {d e : JSNum}
    (h : d.le e = true) :
    (M.round (M.div (M.mul (M.add (M.sub (M.mul (fin ci) (M.div d (fin u))) (fin xx0)) dim)
        (M.neg 1)) (fin pix))).le
      (M.round (M.div (M.mul (M.add (M.sub (M.mul (fin ci) (M.div e (fin u))) (fin xx0)) dim)
        (M.neg 1)) (fin pix))) = true := by
  rw [neg_one]
  have h1 := hM.div_le_div_right_of_neg hu h
  have h2 := hM.mul_le_mul_left hci h1
  have h3 := hM.sub_le_sub_right xx0 h2
  have h4 := hM.add_le_add_right hdim h3
  have h5 := hM.mul_neg_one_le h4
  have h6 := hM.div_le_div_right hpix h5
  exact round_le_round M h6

end IEEE

end MathLib

/-- The computation of `getImageXY` in double arithmetic for the zero
angles, when the three coordinate differences are finite: each pixel
component comes from one coordinate difference alone. -/
theorem getImageXY.compute_zero_angles {M : MathLib} (hM : M.IEEE) (hcos : M.cos 0 = 1)
    (hsin : M.sin 0 = 0) (xx0 yy0 ci pix dimXi dimYi X0 Y0 Z0 X Y Z : ℚ)
    (hci : isBinary64 ci = true) {vx vy u : ℚ}
    (hX : M.sub (fin X) (fin X0) = fin vx) (hvx : isBinary64 vx = true)
    (hY : M.sub (fin Y) (fin Y0) = fin vy) (hvy : isBinary64 vy = true)
    (hZ : M.sub (fin Z) (fin Z0) = fin u) (hu : isBinary64 u = true) :
    getImageXY.compute M (fin xx0) (fin yy0) (fin ci) (fin pix) (fin dimXi) (fin dimYi)
        (fin X0) (fin Y0) (fin Z0) (fin 0) (fin 0) (fin 0) (fin X) (fin Y) (fin Z)
      = (M.round (M.div (M.mul (M.add (M.sub (M.mul (fin ci) (M.div (fin vx) (fin u))) (fin xx0))
            (M.mul (M.div (M.mul (fin dimXi) (fin pix)) 2) (M.neg 1))) (M.neg 1)) (fin pix)),
         M.round (M.div (M.mul (M.add (M.sub (M.mul (fin ci) (M.div (fin vy) (fin u))) (fin yy0))
            (M.mul (M.div (M.mul (fin dimYi) (fin pix)) 2) (M.neg 1))) (M.neg 1)) (fin pix))) := by
  obtain ⟨s1, s2, s3⟩ := hM.nadir_sums hvx hvy hu
  simp only [getImageXY.compute, hM.radians_zero, hM.rotation_zero hcos hsin, hX, hY, hZ,
    s1, s2, s3, hM.neg_one_mul_c hci]

/-! ## Lemmas on the rotation matrix -/

theorem circleMath_unit (x : ℚ) : circleMath.cos x ^ 2 + circleMath.sin x ^ 2 = 1 := by
  have h : (1 + (x / 2) ^ 2) ≠ 0 := by positivity
  simp only [circleMath]
  field_simp
  ring

theorem rotX_orthogonal (c s : ℚ) (h : c ^ 2 + s ^ 2 = 1) :
    rotX c s * (rotX c s).transpose = 1 ∧ (rotX c s).det = 1 := by
  constructor
  · ext i j
    simp only [Matrix.mul_apply, Fin.sum_univ_three, Matrix.transpose_apply]
    fin_cases i <;> fin_cases j <;> simp [rotX, Matrix.vecHead, Matrix.vecTail] <;>
      first
        | ring1
        | linear_combination h
  · simp [rotX, Matrix.det_fin_three, Matrix.vecHead, Matrix.vecTail]
    linear_combination h

theorem rotY_orthogonal (c s : ℚ) (h : c ^ 2 + s ^ 2 = 1) :
    rotY c s * (rotY c s).transpose = 1 ∧ (rotY c s).det = 1 := by
  constructor
  · ext i j
    simp only [Matrix.mul_apply, Fin.sum_univ_three, Matrix.transpose_apply]
    fin_cases i <;> fin_cases j <;> simp [rotY, Matrix.vecHead, Matrix.vecTail] <;>
      first
        | ring1
        | linear_combination h
  · simp [rotY, Matrix.det_fin_three, Matrix.vecHead, Matrix.vecTail]
    linear_combination h

theorem rotZ_orthogonal (c s : ℚ) (h : c ^ 2 + s ^ 2 = 1) :
    rotZ c s * (rotZ c s).transpose = 1 ∧ (rotZ c s).det = 1 := by
  constructor
  · ext i j
    simp only [Matrix.mul_apply, Fin.sum_univ_three, Matrix.transpose_apply]
    fin_cases i <;> fin_cases j <;> simp [rotZ, Matrix.vecHead, Matrix.vecTail] <;>
      first
        | ring1
        | linear_combination h
  · simp [rotZ, Matrix.det_fin_three, Matrix.vecHead, Matrix.vecTail]
    linear_combination h

/-- The matrix `D` is the product of the three axis rotations. -/
theorem Camera.D_eq_product (M : MathLib) (cam : Camera) :
    cam.D M = rotX (M.cos (cam.o M)) (M.sin (cam.o M))
      * rotY (M.cos (cam.p M)) (M.sin (cam.p M))
      * rotZ (M.cos (cam.k M)) (M.sin (cam.k M)) := by
  ext i j
  simp only [Matrix.mul_apply, Fin.sum_univ_three]
  fin_cases i <;> fin_cases j <;>
    simp [Camera.D, rotX, rotY, rotZ, Matrix.vecHead, Matrix.vecTail, Camera.D11,
      Camera.D12, Camera.D13, Camera.D21, Camera.D22, Camera.D23, Camera.D31, Camera.D32,
      Camera.D33] <;> ring

/-- In exact arithmetic the entries computed by `getImageXY` from finite
angles are those of the matrix `D`. -/
theorem rotation_eq_D {M : MathLib} (hM : M.Exact) (cam : Camera) :
    rotation M (radians M (fin cam.Ome)) (radians M (fin cam.Phi)) (radians M (fin cam.Kap))
      = Rotation.ofMatrix (cam.D M) := by
  have h180 : (180 : ℚ) ≠ 0 := by norm_num
  simp [rotation, radians, hM.div_fin_of_ne _ h180, hM.mul_fin, hM.add_fin, hM.sub_fin,
    hM.neg_fin, hM.jsCos_fin, hM.jsSin_fin, Rotation.ofMatrix, Camera.D, Camera.D11,
    Camera.D12, Camera.D13, Camera.D21, Camera.D22, Camera.D23, Camera.D31, Camera.D32,
    Camera.D33, Camera.o, Camera.p, Camera.k]

/-- With zero angles the matrix entries are those of the identity. -/
theorem Camera.zero_angles (M : MathLib) (cam : Camera) (hcos : M.cos 0 = 1) (hsin : M.sin 0 = 0)
    (hO : cam.Ome = 0) (hP : cam.Phi = 0) (hK : cam.Kap = 0) (X Y Z : ℚ) :
    cam.w M X Y Z = Z - cam.Z0
      ∧ cam.x_dot M X Y Z = cam.ci * (X - cam.X0) / (Z - cam.Z0)
      ∧ cam.y_dot M X Y Z = cam.ci * (Y - cam.Y0) / (Z - cam.Z0) := by
  have hw : cam.w M X Y Z = Z - cam.Z0 := by
    simp [Camera.w, Camera.D13, Camera.D23, Camera.D33, Camera.o, Camera.p, hO, hP, hcos, hsin]
  refine ⟨hw, ?_, ?_⟩
  · rw [Camera.x_dot, hw]
    simp [Camera.D11, Camera.D21, Camera.D31, Camera.o, Camera.p, Camera.k, hO, hP, hK, hcos,
      hsin]
  · rw [Camera.y_dot, hw]
    simp [Camera.D12, Camera.D22, Camera.D32, Camera.o, Camera.p, Camera.k, hO, hP, hK, hcos,
      hsin]

/-! ## Lemmas on the camera with zero angles -/

theorem doubleMath_IEEE : doubleMath.IEEE := ⟨rfl, rfl, rfl⟩

theorem doubleMath_cos_zero : doubleMath.cos 0 = 1 := by decide!

theorem doubleMath_sin_zero : doubleMath.sin 0 = 0 := by decide!

theorem readCamera_farImage : readCamera farImage = some farCamera := by
  simp [readCamera, readInterior, readExterior, finiteAt, finite?, index, farImage, farCamera,
    sampleCamera, nadirCamera]

namespace MathLib

namespace IEEE

variable {M N : MathLib}

theorem neg_eq (hM : M.IEEE) (hN : N.IEEE) : M.neg = N.neg := by
  funext x
  cases x <;> simp [MathLib.neg, MathLib.zero, hM.signedZero_eq, hN.signedZero_eq]

theorem add_eq (hM : M.IEEE) (hN : N.IEEE) : M.add = N.add := by
  funext x y
  cases x <;> cases y <;>
    simp [MathLib.add, MathLib.result, MathLib.zero, hM.signedZero_eq, hN.signedZero_eq,
      hM.fl_eq, hN.fl_eq]

theorem sub_eq (hM : M.IEEE) (hN : N.IEEE) : M.sub = N.sub := by
  funext x y
  simp [MathLib.sub, hM.neg_eq hN, hM.add_eq hN]

theorem mul_eq (hM : M.IEEE) (hN : N.IEEE) : M.mul = N.mul := by
  funext x y
  cases x <;> cases y <;>
    simp [MathLib.mul, MathLib.result, MathLib.zero, hM.signedZero_eq, hN.signedZero_eq,
      hM.fl_eq, hN.fl_eq]

theorem div_eq (hM : M.IEEE) (hN : N.IEEE) : M.div = N.div := by
  funext x y
  cases x <;> cases y <;>
    simp [MathLib.div, MathLib.result, MathLib.zero, hM.signedZero_eq, hN.signedZero_eq,
      hM.fl_eq, hN.fl_eq]

theorem round_eq (hM : M.IEEE) (hN : N.IEEE) : M.round = N.round := by
  funext x
  cases x <;> simp [MathLib.round, MathLib.zero, hM.signedZero_eq, hN.signedZero_eq]

end IEEE

end MathLib

/-- In double arithmetic a camera with zero angles, principal-point offset
`(0, 0)`, focal length 50, pixel spacing 0.006 and sensor 8000×6000
projects the ground point straight below it to column 4000, row 3000,
wherever it stands, as long as the difference `Z - Z0` is finite. -/
theorem getImageXY_nadir_double {M : MathLib} (hM : M.IEEE) (hcos : M.cos 0 = 1)
    (hsin : M.sin 0 = 0) (image_data : ImageData) (cam : Camera) (Z : ℚ)
    (hcam : readCamera image_data = some cam)
    (hO : cam.Ome = 0) (hP : cam.Phi = 0) (hK : cam.Kap = 0) (hx : cam.xx0 = 0)
    (hy : cam.yy0 = 0) (hci : cam.ci = 50) (hpix : cam.pix = pix006) (hdx : cam.dimXi = 8000)
    (hdy : cam.dimYi = 6000) (bZ0 : isBinary64 cam.Z0 = true) (bZ : isBinary64 Z = true)
    (hZ : Z < cam.Z0) (hdZ : (M.sub (fin Z) (fin cam.Z0)).isFinite = true) :
    getImageXY M image_data (fin cam.X0) (fin cam.Y0) (some (fin Z))
      = .ok (fin 4000, fin 3000) := by
  obtain ⟨u, hu, bu, hneg⟩ := hM.sub_double bZ bZ0 hdZ
  have hu0 : u < 0 := hneg hZ
  have hX : M.sub (fin cam.X0) (fin cam.X0) = fin 0 := by rw [hM.sub_fin_fin, if_pos rfl]
  have hY : M.sub (fin cam.Y0) (fin cam.Y0) = fin 0 := by rw [hM.sub_fin_fin, if_pos rfl]
  have hdiv : M.div (fin 0) (fin u) = negZero := by
    rw [M.div_finite (isFinite_fin 0) (isFinite_fin u) (by simp [isZero, ne_of_lt hu0])]
    simp [MathLib.result, toRat, sign, hM.zero_eq, hu0]
  have b50 : isBinary64 50 = true := by decide!
  have key : (doubleMath.round (doubleMath.div (doubleMath.mul (doubleMath.add
        (doubleMath.sub (doubleMath.mul (fin 50) negZero) (fin 0))
        (doubleMath.mul (doubleMath.div (doubleMath.mul (fin 8000) (fin pix006)) 2)
          (doubleMath.neg 1))) (doubleMath.neg 1)) (fin pix006)),
      doubleMath.round (doubleMath.div (doubleMath.mul (doubleMath.add
        (doubleMath.sub (doubleMath.mul (fin 50) negZero) (fin 0))
        (doubleMath.mul (doubleMath.div (doubleMath.mul (fin 6000) (fin pix006)) 2)
          (doubleMath.neg 1))) (doubleMath.neg 1)) (fin pix006)))
      = (fin 4000, fin 3000) := by
    decide!
  rw [getImageXY_of_readCamera M _ _ _ _ _ hcam, hO, hP, hK, hx, hy, hci, hpix, hdx, hdy,
    Option.getD_some,
    getImageXY.compute_zero_angles hM hcos hsin _ _ _ _ _ _ _ _ _ _ _ _ b50 hX isBinary64_zero
      hY isBinary64_zero hu bu,
    hdiv, hM.neg_eq doubleMath_IEEE, hM.add_eq doubleMath_IEEE, hM.sub_eq doubleMath_IEEE,
    hM.mul_eq doubleMath_IEEE, hM.div_eq doubleMath_IEEE, hM.round_eq doubleMath_IEEE, key]

/-- In double arithmetic the matrix of the zero angles has the values of
the identity matrix. -/
theorem rotation_zero_toMatrix {M : MathLib} (hM : M.IEEE) (hcos : M.cos 0 = 1)
    (hsin : M.sin 0 = 0) :
    (rotation M (radians M (fin 0)) (radians M (fin 0)) (radians M (fin 0))).toMatrix = 1 := by
  rw [hM.radians_zero, hM.rotation_zero hcos hsin, Matrix.one_fin_three]
  simp [Rotation.toMatrix, toRat]

/-- In exact arithmetic, for a camera with zero angles, positive focal
length and pixel spacing and ground points at a fixed `Z < Z0`, the column
is a non-decreasing function of `X` alone and the row one of `Y` alone. -/
theorem getImageXY_axes_exact {M : MathLib} (hM : M.Exact) (image_data : ImageData)
    (cam : Camera) (Z : ℚ) (hcos : M.cos 0 = 1) (hsin : M.sin 0 = 0)
    (hcam : readCamera image_data = some cam)
    (hO : cam.Ome = 0) (hP : cam.Phi = 0) (hK : cam.Kap = 0)
    (hci : 0 < cam.ci) (hpix : 0 < cam.pix) (hZ : Z < cam.Z0) :
    ∃ col row : ℚ → ℤ,
      (∀ X Y, getImageXY M image_data (fin X) (fin Y) (some (fin Z))
        = .ok (fin (col X), fin (row Y)))
      ∧ Monotone col ∧ Monotone row := by
  have hZ0 : 0 < cam.Z0 - Z := sub_pos.mpr hZ
  have hne : Z - cam.Z0 ≠ 0 := by
    intro h
    linarith
  refine ⟨fun X => roundHalfUp (-((cam.ci * (X - cam.X0) / (Z - cam.Z0) - cam.xx0) + cam.dimX)
      / cam.pix),
    fun Y => roundHalfUp (-((cam.ci * (Y - cam.Y0) / (Z - cam.Z0) - cam.yy0) + cam.dimY)
      / cam.pix), ?_, ?_, ?_⟩
  · intro X Y
    obtain ⟨hw, hx, hy⟩ := Camera.zero_angles M cam hcos hsin hO hP hK X Y Z
    have h := getImageXY_finite hM image_data cam X Y (some Z) hcam (ne_of_gt hpix)
      (by rw [Option.getD_some, hw]; exact hne)
    simp only [Option.map_some', Option.getD_some] at h
    rw [h]
    simp only [Camera.col, Camera.row, hx, hy]
  · intro X1 X2 hX
    apply roundHalfUp_mono
    have key : -((cam.ci * (X2 - cam.X0) / (Z - cam.Z0) - cam.xx0) + cam.dimX) / cam.pix
        - -((cam.ci * (X1 - cam.X0) / (Z - cam.Z0) - cam.xx0) + cam.dimX) / cam.pix
        = cam.ci * (X2 - X1) / ((cam.Z0 - Z) * cam.pix) := by
      have h1 : cam.Z0 - Z ≠ 0 := ne_of_gt hZ0
      have h2 : cam.pix ≠ 0 := ne_of_gt hpix
      field_simp
      ring
    have hnn : 0 ≤ cam.ci * (X2 - X1) / ((cam.Z0 - Z) * cam.pix) :=
      div_nonneg (mul_nonneg (le_of_lt hci) (sub_nonneg.mpr hX))
        (le_of_lt (mul_pos hZ0 hpix))
    linarith
  · intro Y1 Y2 hY
    apply roundHalfUp_mono
    have key : -((cam.ci * (Y2 - cam.Y0) / (Z - cam.Z0) - cam.yy0) + cam.dimY) / cam.pix
        - -((cam.ci * (Y1 - cam.Y0) / (Z - cam.Z0) - cam.yy0) + cam.dimY) / cam.pix
        = cam.ci * (Y2 - Y1) / ((cam.Z0 - Z) * cam.pix) := by
      have h1 : cam.Z0 - Z ≠ 0 := ne_of_gt hZ0
      have h2 : cam.pix ≠ 0 := ne_of_gt hpix
      field_simp
      ring
    have hnn : 0 ≤ cam.ci * (Y2 - Y1) / ((cam.Z0 - Z) * cam.pix) :=
      div_nonneg (mul_nonneg (le_of_lt hci) (sub_nonneg.mpr hY))
        (le_of_lt (mul_pos hZ0 hpix))
    linarith

/-- In double arithmetic, for a camera with zero angles, positive focal
length and pixel spacing and ground points at a fixed `Z < Z0`, all values
being binary64 numbers: while the half-sizes and the coordinate differences
are finite, the column is a non-decreasing function of `X` alone and the row
one of `Y` alone. -/
theorem getImageXY_axes_double {M : MathLib} (hM : M.IEEE) (image_data : ImageData)
    (cam : Camera) (Z : ℚ) (hcos : M.cos 0 = 1) (hsin : M.sin 0 = 0)
    (hcam : readCamera image_data = some cam)
    (hO : cam.Ome = 0) (hP : cam.Phi = 0) (hK : cam.Kap = 0)
    (hci : 0 < cam.ci) (hpix : 0 < cam.pix) (hZ : Z < cam.Z0)
    (bci : isBinary64 cam.ci = true) (bX0 : isBinary64 cam.X0 = true)
    (bY0 : isBinary64 cam.Y0 = true) (bZ0 : isBinary64 cam.Z0 = true)
    (bZ : isBinary64 Z = true)
    (hdimX : (M.mul (M.div (M.mul (fin cam.dimXi) (fin cam.pix)) 2) (M.neg 1)).isFinite = true)
    (hdimY : (M.mul (M.div (M.mul (fin cam.dimYi) (fin cam.pix)) 2) (M.neg 1)).isFinite = true)
    (hdZ : (M.sub (fin Z) (fin cam.Z0)).isFinite = true) :
    ∃ col row : ℚ → JSNum,
      (∀ X Y, isBinary64 X = true → isBinary64 Y = true →
        (M.sub (fin X) (fin cam.X0)).isFinite = true →
        (M.sub (fin Y) (fin cam.Y0)).isFinite = true →
        getImageXY M image_data (fin X) (fin Y) (some (fin Z)) = .ok (col X, row Y))
      ∧ (∀ X1 X2, X1 ≤ X2 → (col X1).le (col X2) = true)
      ∧ (∀ Y1 Y2, Y1 ≤ Y2 → (row Y1).le (row Y2) = true) := by
  obtain ⟨u, hu, bu, hneg⟩ := hM.sub_double bZ bZ0 hdZ
  have hu0 : u < 0 := hneg hZ
  refine ⟨fun X => M.round (M.div (M.mul (M.add (M.sub (M.mul (fin cam.ci)
        (M.div (M.sub (fin X) (fin cam.X0)) (fin u))) (fin cam.xx0))
        (M.mul (M.div (M.mul (fin cam.dimXi) (fin cam.pix)) 2) (M.neg 1))) (M.neg 1))
        (fin cam.pix)),
    fun Y => M.round (M.div (M.mul (M.add (M.sub (M.mul (fin cam.ci)
        (M.div (M.sub (fin Y) (fin cam.Y0)) (fin u))) (fin cam.yy0))
        (M.mul (M.div (M.mul (fin cam.dimYi) (fin cam.pix)) 2) (M.neg 1))) (M.neg 1))
        (fin cam.pix)), ?_, ?_, ?_⟩
  · intro X Y bX bY hX hY
    obtain ⟨vx, hvx, bvx, -⟩ := hM.sub_double bX bX0 hX
    obtain ⟨vy, hvy, bvy, -⟩ := hM.sub_double bY bY0 hY
    rw [getImageXY_of_readCamera M _ _ _ _ _ hcam, hO, hP, hK, Option.getD_some,
      getImageXY.compute_zero_angles hM hcos hsin _ _ _ _ _ _ _ _ _ _ _ _ bci hvx bvx hvy bvy
        hu bu]
    simp only [hvx, hvy]
  · intro X1 X2 h
    exact hM.pixel_le_pixel _ hci hu0 hpix hdimX
      (hM.sub_le_sub_right _ (by rw [JSNum.le_fin_fin]; exact decide_eq_true h))
  · intro Y1 Y2 h
    exact hM.pixel_le_pixel _ hci hu0 hpix hdimY
      (hM.sub_le_sub_right _ (by rw [JSNum.le_fin_fin]; exact decide_eq_true h))

/-! ## Lemmas on the pages -/

/-- What the `for` loop of `fetchImages` in `MapPage` leaves in its local
variables, in terms of the queries it made. -/
theorem MapPage_loop {σ ε : Type} (queryItems : Operation QueryArgs σ ε QueryResponse)
    (coordinates : List JSNum) (sd sc : String) :
    ∀ (ds : List String) (acc : MapLoop σ ε),
      ∃ q : List (QueryArgs × Except ε QueryResponse),
        (ds.foldl (MapPage.fetchImages.step queryItems coordinates sd sc) acc).queries
            = acc.queries ++ q
          ∧ q.map Prod.fst = ds.map (fun d => ⟨coordinates, d, some sc, some limit⟩)
          ∧ (ds.foldl (MapPage.fetchImages.step queryItems coordinates sd sc) acc).newImagesTif
            = acc.newImagesTif ++ q.map entryOf
          ∧ (ds.foldl (MapPage.fetchImages.step queryItems coordinates sd sc) acc).setters
            = acc.setters
              ++ (q.filterMap errorOf).map (fun e => Setter.setErrorMessage e.1 e.2)
          ∧ (ds.foldl (MapPage.fetchImages.step queryItems coordinates sd sc)
              acc).currentSelectedItem = pickSelected sd acc.currentSelectedItem q := by
  intro ds
  induction ds with
  | nil => intro acc; exact ⟨[], by simp [pickSelected]⟩
  | cons d ds ih =>
    intro acc
    obtain ⟨q2, h1, h2, h3, h4, h5⟩ :=
      ih (MapPage.fetchImages.step queryItems coordinates sd sc acc d)
    simp only [List.foldl_cons]
    rcases hq : queryItems ⟨coordinates, d, some sc, some limit⟩ acc.state with ⟨r, s1⟩
    cases r with
    | error e =>
      refine ⟨(⟨coordinates, d, some sc, some limit⟩, .error e) :: q2, ?_, ?_, ?_, ?_, ?_⟩
      · rw [h1]; simp [MapPage.fetchImages.step, hq]
      · simp [h2]
      · rw [h3]; simp [MapPage.fetchImages.step, hq, entryOf]
      · rw [h4]; simp [MapPage.fetchImages.step, hq, errorOf]
      · rw [h5]; simp [MapPage.fetchImages.step, hq, pickSelected]
    | ok response =>
      cases hf : firstFeature response with
      | none =>
        refine ⟨(⟨coordinates, d, some sc, some limit⟩, .ok response) :: q2, ?_, ?_, ?_, ?_, ?_⟩
        · rw [h1]; simp [MapPage.fetchImages.step, hq, hf]
        · simp [h2]
        · rw [h3]; simp [MapPage.fetchImages.step, hq, hf, entryOf]
        · rw [h4]; simp [MapPage.fetchImages.step, hq, hf, errorOf]
        · rw [h5]; simp [MapPage.fetchImages.step, hq, hf, pickSelected]
      | some feature =>
        refine ⟨(⟨coordinates, d, some sc, some limit⟩, .ok response) :: q2, ?_, ?_, ?_, ?_, ?_⟩
        · rw [h1]; simp [MapPage.fetchImages.step, hq, hf]
        · simp [h2]
        · rw [h3]; simp [MapPage.fetchImages.step, hq, hf, entryOf]
        · rw [h4]; simp [MapPage.fetchImages.step, hq, hf, errorOf]
        · rw [h5]; simp [MapPage.fetchImages.step, hq, hf, pickSelected]

/-- The calls and setter calls of a round of `fetchImages` in `MapPage`:
five queries, the error states they set, then the selected item and the
mapping, then at most one further call, `setCenter` or the 503 state of a
failed elevation fetch. -/
theorem MapPage_round {σ ε : Type} (M : MathLib)
    (queryItems : Operation QueryArgs σ ε QueryResponse)
    (getElevationData : Operation (List JSNum) σ ε (Option JSNum))
    (coordinates : List JSNum) (sd sc : String) (s : σ) :
    ∃ tail : List Setter,
      (MapPage.fetchImages M queryItems getElevationData coordinates sd sc s).1.queries.map
          Prod.fst = directions.map (fun d => ⟨coordinates, d, some sc, some limit⟩)
      ∧ (MapPage.fetchImages M queryItems getElevationData coordinates sd sc s).1.setters
        = ((MapPage.fetchImages M queryItems getElevationData coordinates sd sc
              s).1.queries.filterMap errorOf).map (fun e => Setter.setErrorMessage e.1 e.2)
          ++ [.setSelectedItem (pickSelected sd none
                (MapPage.fetchImages M queryItems getElevationData coordinates sd sc s).1.queries),
              .setImagesTif ((MapPage.fetchImages M queryItems getElevationData coordinates sd sc
                s).1.queries.map entryOf)]
          ++ tail
      ∧ (tail = [] ∨ (∃ c, tail = [.setCenter c])
          ∨ (tail = [.setErrorMessage "The API server seems to be down for the moment" 503]
            ∧ ∃ e, (MapPage.fetchImages M queryItems getElevationData coordinates sd sc
                s).1.elevation = some (coordinates, .error e)))
      ∧ (pickSelected sd none
          (MapPage.fetchImages M queryItems getElevationData coordinates sd sc s).1.queries = none
          → tail = []) := by
  obtain ⟨q, h1, h2, h3, h4, h5⟩ := MapPage_loop queryItems coordinates sd sc directions
    ⟨[], none, [], [], s⟩
  simp only [List.nil_append] at h1 h3 h4 h5
  unfold MapPage.fetchImages
  simp only [h1, h3, h4, h5]
  cases hsel : pickSelected sd none q with
  | none => exact ⟨[], h2, by simp [hsel], Or.inl rfl, fun _ => rfl⟩
  | some item =>
    simp only
    rcases getElevationData coordinates _ with ⟨r, s1⟩
    cases r with
    | error e =>
      exact ⟨[.setErrorMessage "The API server seems to be down for the moment" 503], h2,
        by simp [hsel], Or.inr (Or.inr ⟨rfl, e, rfl⟩), fun h => by simp [hsel] at h⟩
    | ok elevation =>
      simp only
      cases updateCenter M coordinates (some item) elevation with
      | none => exact ⟨[], h2, by simp [hsel], Or.inl rfl, fun h => by simp [hsel] at h⟩
      | some result =>
        exact ⟨[.setCenter result.imageCoord], h2, by simp [hsel], Or.inr (Or.inl ⟨_, rfl⟩),
          fun h => by simp [hsel] at h⟩

theorem MapPageState.after_append (st : MapPageState) (a b : List Setter) :
    st.after (a ++ b) = (st.after a).after b := by
  unfold MapPageState.after
  rw [List.foldl_append]

/-- The state after a sequence of error states has been set: the last one
is published and nothing else changes. -/
theorem MapPageState.after_errors (errs : List (String × Nat)) :
    ∀ st : MapPageState,
      st.after (errs.map (fun e => Setter.setErrorMessage e.1 e.2))
        = { st with errorMessage :=
              match errs.getLast? with
              | some e => some e
              | none => st.errorMessage } := by
  induction errs with
  | nil => intro st; rfl
  | cons e errs ih =>
    intro st
    show (MapPageState.set st (.setErrorMessage e.1 e.2)).after _ = _
    rw [ih]
    cases h : errs.getLast? with
    | none => simp [MapPageState.set, List.getLast?_cons, h]
    | some e1 => simp [MapPageState.set, List.getLast?_cons, h]

/-- The state of `MapPage` after a round has published: the mapping and the
selected item are those of the round, and, unless the elevation fetch
failed, the error state is that of the last failed or empty query, or the
previous one. -/
theorem MapPage_after {σ ε : Type} (M : MathLib)
    (queryItems : Operation QueryArgs σ ε QueryResponse)
    (getElevationData : Operation (List JSNum) σ ε (Option JSNum))
    (coordinates : List JSNum) (sd sc : String) (s : σ) (st : MapPageState) :
    (st.after (MapPage.fetchImages M queryItems getElevationData coordinates sd sc
        s).1.setters).imagesTif
        = (MapPage.fetchImages M queryItems getElevationData coordinates sd sc
          s).1.queries.map entryOf
      ∧ (st.after (MapPage.fetchImages M queryItems getElevationData coordinates sd sc
        s).1.setters).selectedItem
        = pickSelected sd none
          (MapPage.fetchImages M queryItems getElevationData coordinates sd sc s).1.queries
      ∧ (((∀ e, (MapPage.fetchImages M queryItems getElevationData coordinates sd sc
            s).1.elevation ≠ some (coordinates, .error e))
          ∨ pickSelected sd none (MapPage.fetchImages M queryItems getElevationData coordinates
            sd sc s).1.queries = none) →
        (st.after (MapPage.fetchImages M queryItems getElevationData coordinates sd sc
          s).1.setters).errorMessage
          = publishedError st.errorMessage
            (MapPage.fetchImages M queryItems getElevationData coordinates sd sc s).1.queries) := by
  obtain ⟨tail, -, hset, htail, hnone⟩ :=
    MapPage_round M queryItems getElevationData coordinates sd sc s
  rw [hset, MapPageState.after_append, MapPageState.after_append, MapPageState.after_errors]
  rcases htail with rfl | ⟨c, rfl⟩ | ⟨rfl, e, he⟩
  · exact ⟨rfl, rfl, fun _ => rfl⟩
  · exact ⟨rfl, rfl, fun _ => rfl⟩
  · refine ⟨rfl, rfl, fun h => ?_⟩
    rcases h with h | h
    · exact absurd he (h e)
    · have := hnone h
      cases this

/-- No item is selected when every query for the selected direction
failed. -/
theorem pickSelected_none {ε : Type} (sd : String) :
    ∀ q : List (QueryArgs × Except ε QueryResponse),
      (∀ x ∈ q, x.1.direction = sd → ∃ e, x.2 = .error e) → pickSelected sd none q = none := by
  intro q
  induction q with
  | nil => intro _; rfl
  | cons x q ih =>
    intro h
    have hq := ih (fun y hy => h y (List.mem_cons_of_mem _ hy))
    obtain ⟨args, outcome⟩ := x
    cases outcome with
    | error e => exact hq
    | ok response =>
      cases hf : firstFeature response with
      | none => simp only [pickSelected, hf]; exact hq
      | some feature =>
        by_cases hd : args.direction = sd
        · obtain ⟨e, he⟩ := h (args, .ok response) (List.mem_cons_self _ _) hd
          cases he
        · simp only [pickSelected, hf, if_neg hd]
          exact hq

/-- What the `for` loop of `fetchImages` in `MultiViewerPage` leaves in
its local variables, in terms of the queries it made. -/
theorem MultiViewerPage_loop {σ ε : Type} (queryItems : Operation QueryArgs σ ε QueryResponse)
    (coordinates : List JSNum) (sd : String) :
    ∀ (ds : List String) (acc : MultiLoop σ ε),
      ∃ q : List (QueryArgs × Except ε QueryResponse),
        (ds.foldl (MultiViewerPage.fetchImages.step queryItems coordinates sd) acc).queries
            = acc.queries ++ q
          ∧ q.map Prod.fst
            = ds.map (fun d => ⟨coordinates, d, some MultiViewerPage.collection, some limit⟩)
          ∧ (ds.foldl (MultiViewerPage.fetchImages.step queryItems coordinates sd) acc).newImages
            = acc.newImages ++ q.map thumbnailOf
          ∧ (ds.foldl (MultiViewerPage.fetchImages.step queryItems coordinates sd)
              acc).newImagesTif = acc.newImagesTif ++ q.map entryOf
          ∧ (ds.foldl (MultiViewerPage.fetchImages.step queryItems coordinates sd)
              acc).currentSelectedItem = pickSelected sd acc.currentSelectedItem q := by
  intro ds
  induction ds with
  | nil => intro acc; exact ⟨[], by simp [pickSelected]⟩
  | cons d ds ih =>
    intro acc
    obtain ⟨q2, h1, h2, h3, h4, h5⟩ :=
      ih (MultiViewerPage.fetchImages.step queryItems coordinates sd acc d)
    simp only [List.foldl_cons]
    rcases hq : queryItems ⟨coordinates, d, some MultiViewerPage.collection, some limit⟩ acc.state
      with ⟨r, s1⟩
    cases r with
    | error e =>
      refine ⟨(⟨coordinates, d, some MultiViewerPage.collection, some limit⟩, .error e) :: q2,
        ?_, ?_, ?_, ?_, ?_⟩
      · rw [h1]; simp [MultiViewerPage.fetchImages.step, hq]
      · simp [h2]
      · rw [h3]; simp [MultiViewerPage.fetchImages.step, hq, thumbnailOf]
      · rw [h4]; simp [MultiViewerPage.fetchImages.step, hq, entryOf]
      · rw [h5]; simp [MultiViewerPage.fetchImages.step, hq, pickSelected]
    | ok response =>
      cases hf : firstFeature response with
      | none =>
        refine ⟨(⟨coordinates, d, some MultiViewerPage.collection, some limit⟩, .ok response)
          :: q2, ?_, ?_, ?_, ?_, ?_⟩
        · rw [h1]; simp [MultiViewerPage.fetchImages.step, hq, hf]
        · simp [h2]
        · rw [h3]; simp [MultiViewerPage.fetchImages.step, hq, hf, thumbnailOf]
        · rw [h4]; simp [MultiViewerPage.fetchImages.step, hq, hf, entryOf]
        · rw [h5]; simp [MultiViewerPage.fetchImages.step, hq, hf, pickSelected]
      | some feature =>
        refine ⟨(⟨coordinates, d, some MultiViewerPage.collection, some limit⟩, .ok response)
          :: q2, ?_, ?_, ?_, ?_, ?_⟩
        · rw [h1]; simp [MultiViewerPage.fetchImages.step, hq, hf]
        · simp [h2]
        · rw [h3]; simp [MultiViewerPage.fetchImages.step, hq, hf, thumbnailOf]
        · rw [h4]; simp [MultiViewerPage.fetchImages.step, hq, hf, entryOf]
        · rw [h5]; simp [MultiViewerPage.fetchImages.step, hq, hf, pickSelected]

/-- The calls and setter calls of a round of `fetchImages` in
`MultiViewerPage`. -/
theorem MultiViewerPage_round {σ ε : Type} (queryItems : Operation QueryArgs σ ε QueryResponse)
    (coordinates : List JSNum) (sd : String) (s : σ) :
    (MultiViewerPage.fetchImages queryItems coordinates sd s).1.queries.map Prod.fst
        = directions.map
          (fun d => ⟨coordinates, d, some MultiViewerPage.collection, some limit⟩)
      ∧ (MultiViewerPage.fetchImages queryItems coordinates sd s).1.setters
        = [.setSelectedItem (pickSelected sd none
              (MultiViewerPage.fetchImages queryItems coordinates sd s).1.queries),
            .setImages ((MultiViewerPage.fetchImages queryItems coordinates sd s).1.queries.map
              thumbnailOf),
            .setImagesTif ((MultiViewerPage.fetchImages queryItems coordinates sd
              s).1.queries.map entryOf)] := by
  obtain ⟨q, h1, h2, h3, h4, h5⟩ := MultiViewerPage_loop queryItems coordinates sd directions
    ⟨[], [], none, [], s⟩
  simp only [List.nil_append] at h1 h3 h4 h5
  unfold MultiViewerPage.fetchImages
  simp only [h1, h3, h4, h5]
  exact ⟨h2, trivial⟩

theorem issueAll_fst {A σ ε α : Type} (op : Operation A σ ε α) :
    ∀ (l : List A) (s : σ), (issueAll op l s).1.map Prod.fst = l := by
  intro l
  induction l with
  | nil => intro s; rfl
  | cons a l ih =>
    intro s
    show a :: (issueAll op l (op a s).2).1.map Prod.fst = a :: l
    rw [ih]

theorem promiseAll_ok {ε α : Type} :
    ∀ (l : List (Except ε α)) (xs : List α), promiseAll l = .ok xs → l = xs.map Except.ok := by
  intro l
  induction l with
  | nil =>
    intro xs h
    simp only [promiseAll, Except.ok.injEq] at h
    subst h
    rfl
  | cons x l ih =>
    intro xs h
    cases x with
    | error e => simp [promiseAll] at h
    | ok a =>
      simp only [promiseAll] at h
      cases hr : promiseAll l with
      | error e => simp [hr] at h
      | ok as =>
        simp only [hr, Except.ok.injEq] at h
        subst h
        simp [ih as hr]

theorem terrains_length {σ ε T : Type} (getTerrainData : Operation (Option Feature) σ ε T) :
    ∀ (items : List QueryResponse) (s s2 : σ) (ps : List (Except ε T)),
      refreshItems.terrains getTerrainData items s = (.ok ps, s2) → ps.length = items.length := by
  intro items
  induction items with
  | nil =>
    intro s s2 ps h
    simp only [refreshItems.terrains, Prod.mk.injEq, Except.ok.injEq] at h
    rw [← h.1]
    rfl
  | cons item items ih =>
    intro s s2 ps h
    simp only [refreshItems.terrains] at h
    cases hf : item.features with
    | none => simp [hf] at h
    | some features =>
      simp only [hf] at h
      rcases hr : refreshItems.terrains getTerrainData items (getTerrainData features.head? s).2
        with ⟨r, s3⟩
      rw [hr] at h
      cases r with
      | error e => simp at h
      | ok ps1 =>
        simp only [Prod.mk.injEq, Except.ok.injEq] at h
        rw [← h.1, List.length_cons, List.length_cons, ih _ _ _ hr]

theorem exists_mem_zip {α β : Type} :
    ∀ (l1 : List α) (l2 : List β) (a : α), a ∈ l1 → l1.length ≤ l2.length →
      ∃ b, (a, b) ∈ l1.zip l2 := by
  intro l1
  induction l1 with
  | nil => intro l2 a h; cases h
  | cons x l1 ih =>
    intro l2 a h hl
    cases l2 with
    | nil => simp at hl
    | cons y l2 =>
      rcases List.mem_cons.mp h with rfl | h
      · exact ⟨y, by simp⟩
      · obtain ⟨b, hb⟩ := ih l2 a h (by simpa using hl)
        exact ⟨b, by simp [hb]⟩

theorem assign_error {ε T : Type} :
    ∀ (l : List (QueryResponse × T)) (pairs : List (String × Option (Feature × T))),
      (∃ p ∈ l, firstFeature p.1 = none) →
      ∃ e : RefreshError ε, refreshItems.assign l pairs = .error e := by
  intro l
  induction l with
  | nil => intro pairs h; obtain ⟨p, hp, -⟩ := h; cases hp
  | cons x l ih =>
    intro pairs h
    obtain ⟨response, terrain⟩ := x
    cases hf : response.features with
    | none => exact ⟨.typeError, by simp [refreshItems.assign, hf]⟩
    | some features =>
      cases features with
      | nil => exact ⟨.typeError, by simp [refreshItems.assign, hf]⟩
      | cons item rest =>
        obtain ⟨p, hp, hnone⟩ := h
        rcases List.mem_cons.mp hp with rfl | hp
        · simp [firstFeature, hf] at hnone
        · obtain ⟨e, he⟩ := ih (setKey pairs item.direction (some (item, terrain)))
            ⟨p, hp, hnone⟩
          exact ⟨e, by simp [refreshItems.assign, hf, he]⟩

/-- One iteration of the loop of `MapPage` calls `queryItems` once, on the
state of the outside world it finds, and logs how the call settled. -/
theorem MapPage_step_call {σ ε : Type} (queryItems : Operation QueryArgs σ ε QueryResponse)
    (coordinates : List JSNum) (sd sc : String) (acc : MapLoop σ ε) (d : String) :
    (MapPage.fetchImages.step queryItems coordinates sd sc acc d).queries
        = acc.queries ++ [(⟨coordinates, d, some sc, some limit⟩,
            (queryItems ⟨coordinates, d, some sc, some limit⟩ acc.state).1)]
      ∧ (MapPage.fetchImages.step queryItems coordinates sd sc acc d).state
        = (queryItems ⟨coordinates, d, some sc, some limit⟩ acc.state).2 := by
  rcases hq : queryItems ⟨coordinates, d, some sc, some limit⟩ acc.state with ⟨r, s1⟩
  cases r with
  | error e => simp [MapPage.fetchImages.step, hq]
  | ok response =>
    cases hf : firstFeature response with
    | none => simp [MapPage.fetchImages.step, hq, hf]
    | some feature => simp [MapPage.fetchImages.step, hq, hf]

/-- The loop of `MapPage` makes the calls `queryItems(coordinates,
direction, selectedCollection, limit)` for the directions in order, each on
the state of the outside world that the previous call left. -/
theorem MapPage_loop_calls {σ ε : Type} (queryItems : Operation QueryArgs σ ε QueryResponse)
    (coordinates : List JSNum) (sd sc : String) :
    ∀ (ds : List String) (acc : MapLoop σ ε),
      (ds.foldl (MapPage.fetchImages.step queryItems coordinates sd sc) acc).queries
          = acc.queries ++ (issueAll queryItems
              (ds.map (fun d => (⟨coordinates, d, some sc, some limit⟩ : QueryArgs))) acc.state).1
        ∧ (ds.foldl (MapPage.fetchImages.step queryItems coordinates sd sc) acc).state
          = (issueAll queryItems
              (ds.map (fun d => (⟨coordinates, d, some sc, some limit⟩ : QueryArgs)))
              acc.state).2 := by
  intro ds
  induction ds with
  | nil => intro acc; simp [issueAll]
  | cons d ds ih =>
    intro acc
    obtain ⟨h1, h2⟩ := ih (MapPage.fetchImages.step queryItems coordinates sd sc acc d)
    obtain ⟨g1, g2⟩ := MapPage_step_call queryItems coordinates sd sc acc d
    simp only [List.foldl_cons, List.map_cons, issueAll]
    rw [h1, h2, g1, g2]
    simp

/-- The calls of `queryItems` in a round of `fetchImages` in `MapPage`, and
the state of the outside world the round leaves: that after the five calls,
or that after the call of `getElevationData` that follows them. -/
theorem MapPage_calls {σ ε : Type} (M : MathLib)
    (queryItems : Operation QueryArgs σ ε QueryResponse)
    (getElevationData : Operation (List JSNum) σ ε (Option JSNum))
    (coordinates : List JSNum) (sd sc : String) (s : σ) :
    (MapPage.fetchImages M queryItems getElevationData coordinates sd sc s).1.queries
        = (issueAll queryItems
            (directions.map (fun d => (⟨coordinates, d, some sc, some limit⟩ : QueryArgs))) s).1
      ∧ ((MapPage.fetchImages M queryItems getElevationData coordinates sd sc s).2
          = (issueAll queryItems
            (directions.map (fun d => (⟨coordinates, d, some sc, some limit⟩ : QueryArgs))) s).2
        ∨ (MapPage.fetchImages M queryItems getElevationData coordinates sd sc s).2
          = (getElevationData coordinates (issueAll queryItems
            (directions.map (fun d => (⟨coordinates, d, some sc, some limit⟩ : QueryArgs)))
            s).2).2) := by
  obtain ⟨h1, h2⟩ := MapPage_loop_calls queryItems coordinates sd sc directions
    ⟨[], none, [], [], s⟩
  simp only [List.nil_append] at h1 h2
  unfold MapPage.fetchImages
  simp only [h1, h2]
  split
  · exact ⟨rfl, Or.inl rfl⟩
  · rcases getElevationData coordinates _ with ⟨r, s1⟩
    cases r with
    | error e => exact ⟨rfl, Or.inr rfl⟩
    | ok elevation =>
      simp only
      split
      · exact ⟨rfl, Or.inr rfl⟩
      · exact ⟨rfl, Or.inr rfl⟩

/-- One iteration of the loop of `MultiViewerPage` calls `queryItems` once. -/
theorem MultiViewerPage_step_call {σ ε : Type}
    (queryItems : Operation QueryArgs σ ε QueryResponse)
    (coordinates : List JSNum) (sd : String) (acc : MultiLoop σ ε) (d : String) :
    (MultiViewerPage.fetchImages.step queryItems coordinates sd acc d).queries
        = acc.queries ++ [(⟨coordinates, d, some MultiViewerPage.collection, some limit⟩,
            (queryItems ⟨coordinates, d, some MultiViewerPage.collection, some limit⟩
              acc.state).1)]
      ∧ (MultiViewerPage.fetchImages.step queryItems coordinates sd acc d).state
        = (queryItems ⟨coordinates, d, some MultiViewerPage.collection, some limit⟩
            acc.state).2 := by
  rcases hq : queryItems ⟨coordinates, d, some MultiViewerPage.collection, some limit⟩ acc.state
    with ⟨r, s1⟩
  cases r with
  | error e => simp [MultiViewerPage.fetchImages.step, hq]
  | ok response =>
    cases hf : firstFeature response with
    | none => simp [MultiViewerPage.fetchImages.step, hq, hf]
    | some feature => simp [MultiViewerPage.fetchImages.step, hq, hf]

/-- The calls of `queryItems` in a round of `fetchImages` in
`MultiViewerPage`, and the state of the outside world the round leaves. -/
theorem MultiViewerPage_calls {σ ε : Type} (queryItems : Operation QueryArgs σ ε QueryResponse)
    (coordinates : List JSNum) (sd : String) (s : σ) :
    (MultiViewerPage.fetchImages queryItems coordinates sd s).1.queries
        = (issueAll queryItems (directions.map (fun d =>
            (⟨coordinates, d, some MultiViewerPage.collection, some limit⟩ : QueryArgs))) s).1
      ∧ (MultiViewerPage.fetchImages queryItems coordinates sd s).2
        = (issueAll queryItems (directions.map (fun d =>
            (⟨coordinates, d, some MultiViewerPage.collection, some limit⟩ : QueryArgs))) s).2 := by
  have key : ∀ (ds : List String) (acc : MultiLoop σ ε),
      (ds.foldl (MultiViewerPage.fetchImages.step queryItems coordinates sd) acc).queries
          = acc.queries ++ (issueAll queryItems (ds.map (fun d =>
              (⟨coordinates, d, some MultiViewerPage.collection, some limit⟩ : QueryArgs)))
              acc.state).1
        ∧ (ds.foldl (MultiViewerPage.fetchImages.step queryItems coordinates sd) acc).state
          = (issueAll queryItems (ds.map (fun d =>
              (⟨coordinates, d, some MultiViewerPage.collection, some limit⟩ : QueryArgs)))
              acc.state).2 := by
    intro ds
    induction ds with
    | nil => intro acc; simp [issueAll]
    | cons d ds ih =>
      intro acc
      obtain ⟨h1, h2⟩ := ih (MultiViewerPage.fetchImages.step queryItems coordinates sd acc d)
      obtain ⟨g1, g2⟩ := MultiViewerPage_step_call queryItems coordinates sd acc d
      simp only [List.foldl_cons, List.map_cons, issueAll]
      rw [h1, h2, g1, g2]
      simp
  obtain ⟨h1, h2⟩ := key directions ⟨[], [], none, [], s⟩
  simp only [List.nil_append] at h1 h2
  unfold MultiViewerPage.fetchImages
  exact ⟨h1, h2⟩

/-- The log of a recorded operation after a sequence of calls: the
arguments of the calls are appended in order. -/
theorem issueAll_recorded {A σ ε α : Type} (op : Operation A σ ε α) :
    ∀ (l : List A) (s : σ × List A), (issueAll (recorded op) l s).2.2 = s.2 ++ l := by
  intro l
  induction l with
  | nil => intro s; simp [issueAll]
  | cons a l ih =>
    intro s
    show (issueAll (recorded op) l ((recorded op) a s).2).2.2 = s.2 ++ a :: l
    rw [ih]
    simp [recorded]

/-- The terrain requests of `refreshItems` leave a log they do not touch
as it is. -/
theorem terrains_unrecorded {A σ ε T : Type} (getTerrainData : Operation (Option Feature) σ ε T) :
    ∀ (items : List QueryResponse) (s : σ × List A),
      (refreshItems.terrains (unrecorded getTerrainData) items s).2.2 = s.2 := by
  intro items
  induction items with
  | nil => intro s; rfl
  | cons item items ih =>
    intro s
    simp only [refreshItems.terrains]
    cases hf : item.features with
    | none => rfl
    | some features =>
      simp only
      have h := ih ((unrecorded getTerrainData) features.head? s).2
      rcases hr : refreshItems.terrains (unrecorded getTerrainData) items
        ((unrecorded getTerrainData) features.head? s).2 with ⟨r, s3⟩
      rw [hr] at h
      cases r with
      | error e => exact h
      | ok ps => exact h

/-! ## Lemmas on the retry loop -/

theorem outcome_succ {A σ ε α : Type} (fn : Operation A σ ε α) (args : A) (n : Nat) (s : σ) :
    outcome fn args (n + 1) s = outcome fn args n (fn args s).2 := rfl

theorem invocations_failedRounds {A : Type} (args : A) (delay : Nat) (n a : Nat)
    (tl : List (Event A)) :
    invocations (failedRounds args delay a n ++ tl) = List.replicate n args ++ invocations tl := by
  induction n generalizing a with
  | zero => rfl
  | succ n ih =>
    show args :: invocations (failedRounds args delay (a + 1) n ++ tl) = _
    rw [ih, List.replicate_succ, List.cons_append]

theorem waits_failedRounds {A : Type} (args : A) (delay : Nat) (n a : Nat)
    (tl : List (Event A)) :
    waits (failedRounds args delay a n ++ tl) = List.replicate n delay ++ waits tl := by
  induction n generalizing a with
  | zero => rfl
  | succ n ih =>
    show delay :: waits (failedRounds args delay (a + 1) n ++ tl) = _
    rw [ih, List.replicate_succ, List.cons_append]

/-- The loop when the attempt number `j + 1` counted from the current one
is the first to succeed, within the cap. -/
theorem loop_success {A σ ε α : Type} (fn : Operation A σ ε α) (args : A)
    (retries delay : Nat) (v : α) :
    ∀ (j a : Nat) (s : σ), a + j ≤ retries →
      (∀ i, i < j → ∃ e, outcome fn args i s = .error e) →
      outcome fn args j s = .ok v →
      retryWrapper.loop fn args retries delay a s
        = ⟨.ok (some v), stateAfter fn args (j + 1) s,
            failedRounds args delay a j ++ [.invoke args]⟩ := by
  intro j
  induction j with
  | zero =>
    intro a s ha _ hok
    have hf : fn args s = (.ok v, (fn args s).2) := Prod.ext hok rfl
    rw [retryWrapper.loop, if_pos (by omega)]
    rw [hf]
    rfl
  | succ j ih =>
    intro a s ha hfail hok
    obtain ⟨e, he⟩ := hfail 0 (Nat.succ_pos j)
    have hf : fn args s = (.error e, (fn args s).2) := Prod.ext he rfl
    have hrec := ih (a + 1) (fn args s).2 (by omega)
      (fun i hi => by
        have := hfail (i + 1) (Nat.succ_lt_succ hi)
        rwa [outcome_succ] at this)
      (by rwa [outcome_succ] at hok)
    rw [retryWrapper.loop, if_pos (by omega)]
    rw [hf]
    simp only [ge_iff_le]
    rw [if_neg (by omega), hrec]
    rfl

/-- The loop when every remaining attempt fails: the error of the last
one is raised. -/
theorem loop_failure {A σ ε α : Type} (fn : Operation A σ ε α) (args : A)
    (retries delay : Nat) :
    ∀ (n a : Nat) (s : σ) (e : ε), a + n = retries →
      (∀ i, i < n → ∃ e1, outcome fn args i s = .error e1) →
      outcome fn args n s = .error e →
      retryWrapper.loop fn args retries delay a s
        = ⟨.error e, stateAfter fn args (n + 1) s,
            failedRounds args delay a n ++ [.invoke args, .logFailed retries]⟩ := by
  intro n
  induction n with
  | zero =>
    intro a s e ha _ herr
    have hf : fn args s = (.error e, (fn args s).2) := Prod.ext herr rfl
    have hr : a = retries := by omega
    subst hr
    rw [retryWrapper.loop, if_pos (le_refl _)]
    rw [hf]
    simp only [ge_iff_le, le_refl, if_true]
    rfl
  | succ n ih =>
    intro a s e ha hfail herr
    obtain ⟨e0, he0⟩ := hfail 0 (Nat.succ_pos n)
    have hf : fn args s = (.error e0, (fn args s).2) := Prod.ext he0 rfl
    have hrec := ih (a + 1) (fn args s).2 e (by omega)
      (fun i hi => by
        have := hfail (i + 1) (Nat.succ_lt_succ hi)
        rwa [outcome_succ] at this)
      (by rwa [outcome_succ] at herr)
    rw [retryWrapper.loop, if_pos (by omega)]
    rw [hf]
    simp only [ge_iff_le]
    rw [if_neg (by omega), hrec]
    rfl

/-- The shape of every run of the loop entered within the cap: some
failed rounds, each followed by a pause, then either a successful
invocation or the failure of the last allowed attempt. -/
theorem loop_trace {A σ ε α : Type} (fn : Operation A σ ε α) (args : A)
    (retries delay : Nat) :
    ∀ (m a : Nat) (s : σ), a + m = retries →
      ∃ j, j ≤ m ∧
        ((retryWrapper.loop fn args retries delay a s).trace
            = failedRounds args delay a j ++ [.invoke args]
          ∨ (j = m ∧ (retryWrapper.loop fn args retries delay a s).trace
            = failedRounds args delay a j ++ [.invoke args, .logFailed retries])) := by
  intro m
  induction m with
  | zero =>
    intro a s ha
    have hr : a = retries := by omega
    subst hr
    refine ⟨0, le_refl _, ?_⟩
    rcases h : fn args s with ⟨r, s1⟩
    rw [retryWrapper.loop, if_pos (le_refl _), h]
    cases r with
    | ok v => exact Or.inl rfl
    | error e =>
      right
      simp only [ge_iff_le, le_refl, if_true]
      exact ⟨trivial, rfl⟩
  | succ m ih =>
    intro a s ha
    rcases h : fn args s with ⟨r, s1⟩
    cases r with
    | ok v =>
      refine ⟨0, Nat.zero_le _, Or.inl ?_⟩
      rw [retryWrapper.loop, if_pos (by omega), h]
      rfl
    | error e =>
      obtain ⟨j, hj, hrec⟩ := ih (a + 1) s1 (by omega)
      refine ⟨j + 1, Nat.succ_le_succ hj, ?_⟩
      rw [retryWrapper.loop, if_pos (by omega), h]
      simp only [ge_iff_le]
      rw [if_neg (by omega)]
      rcases hrec with hrec | ⟨hjm, hrec⟩
      · left
        show _ :: _ :: _ :: (retryWrapper.loop fn args retries delay (a + 1) s1).trace = _
        rw [hrec]
        rfl
      · right
        refine ⟨by omega, ?_⟩
        show _ :: _ :: _ :: (retryWrapper.loop fn args retries delay (a + 1) s1).trace = _
        rw [hrec]
        rfl

/-- A successful first attempt ends the wrapped call at once. -/
theorem retryWrapper_first_success {A σ ε α : Type} (fn : Operation A σ ε α) (args : A) (s : σ)
    (v : α) (h : (fn args s).1 = .ok v) :
    retryWrapper fn args s = ⟨.ok (some v), (fn args s).2, [.invoke args]⟩ :=
  loop_success fn args 5 5000 v 0 1 s (by omega) (fun _ hi => absurd hi (Nat.not_lt_zero _)) h

/-- Five failed attempts end the wrapped call with the error of the fifth. -/
theorem retryWrapper_five_failures {A σ ε α : Type} (fn : Operation A σ ε α) (args : A) (s : σ)
    (e : ε) (hfail : ∀ i, i < 4 → ∃ e1, outcome fn args i s = .error e1)
    (h5 : outcome fn args 4 s = .error e) :
    retryWrapper fn args s
      = ⟨.error e, stateAfter fn args 5 s,
          failedRounds args 5000 1 4 ++ [.invoke args, .logFailed 5]⟩ :=
  loop_failure fn args 5 5000 4 1 s e rfl hfail h5

/-! ## Lemmas on the elevation and address requests -/

/-- What `getElevationData` makes of a well-formed envelope with the given
samples. -/
theorem getElevationData_of_response {σ ε : Type} (configuration : Configuration)
    (axiosGet : Operation ElevationRequest σ ε ElevationResponse) (a : ElevationArgs) (s : σ)
    (coordinates : List String) (samples : List Sample)
    (hc : a.coordinates = some coordinates)
    (hget : (axiosGet ⟨a.username.getD configuration.API_DHM_TOKENA,
        a.password.getD configuration.API_DHM_TOKENB,
        "POINT(" ++ " ".intercalate coordinates ++ ")"⟩ s).1
      = .ok ⟨some ⟨some ⟨some samples⟩⟩⟩) :
    (getElevationData configuration axiosGet a s).1 = expectedElevation samples := by
  unfold getElevationData
  simp only [hc]
  revert hget
  generalize axiosGet _ s = x
  intro hget
  obtain ⟨r, s1⟩ := x
  simp only at hget
  subst hget
  cases samples with
  | nil => rfl
  | cons sample rest => simp [expectedElevation]

/-- With coordinates given, one invocation of `getElevationData` issues
exactly one GET. -/
theorem getElevationData_counted {σ ε : Type} (configuration : Configuration)
    (axiosGet : Operation ElevationRequest σ ε ElevationResponse) (a : ElevationArgs)
    (coordinates : List String) (hc : a.coordinates = some coordinates) (s : σ × Nat) :
    (getElevationData configuration (counted axiosGet) a s).2.2 = s.2 + 1 := by
  unfold getElevationData
  simp only [hc, counted]
  generalize axiosGet _ s.1 = x
  obtain ⟨r, s1⟩ := x
  cases r with
  | error e => rfl
  | ok response =>
    obtain ⟨d⟩ := response
    cases d with
    | none => rfl
    | some body =>
      obtain ⟨h⟩ := body
      cases h with
      | none => rfl
      | some envelope =>
        obtain ⟨l⟩ := envelope
        cases l with
        | none => rfl
        | some samples =>
          cases samples with
          | nil => rfl
          | cons sample rest => simp

theorem stateAfter_counter {A σ ε α : Type} (fn : Operation A (σ × Nat) ε α) (args : A)
    (hstep : ∀ s, (fn args s).2.2 = s.2 + 1) :
    ∀ (n : Nat) (s : σ × Nat), (stateAfter fn args n s).2 = s.2 + n := by
  intro n
  induction n with
  | zero => intro s; rfl
  | succ n ih =>
    intro s
    show (stateAfter fn args n (fn args s).2).2 = _
    rw [ih, hstep]
    omega

/-! ## Lemmas on the catalog client -/

theorem infix_map_iff {α β : Type} (f : α → β) (l : List β) (xs : List α) :
    l <:+: xs.map f ↔ ∃ u, u <:+: xs ∧ u.map f = l := by
  constructor
  · rintro ⟨s, t, h⟩
    obtain ⟨l1, l2, rfl, h1, h2⟩ := List.map_eq_append_iff.mp h.symm
    obtain ⟨l3, l4, rfl, h3, h4⟩ := List.map_eq_append_iff.mp h1
    exact ⟨l4, ⟨l3, l2, rfl⟩, h4⟩
  · rintro ⟨u, hu, rfl⟩
    exact hu.map f

theorem includes_toLowerCase_test (id : String) :
    includes (toLowerCase id) "test" = true ↔ containsTestAnyCase id := by
  unfold includes toLowerCase containsTestAnyCase
  rw [decide_eq_true_iff, String.map_eq]
  exact infix_map_iff Char.toLower _ _

theorem mem_onData (localeCompare : String → String → Int) (collections : List Collection)
    (c : Collection) :
    c ∈ getCollections.onData localeCompare collections
      ↔ c ∈ collections ∧ ¬ containsTestAnyCase c.id := by
  unfold getCollections.onData sortBy
  simp only [List.mem_filter, List.mem_insertionSort, Bool.not_eq_true', ← Bool.not_eq_true,
    includes_toLowerCase_test]

theorem getCollections_ok {σ ε : Type} (localeCompare : String → String → Int)
    (getSTAC : Operation String σ ε (List Collection)) (s : σ) (collections : List Collection)
    (hget : (getSTAC "/collections" s).1 = .ok collections) :
    (getCollections localeCompare getSTAC () s).1
      = .ok (getCollections.onData localeCompare collections) := by
  have hf : getSTAC "/collections" s = (.ok collections, (getSTAC "/collections" s).2) :=
    Prod.ext hget rfl
  unfold getCollections
  rw [hf]

theorem compareCodePoints_le (a b : String) : compareCodePoints a b ≤ 0 ↔ a ≤ b := by
  unfold compareCodePoints
  split_ifs with h1 h2
  · simpa using le_of_lt h1
  · simpa using le_of_eq h2
  · simp only [Int.reduceLE, false_iff, not_le]
    exact lt_of_le_of_ne (not_lt.mp h1) (Ne.symm h2)

/-! ## The projection engine -/

/-- C1, as the code has it: on an `image_data` whose twelve camera fields
are present and finite, `getImageXY(image_data, X, Y, Z)` (an omitted `Z`
being `0`) does not raise and each component it returns is an integer
unless it is non-finite (`NaN` or an infinity), in any arithmetic; in exact
arithmetic, with pixel spacing `pix ≠ 0` and denominator `w ≠ 0`, it
returns the pair of integers `[round(-((x_dot - xx0) + dimX) / pix),
round(-((y_dot - yy0) + dimY) / pix)]` of the worded algorithm. -/
theorem getImageXY_eq_spec (M : MathLib) (image_data : ImageData) (cam : Camera)
    (X Y : ℚ) (Z : Option ℚ) (hcam : readCamera image_data = some cam) :
    (∃ col row, getImageXY M image_data (fin X) (fin Y) (Z.map fin) = .ok (col, row)
        ∧ (col.isFinite = true → col.isInteger = true)
        ∧ (row.isFinite = true → row.isInteger = true))
      ∧ (M.Exact → cam.pix ≠ 0 → cam.w M X Y (Z.getD 0) ≠ 0 →
          getImageXY M image_data (fin X) (fin Y) (Z.map fin)
            = .ok (fin (cam.col M X Y (Z.getD 0)), fin (cam.row M X Y (Z.getD 0)))) := by
  refine ⟨⟨_, _, getImageXY_of_readCamera M image_data cam _ _ _ hcam, ?_, ?_⟩, ?_⟩
  · exact MathLib.isInteger_round M _
  · exact MathLib.isInteger_round M _
  · intro hM hpix hw
    exact getImageXY_finite hM image_data cam X Y Z hcam hpix hw

/-- The sample image seen from the origin at elevation 0: in exact
arithmetic the theorem C1 gives the pixel of the worded algorithm, and in
double arithmetic a pair of integers or non-finite values. -/
theorem getImageXY_eq_spec_witness :
    getImageXY approxMath sampleImage (fin 0) (fin 0) (some (fin 0))
        = .ok (fin (sampleCamera.col approxMath 0 0 0), fin (sampleCamera.row approxMath 0 0 0))
      ∧ ∃ col row, getImageXY doubleMath sampleImage (fin 0) (fin 0) (some (fin 0))
          = .ok (col, row)
        ∧ (col.isFinite = true → col.isInteger = true)
        ∧ (row.isFinite = true → row.isInteger = true) :=
  ⟨(getImageXY_eq_spec approxMath sampleImage sampleCamera 0 0 (some 0)
      readCamera_sampleImage).2 approxMath_exact (by norm_num [sampleCamera, nadirCamera, pix006])
      (by rw [Option.getD_some, sampleCamera_w]; norm_num),
    (getImageXY_eq_spec doubleMath sampleImage sampleCamera 0 0 (some 0)
      readCamera_sampleImage).1⟩

/-- C1 fails as stated: in double arithmetic the nadir image with a sensor
of 7021×7021 pixels, seen straight from above, has all fields present and
finite, `pix ≠ 0` and `w ≠ 0`, and `getImageXY` returns `[3510, 3510]`
where the worded formulas give `[3511, 3511]` (the half extent
`7021 · 0.006 / 2` divided by `0.006` is `3510.4999999999995` in doubles);
and for the ground point with `X = 2^1023` the sample image gets the
column `Infinity`, which is not an integer. -/
theorem getImageXY_eq_spec_counterexample :
    readCamera (nadirImage 7021 7021) = some (nadirCamera 7021 7021)
      ∧ (nadirCamera 7021 7021).pix ≠ 0
      ∧ (nadirCamera 7021 7021).w doubleMath 0 0 0 ≠ 0
      ∧ getImageXY doubleMath (nadirImage 7021 7021) (fin 0) (fin 0) (some (fin 0))
        = .ok (fin 3510, fin 3510)
      ∧ (nadirCamera 7021 7021).col doubleMath 0 0 0 = 3511
      ∧ (nadirCamera 7021 7021).row doubleMath 0 0 0 = 3511
      ∧ getImageXY doubleMath sampleImage (fin (2 ^ 1023)) (fin 0) (some (fin 0))
        = .ok (inf false, fin 3000) := by
  refine ⟨readCamera_nadirImage _ _, by norm_num [nadirCamera, pix006], ?_, ?_, ?_, ?_, ?_⟩
  · rw [nadirCamera_w doubleMath (by decide!) (by decide!)]
    norm_num
  · rw [getImageXY_of_readCamera doubleMath _ _ _ _ _ (readCamera_nadirImage 7021 7021)]
    exact congrArg Except.ok (by decide!)
  · decide!
  · decide!
  · rw [getImageXY_of_readCamera doubleMath _ _ _ _ _ readCamera_sampleImage]
    exact congrArg Except.ok (by decide!)

/-- C2, as the code has it: in exact arithmetic, for a camera with
`Ome = Phi = Kap = 0`, principal-point offset `(0, 0)` and pixel spacing
`pix > 0`, a ground point straight below the camera (`X = X0`, `Y = Y0`,
`Z < Z0`) is projected to the sensor centre
`[round(dimXi/2), round(dimYi/2)]`; and in double arithmetic such a camera
with focal length 50, pixel spacing 0.006 and sensor 8000×6000 gives column
4000, row 3000, wherever it stands (`Z0` and `Z` binary64 numbers with a
finite difference). -/
theorem getImageXY_nadir_center (M : MathLib) (hcos : M.cos 0 = 1) (hsin : M.sin 0 = 0) :
    (M.Exact → ∀ (image_data : ImageData) (cam : Camera) (Z : ℚ),
      readCamera image_data = some cam →
      cam.Ome = 0 → cam.Phi = 0 → cam.Kap = 0 → cam.xx0 = 0 → cam.yy0 = 0 →
      0 < cam.pix → Z < cam.Z0 →
      getImageXY M image_data (fin cam.X0) (fin cam.Y0) (some (fin Z))
        = .ok (fin (roundHalfUp (cam.dimXi / 2)), fin (roundHalfUp (cam.dimYi / 2))))
    ∧ (M.IEEE → ∀ (image_data : ImageData) (cam : Camera) (Z : ℚ),
      readCamera image_data = some cam →
      cam.Ome = 0 → cam.Phi = 0 → cam.Kap = 0 → cam.xx0 = 0 → cam.yy0 = 0 →
      cam.ci = 50 → cam.pix = pix006 → cam.dimXi = 8000 → cam.dimYi = 6000 →
      isBinary64 cam.Z0 = true → isBinary64 Z = true → Z < cam.Z0 →
      (M.sub (fin Z) (fin cam.Z0)).isFinite = true →
      getImageXY M image_data (fin cam.X0) (fin cam.Y0) (some (fin Z))
        = .ok (fin 4000, fin 3000)) := by
  refine ⟨?_, fun hM image_data cam Z hcam hO hP hK hx hy hci hpix hdx hdy bZ0 bZ hZ hdZ =>
    getImageXY_nadir_double hM hcos hsin image_data cam Z hcam hO hP hK hx hy hci hpix hdx hdy
      bZ0 bZ hZ hdZ⟩
  intro hM image_data cam Z hcam hO hP hK hx hy hpix hZ
  have hp : cam.pix ≠ 0 := ne_of_gt hpix
  have hw : cam.w M cam.X0 cam.Y0 Z = Z - cam.Z0 := by
    simp [Camera.w, Camera.D13, Camera.D23, Camera.D33, Camera.o, Camera.p, hO, hP, hcos, hsin]
  have hw0 : cam.w M cam.X0 cam.Y0 ((some Z).getD 0) ≠ 0 := by
    rw [Option.getD_some, hw]
    exact sub_ne_zero.mpr (ne_of_lt hZ)
  have h := getImageXY_finite hM image_data cam cam.X0 cam.Y0 (some Z) hcam hp hw0
  simp only [Option.map_some', Option.getD_some] at h
  rw [h]
  have hxd : cam.x_dot M cam.X0 cam.Y0 Z = 0 := by
    simp [Camera.x_dot, Camera.D11, Camera.D21, Camera.D31, Camera.o, Camera.p, Camera.k,
      hO, hP, hK, hcos, hsin]
  have hyd : cam.y_dot M cam.X0 cam.Y0 Z = 0 := by
    simp [Camera.y_dot, Camera.D12, Camera.D22, Camera.D32, Camera.o, Camera.p, Camera.k,
      hO, hP, hK, hcos, hsin]
  have hc : -((cam.x_dot M cam.X0 cam.Y0 Z - cam.xx0) + cam.dimX) / cam.pix = cam.dimXi / 2 := by
    rw [hxd, hx]
    simp only [Camera.dimX]
    field_simp
    ring
  have hr : -((cam.y_dot M cam.X0 cam.Y0 Z - cam.yy0) + cam.dimY) / cam.pix = cam.dimYi / 2 := by
    rw [hyd, hy]
    simp only [Camera.dimY]
    field_simp
    ring
  simp only [Camera.col, Camera.row, hc, hr]

/-- Focal length 50, pixel spacing 0.006 and sensor 8000×6000 give column
4000 and row 3000 straight below the camera: in exact arithmetic by the
first half of the theorem C2, in double arithmetic by the second. -/
theorem getImageXY_nadir_center_witness :
    getImageXY approxMath sampleImage (fin 0) (fin 0) (some (fin 0)) = .ok (fin 4000, fin 3000)
      ∧ getImageXY doubleMath sampleImage (fin 0) (fin 0) (some (fin 0))
        = .ok (fin 4000, fin 3000) := by
  have h := (getImageXY_nadir_center approxMath (by norm_num [approxMath])
    (by norm_num [approxMath])).1 approxMath_exact sampleImage sampleCamera 0
    readCamera_sampleImage rfl rfl rfl rfl rfl (by norm_num [sampleCamera, nadirCamera, pix006])
    (by norm_num [sampleCamera, nadirCamera])
  have e1 : roundHalfUp (sampleCamera.dimXi / 2) = 4000 := by
    have : sampleCamera.dimXi / 2 = ((4000 : ℤ) : ℚ) := by norm_num [sampleCamera, nadirCamera]
    rw [this, roundHalfUp_intCast]
  have e2 : roundHalfUp (sampleCamera.dimYi / 2) = 3000 := by
    have : sampleCamera.dimYi / 2 = ((3000 : ℤ) : ℚ) := by norm_num [sampleCamera, nadirCamera]
    rw [this, roundHalfUp_intCast]
  rw [e1, e2] at h
  exact ⟨by simpa [sampleCamera, nadirCamera] using h,
    (getImageXY_nadir_center doubleMath doubleMath_cos_zero doubleMath_sin_zero).2
      doubleMath_IEEE sampleImage sampleCamera 0 readCamera_sampleImage rfl rfl rfl rfl rfl
      rfl rfl rfl rfl (by decide!) (by decide!) (by norm_num [sampleCamera, nadirCamera])
      (by decide!)⟩

/-- C2 fails as stated: in double arithmetic the nadir camera with zero
angles, principal-point offset `(0, 0)`, pixel spacing `0.006 > 0` and a
sensor of 7021×7021 pixels projects the ground point straight below it
(`X = X0`, `Y = Y0`, `Z = 0 < Z0 = 1000`) to `[3510, 3510]`, while the
sensor centre `[round(7021/2), round(7021/2)]` is `[3511, 3511]`. -/
theorem getImageXY_nadir_center_counterexample :
    readCamera (nadirImage 7021 7021) = some (nadirCamera 7021 7021)
      ∧ getImageXY doubleMath (nadirImage 7021 7021) (fin (nadirCamera 7021 7021).X0)
          (fin (nadirCamera 7021 7021).Y0) (some (fin 0)) = .ok (fin 3510, fin 3510)
      ∧ roundHalfUp ((nadirCamera 7021 7021).dimXi / 2) = 3511
      ∧ roundHalfUp ((nadirCamera 7021 7021).dimYi / 2) = 3511
      ∧ (0 : ℚ) < (nadirCamera 7021 7021).pix ∧ (0 : ℚ) < (nadirCamera 7021 7021).Z0 := by
  refine ⟨readCamera_nadirImage _ _, ?_, by decide!, by decide!,
    by norm_num [nadirCamera, pix006], by norm_num [nadirCamera]⟩
  rw [getImageXY_of_readCamera doubleMath _ _ _ _ _ (readCamera_nadirImage 7021 7021)]
  exact congrArg Except.ok (by decide!)

/-- C3, as the code has it: division by zero does not raise in
JavaScript, so with all fields present and finite and a zero denominator
(the denominator as `getImageXY` computes it is `+0` or `-0`; in exact
arithmetic, `w = 0`), `getImageXY` returns normally a pair whose two
components are non-finite (`NaN` or an infinity), not `[0, 0]`. -/
theorem getImageXY_zero_denominator (M : MathLib) (image_data : ImageData) (cam : Camera)
    (X Y : ℚ) (Z : Option ℚ) (hcam : readCamera image_data = some cam)
    (hw : (getImageXY.denominator M (fin cam.X0) (fin cam.Y0) (fin cam.Z0) (fin cam.Ome)
          (fin cam.Phi) (fin cam.Kap) (fin X) (fin Y) (fin (Z.getD 0))).isZero = true
      ∨ (M.Exact ∧ cam.w M X Y (Z.getD 0) = 0)) :
    ∃ col row, getImageXY M image_data (fin X) (fin Y) (Z.map fin) = .ok (col, row)
      ∧ col.isFinite = false ∧ row.isFinite = false := by
  have hZ : (Z.map fin).getD 0 = fin (Z.getD 0) := by cases Z <;> rfl
  have hw2 : (getImageXY.denominator M (fin cam.X0) (fin cam.Y0) (fin cam.Z0) (fin cam.Ome)
      (fin cam.Phi) (fin cam.Kap) (fin X) (fin Y) (fin (Z.getD 0))).isZero = true := by
    rcases hw with hw | ⟨hM, hw⟩
    · exact hw
    · rw [denominator_exact hM, hw]
      rfl
  have h := compute_zero_denominator M (fin cam.xx0) (fin cam.yy0) (fin cam.ci) (fin cam.pix)
    (fin cam.dimXi) (fin cam.dimYi) _ _ _ _ _ _ _ _ _ hw2
  refine ⟨_, _, ?_, h.1, h.2⟩
  rw [getImageXY_of_readCamera M image_data cam _ _ _ hcam, hZ]

/-- The sample image at its own perspective centre, in double arithmetic:
the denominator computed is zero and the theorem applies. -/
theorem getImageXY_zero_denominator_witness :
    ∃ col row, getImageXY doubleMath sampleImage (fin 0) (fin 0) (some (fin 1000)) = .ok (col, row)
      ∧ col.isFinite = false ∧ row.isFinite = false :=
  getImageXY_zero_denominator doubleMath sampleImage sampleCamera 0 0 (some 1000)
    readCamera_sampleImage (Or.inl (by decide!))

/-- C3 fails as stated: the sample image has all fields present and finite,
the ground point is its perspective centre, the denominator `w` is zero,
and `getImageXY` returns `[NaN, NaN]` instead of `[0, 0]`. -/
theorem getImageXY_zero_denominator_counterexample :
    readCamera sampleImage = some sampleCamera
      ∧ sampleCamera.w doubleMath 0 0 1000 = 0
      ∧ getImageXY.denominator doubleMath (fin 0) (fin 0) (fin 1000) (fin 0) (fin 0) (fin 0)
          (fin 0) (fin 0) (fin 1000) = fin 0
      ∧ getImageXY doubleMath sampleImage (fin 0) (fin 0) (some (fin 1000)) = .ok (nan, nan)
      ∧ getImageXY doubleMath sampleImage (fin 0) (fin 0) (some (fin 1000)) ≠ .ok (0, 0) := by
  have h : getImageXY doubleMath sampleImage (fin 0) (fin 0) (some (fin 1000))
      = .ok (nan, nan) := by
    rw [getImageXY_of_readCamera doubleMath _ _ _ _ _ readCamera_sampleImage]
    exact congrArg Except.ok (by decide!)
  refine ⟨readCamera_sampleImage, ?_, by decide!, h, ?_⟩
  · rw [sampleCamera, nadirCamera_w doubleMath (by decide!) (by decide!)]
    norm_num
  · rw [h]
    intro hh
    injection hh with hh
    injection hh with h1 h2
    exact JSNum.noConfusion h1

/-- C4, as the code has it: `getImageXY` never raises; it returns `[0, 0]`
when an object or array it reads through (`properties`,
`pers:interior_orientation`, `principal_point_offset`, `pixel_spacing`,
`sensor_array_dimensions`, `pers:perspective_center`) is absent; when
these are present and one of the twelve scalars is absent or non-finite,
it returns a pair with a non-finite component (`NaN` or an infinity), not
`[0, 0]`. -/
theorem getImageXY_missing_field (M : MathLib) (image_data : ImageData) (X Y : JSNum)
    (Z : Option JSNum) :
    ∃ col row, getImageXY M image_data X Y Z = .ok (col, row)
      ∧ (hasContainers image_data = false → col = 0 ∧ row = 0)
      ∧ (hasContainers image_data = true → hasFiniteScalars image_data = false →
          (col.isFinite && row.isFinite) = false) := by
  cases hc : hasContainers image_data with
  | false =>
    refine ⟨0, 0, ?_, fun _ => ⟨rfl, rfl⟩, fun h => Bool.noConfusion h⟩
    simp only [getImageXY, tryBlock_of_not_hasContainers M image_data X Y _ hc]
  | true =>
    obtain ⟨r, hr, hfin⟩ := tryBlock_of_hasContainers M image_data X Y (Z.getD 0) hc
    refine ⟨r.1, r.2, ?_, fun h => Bool.noConfusion h, fun _ hnone => ?_⟩
    · simp only [getImageXY, hr]
    · cases h1 : r.1.isFinite with
      | false => rfl
      | true =>
        cases h2 : r.2.isFinite with
        | false => rfl
        | true =>
          have := hfin h1 h2
          rw [hnone] at this
          cases this

/-- The sample image without its focal length, in double arithmetic: the
containers are present, a scalar is absent, and the theorem gives a
non-finite component. -/
theorem getImageXY_missing_field_witness :
    ∃ col row, getImageXY doubleMath imageWithoutFocalLength (fin 0) (fin 0) (some (fin 0))
        = .ok (col, row) ∧ (col.isFinite && row.isFinite) = false := by
  obtain ⟨col, row, h, -, h3⟩ :=
    getImageXY_missing_field doubleMath imageWithoutFocalLength (fin 0) (fin 0) (some (fin 0))
  exact ⟨col, row, h, h3 rfl rfl⟩

/-- C4 fails as stated: on the sample image with the key `focal_length`
absent, `getImageXY` returns `[NaN, NaN]` instead of `[0, 0]`. -/
theorem getImageXY_missing_field_counterexample :
    getImageXY doubleMath imageWithoutFocalLength (fin 0) (fin 0) (some (fin 0)) = .ok (nan, nan)
      ∧ getImageXY doubleMath imageWithoutFocalLength (fin 0) (fin 0) (some (fin 0))
        ≠ .ok (0, 0) := by
  have h : getImageXY doubleMath imageWithoutFocalLength (fin 0) (fin 0) (some (fin 0))
      = .ok (nan, nan) :=
    congrArg Except.ok (compute_focal_nan doubleMath _ _ _ _ _ _ _ _ _ _ _ _ _ _)
  refine ⟨h, ?_⟩
  rw [h]
  intro hh
  injection hh with hh
  injection hh with h1 h2
  exact JSNum.noConfusion h1

/-- C27, as the code has it: in exact arithmetic, and provided `Math.cos`
and `Math.sin` lie exactly on the unit circle at the three angles, the
matrix `D` built in `getImageXY` is a proper rotation matrix: `D` times its
transpose is the identity and `det D = 1`; in double arithmetic the matrix
of the angles `omega = phi = kappa = 0` is the identity matrix, a proper
rotation. -/
theorem rotation_is_proper (M : MathLib) (cam : Camera) :
    (M.Exact →
      M.cos (cam.o M) ^ 2 + M.sin (cam.o M) ^ 2 = 1 →
      M.cos (cam.p M) ^ 2 + M.sin (cam.p M) ^ 2 = 1 →
      M.cos (cam.k M) ^ 2 + M.sin (cam.k M) ^ 2 = 1 →
      rotation M (radians M (fin cam.Ome)) (radians M (fin cam.Phi)) (radians M (fin cam.Kap))
          = Rotation.ofMatrix (cam.D M)
        ∧ cam.D M * (cam.D M).transpose = 1 ∧ (cam.D M).det = 1)
    ∧ (M.IEEE → M.cos 0 = 1 → M.sin 0 = 0 → cam.Ome = 0 → cam.Phi = 0 → cam.Kap = 0 →
      (rotation M (radians M (fin cam.Ome)) (radians M (fin cam.Phi))
          (radians M (fin cam.Kap))).toMatrix = 1
        ∧ (rotation M (radians M (fin cam.Ome)) (radians M (fin cam.Phi))
            (radians M (fin cam.Kap))).toMatrix
          * (rotation M (radians M (fin cam.Ome)) (radians M (fin cam.Phi))
            (radians M (fin cam.Kap))).toMatrix.transpose = 1
        ∧ (rotation M (radians M (fin cam.Ome)) (radians M (fin cam.Phi))
            (radians M (fin cam.Kap))).toMatrix.det = 1) := by
  constructor
  · intro hM ho hp hk
    obtain ⟨hx1, hx2⟩ := rotX_orthogonal _ _ ho
    obtain ⟨hy1, hy2⟩ := rotY_orthogonal _ _ hp
    obtain ⟨hz1, hz2⟩ := rotZ_orthogonal _ _ hk
    refine ⟨rotation_eq_D hM cam, ?_, ?_⟩
    · rw [Camera.D_eq_product, Matrix.transpose_mul, Matrix.transpose_mul]
      calc rotX (M.cos (cam.o M)) (M.sin (cam.o M)) * rotY (M.cos (cam.p M)) (M.sin (cam.p M))
            * rotZ (M.cos (cam.k M)) (M.sin (cam.k M))
            * ((rotZ (M.cos (cam.k M)) (M.sin (cam.k M))).transpose
              * ((rotY (M.cos (cam.p M)) (M.sin (cam.p M))).transpose
                * (rotX (M.cos (cam.o M)) (M.sin (cam.o M))).transpose))
          = rotX (M.cos (cam.o M)) (M.sin (cam.o M))
            * (rotY (M.cos (cam.p M)) (M.sin (cam.p M))
              * (rotZ (M.cos (cam.k M)) (M.sin (cam.k M))
                * (rotZ (M.cos (cam.k M)) (M.sin (cam.k M))).transpose)
              * (rotY (M.cos (cam.p M)) (M.sin (cam.p M))).transpose)
            * (rotX (M.cos (cam.o M)) (M.sin (cam.o M))).transpose := by
            simp only [Matrix.mul_assoc]
        _ = 1 := by rw [hz1, Matrix.mul_one, hy1, Matrix.mul_one, hx1]
    · rw [Camera.D_eq_product, Matrix.det_mul, Matrix.det_mul, hx2, hy2, hz2]
      norm_num
  · intro hM hcos hsin hO hP hK
    rw [hO, hP, hK, rotation_zero_toMatrix hM hcos hsin]
    simp

/-- The oblique camera in exact arithmetic with cosine and sine on the unit
circle, and the sample camera (zero angles) in double arithmetic: their
matrices are proper rotations. -/
theorem rotation_is_proper_witness :
    (rotation circleMath (radians circleMath (fin 45)) (radians circleMath (fin 10))
        (radians circleMath (fin 90)) = Rotation.ofMatrix (obliqueCamera.D circleMath)
      ∧ obliqueCamera.D circleMath * (obliqueCamera.D circleMath).transpose = 1
      ∧ (obliqueCamera.D circleMath).det = 1)
    ∧ ((rotation doubleMath (radians doubleMath (fin 0)) (radians doubleMath (fin 0))
          (radians doubleMath (fin 0))).toMatrix = 1
      ∧ (rotation doubleMath (radians doubleMath (fin 0)) (radians doubleMath (fin 0))
          (radians doubleMath (fin 0))).toMatrix
        * (rotation doubleMath (radians doubleMath (fin 0)) (radians doubleMath (fin 0))
          (radians doubleMath (fin 0))).toMatrix.transpose = 1
      ∧ (rotation doubleMath (radians doubleMath (fin 0)) (radians doubleMath (fin 0))
          (radians doubleMath (fin 0))).toMatrix.det = 1) :=
  ⟨(rotation_is_proper circleMath obliqueCamera).1 circleMath_exact (circleMath_unit _)
      (circleMath_unit _) (circleMath_unit _),
    (rotation_is_proper doubleMath sampleCamera).2 doubleMath_IEEE doubleMath_cos_zero
      doubleMath_sin_zero rfl rfl rfl⟩

/-- C27 fails as stated: in double arithmetic, for the angles `omega = 0`,
`phi = 0`, `kappa = 45` degrees, `getImageXY` builds the matrix with the
rows `(c, -s, 0)`, `(s, c, -0)`, `(0, 0, 1)` where `c = 0.7071067811865476`
and `s = 0.7071067811865475` are the Numbers that `Math.cos` and
`Math.sin` return; `c² + s²` is not `1`, so `D` times its transpose is not
the identity and `det D` is not `1`. -/
theorem rotation_counterexample :
    rotation doubleMath (radians doubleMath (fin 0)) (radians doubleMath (fin 0))
        (radians doubleMath (fin 45))
      = ⟨fin (6369051672525773 / 9007199254740992), fin (-(1592262918131443 / 2251799813685248)),
          fin 0,
          fin (1592262918131443 / 2251799813685248), fin (6369051672525773 / 9007199254740992),
          negZero,
          fin 0, fin 0, fin 1⟩
    ∧ (rotation doubleMath (radians doubleMath (fin 0)) (radians doubleMath (fin 0))
          (radians doubleMath (fin 45))).toMatrix
        * (rotation doubleMath (radians doubleMath (fin 0)) (radians doubleMath (fin 0))
          (radians doubleMath (fin 45))).toMatrix.transpose ≠ 1
    ∧ (rotation doubleMath (radians doubleMath (fin 0)) (radians doubleMath (fin 0))
          (radians doubleMath (fin 45))).toMatrix.det ≠ 1 := by
  have h : rotation doubleMath (radians doubleMath (fin 0)) (radians doubleMath (fin 0))
        (radians doubleMath (fin 45))
      = ⟨fin (6369051672525773 / 9007199254740992), fin (-(1592262918131443 / 2251799813685248)),
          fin 0,
          fin (1592262918131443 / 2251799813685248), fin (6369051672525773 / 9007199254740992),
          negZero,
          fin 0, fin 0, fin 1⟩ := by
    decide!
  rw [h]
  refine ⟨rfl, ?_, ?_⟩
  · intro hh
    have h00 := congrFun (congrFun hh 0) 0
    simp [Rotation.toMatrix, Matrix.mul_apply, Fin.sum_univ_three, toRat, Matrix.vecHead,
      Matrix.vecTail] at h00
    norm_num at h00
  · simp [Rotation.toMatrix, Matrix.det_fin_three, toRat, Matrix.vecHead, Matrix.vecTail]
    norm_num

/-- C28: in exact arithmetic, for a camera with all fields present and
finite and non-zero pixel spacing, every offset `(dX, dY, dZ)` with non-zero
denominator `w` and every scalar `t ≠ 0`, `getImageXY` gives the same pixel
for the ground point `(X0 + t·dX, Y0 + t·dY, Z0 + t·dZ)` as for
`(X0 + dX, Y0 + dY, Z0 + dZ)`. -/
theorem getImageXY_ray_invariant (M : MathLib) (image_data : ImageData) (cam : Camera)
    (dX dY dZ t : ℚ) (hM : M.Exact) (hcam : readCamera image_data = some cam)
    (hpix : cam.pix ≠ 0)
    (ht : t ≠ 0) (hw : cam.w M (cam.X0 + dX) (cam.Y0 + dY) (cam.Z0 + dZ) ≠ 0) :
    getImageXY M image_data (fin (cam.X0 + t * dX)) (fin (cam.Y0 + t * dY))
        (some (fin (cam.Z0 + t * dZ)))
      = getImageXY M image_data (fin (cam.X0 + dX)) (fin (cam.Y0 + dY))
        (some (fin (cam.Z0 + dZ))) := by
  have hwt : cam.w M (cam.X0 + t * dX) (cam.Y0 + t * dY) (cam.Z0 + t * dZ)
      = t * cam.w M (cam.X0 + dX) (cam.Y0 + dY) (cam.Z0 + dZ) := by
    simp only [Camera.w]
    ring
  have hwt0 : cam.w M (cam.X0 + t * dX) (cam.Y0 + t * dY) (cam.Z0 + t * dZ) ≠ 0 := by
    rw [hwt]
    exact mul_ne_zero ht hw
  have h1 := getImageXY_finite hM image_data cam (cam.X0 + t * dX) (cam.Y0 + t * dY)
    (some (cam.Z0 + t * dZ)) hcam hpix hwt0
  have h2 := getImageXY_finite hM image_data cam (cam.X0 + dX) (cam.Y0 + dY)
    (some (cam.Z0 + dZ)) hcam hpix hw
  simp only [Option.map_some', Option.getD_some] at h1 h2
  have hx : cam.x_dot M (cam.X0 + t * dX) (cam.Y0 + t * dY) (cam.Z0 + t * dZ)
      = cam.x_dot M (cam.X0 + dX) (cam.Y0 + dY) (cam.Z0 + dZ) := by
    simp only [Camera.x_dot]
    rw [hwt]
    field_simp
    ring
  have hy : cam.y_dot M (cam.X0 + t * dX) (cam.Y0 + t * dY) (cam.Z0 + t * dZ)
      = cam.y_dot M (cam.X0 + dX) (cam.Y0 + dY) (cam.Z0 + dZ) := by
    simp only [Camera.y_dot]
    rw [hwt]
    field_simp
    ring
  rw [h1, h2]
  simp only [Camera.col, Camera.row, hx, hy]

/-- The sample image in exact arithmetic: the ground points 1000 and 500
below the camera, on the same ray, have the same pixel. -/
theorem getImageXY_ray_invariant_witness :
    getImageXY approxMath sampleImage (fin (0 + 2 * 30)) (fin (0 + 2 * 40))
        (some (fin (1000 + 2 * (-500))))
      = getImageXY approxMath sampleImage (fin (0 + 30)) (fin (0 + 40))
        (some (fin (1000 + (-500)))) :=
  getImageXY_ray_invariant approxMath sampleImage sampleCamera 30 40 (-500) 2 approxMath_exact
    readCamera_sampleImage (by norm_num [sampleCamera, nadirCamera, pix006]) (by norm_num)
    (by
      have e : sampleCamera.w approxMath (sampleCamera.X0 + 30) (sampleCamera.Y0 + 40)
          (sampleCamera.Z0 + -500) = -500 := by
        simp [Camera.w, Camera.D13, Camera.D23, Camera.D33, Camera.o, Camera.p, sampleCamera,
          nadirCamera, approxMath]
      rw [e]
      norm_num)

/-- C29, as the code has it: for a camera with `Ome = Phi = Kap = 0`, focal
length `> 0` and pixel spacing `> 0`, and ground points at a fixed
`Z < Z0`: in exact arithmetic the column returned by `getImageXY` is a
non-decreasing function of `X` alone and the row a non-decreasing function
of `Y` alone; in double arithmetic, the values being binary64 numbers, the
same holds for the ground points whose differences `X - X0` and `Y - Y0`
are finite, provided the half-sizes `dimX`, `dimY` and the difference
`Z - Z0` are finite (no operation overflows); there the components are
integers or infinities, compared as Numbers, never `NaN`. -/
theorem getImageXY_axes (M : MathLib) (image_data : ImageData) (cam : Camera) (Z : ℚ)
    (hcos : M.cos 0 = 1) (hsin : M.sin 0 = 0)
    (hcam : readCamera image_data = some cam)
    (hO : cam.Ome = 0) (hP : cam.Phi = 0) (hK : cam.Kap = 0)
    (hci : 0 < cam.ci) (hpix : 0 < cam.pix) (hZ : Z < cam.Z0) :
    (M.Exact →
      ∃ col row : ℚ → ℤ,
        (∀ X Y, getImageXY M image_data (fin X) (fin Y) (some (fin Z))
          = .ok (fin (col X), fin (row Y)))
        ∧ Monotone col ∧ Monotone row)
    ∧ (M.IEEE →
      isBinary64 cam.ci = true → isBinary64 cam.X0 = true → isBinary64 cam.Y0 = true →
      isBinary64 cam.Z0 = true → isBinary64 Z = true →
      (M.mul (M.div (M.mul (fin cam.dimXi) (fin cam.pix)) 2) (M.neg 1)).isFinite = true →
      (M.mul (M.div (M.mul (fin cam.dimYi) (fin cam.pix)) 2) (M.neg 1)).isFinite = true →
      (M.sub (fin Z) (fin cam.Z0)).isFinite = true →
      ∃ col row : ℚ → JSNum,
        (∀ X Y, isBinary64 X = true → isBinary64 Y = true →
          (M.sub (fin X) (fin cam.X0)).isFinite = true →
          (M.sub (fin Y) (fin cam.Y0)).isFinite = true →
          getImageXY M image_data (fin X) (fin Y) (some (fin Z)) = .ok (col X, row Y))
        ∧ (∀ X1 X2, X1 ≤ X2 → (col X1).le (col X2) = true)
        ∧ (∀ Y1 Y2, Y1 ≤ Y2 → (row Y1).le (row Y2) = true)) :=
  ⟨fun hM => getImageXY_axes_exact hM image_data cam Z hcos hsin hcam hO hP hK hci hpix hZ,
    fun hM bci bX0 bY0 bZ0 bZ hdimX hdimY hdZ =>
      getImageXY_axes_double hM image_data cam Z hcos hsin hcam hO hP hK hci hpix hZ
        bci bX0 bY0 bZ0 bZ hdimX hdimY hdZ⟩

/-- The sample image at elevation 0: the theorem applies in exact
arithmetic and in double arithmetic. -/
theorem getImageXY_axes_witness :
    (∃ col row : ℚ → ℤ,
      (∀ X Y, getImageXY approxMath sampleImage (fin X) (fin Y) (some (fin 0))
        = .ok (fin (col X), fin (row Y)))
      ∧ Monotone col ∧ Monotone row)
    ∧ ∃ col row : ℚ → JSNum,
      (∀ X Y, isBinary64 X = true → isBinary64 Y = true →
        (doubleMath.sub (fin X) (fin sampleCamera.X0)).isFinite = true →
        (doubleMath.sub (fin Y) (fin sampleCamera.Y0)).isFinite = true →
        getImageXY doubleMath sampleImage (fin X) (fin Y) (some (fin 0)) = .ok (col X, row Y))
      ∧ (∀ X1 X2, X1 ≤ X2 → (col X1).le (col X2) = true)
      ∧ (∀ Y1 Y2, Y1 ≤ Y2 → (row Y1).le (row Y2) = true) :=
  ⟨(getImageXY_axes approxMath sampleImage sampleCamera 0
      (by norm_num [approxMath]) (by norm_num [approxMath]) readCamera_sampleImage rfl rfl rfl
      (by norm_num [sampleCamera, nadirCamera])
      (by norm_num [sampleCamera, nadirCamera, pix006])
      (by norm_num [sampleCamera, nadirCamera])).1 approxMath_exact,
    (getImageXY_axes doubleMath sampleImage sampleCamera 0
      doubleMath_cos_zero doubleMath_sin_zero readCamera_sampleImage rfl rfl rfl
      (by norm_num [sampleCamera, nadirCamera])
      (by norm_num [sampleCamera, nadirCamera, pix006])
      (by norm_num [sampleCamera, nadirCamera])).2 doubleMath_IEEE
      (by decide!) (by decide!) (by decide!) (by decide!) (by decide!)
      (by decide!) (by decide!) (by decide!)⟩

/-- C29 fails as stated: the camera of `farImage` has zero angles, focal
length `50 > 0`, pixel spacing `0.006 > 0` and `Z0 = 1000`, and stands at
`Y0 = -2^1023`.  In double arithmetic, for the ground points at `Z = 0` and
`X = 0`, the column is `4000` at `Y = -2^1023` and `NaN` at `Y = 2^1023`
(the difference `Y - Y0` overflows to `Infinity`, and `0 * Infinity` is
`NaN`): the column is not independent of `Y`. -/
theorem getImageXY_axes_counterexample :
    readCamera farImage = some farCamera
      ∧ farCamera.Ome = 0 ∧ farCamera.Phi = 0 ∧ farCamera.Kap = 0
      ∧ 0 < farCamera.ci ∧ 0 < farCamera.pix ∧ 0 < farCamera.Z0
      ∧ getImageXY doubleMath farImage (fin 0) (fin (-2 ^ 1023)) (some (fin 0))
        = .ok (fin 4000, fin 3000)
      ∧ getImageXY doubleMath farImage (fin 0) (fin (2 ^ 1023)) (some (fin 0))
        = .ok (nan, nan) := by
  refine ⟨readCamera_farImage, rfl, rfl, rfl, by norm_num [farCamera, sampleCamera, nadirCamera],
    by norm_num [farCamera, sampleCamera, nadirCamera, pix006],
    by norm_num [farCamera, sampleCamera, nadirCamera], ?_, ?_⟩
  · rw [getImageXY_of_readCamera doubleMath _ _ _ _ _ readCamera_farImage]
    exact congrArg Except.ok (by decide!)
  · rw [getImageXY_of_readCamera doubleMath _ _ _ _ _ readCamera_farImage]
    exact congrArg Except.ok (by decide!)

/-! ## The retrying fetcher -/

/-- C5: when the operation fails on every invocation, the function
returned by `retryWrapper(fn)` invokes it exactly five times, each time
with the original arguments, and raises the error of the fifth attempt
unchanged. -/
theorem retryWrapper_always_fails {A σ ε α : Type} (fn : Operation A σ ε α) (args : A) (s : σ)
    (hfail : ∀ a s1, ∃ e, (fn a s1).1 = .error e) :
    invocations (retryWrapper fn args s).trace = List.replicate 5 args
      ∧ ∃ e, outcome fn args 4 s = .error e ∧ (retryWrapper fn args s).result = .error e := by
  obtain ⟨e, he⟩ := hfail args (stateAfter fn args 4 s)
  have h := loop_failure fn args 5 5000 4 1 s e rfl (fun i _ => hfail args _) he
  unfold retryWrapper
  rw [h]
  refine ⟨?_, e, he, rfl⟩
  show invocations (failedRounds args 5000 1 4 ++ [.invoke args, .logFailed 5]) = _
  rw [invocations_failedRounds]
  rfl

/-- The counting operation that always fails: five invocations, and the
error raised is the fifth one. -/
theorem retryWrapper_always_fails_witness :
    invocations (retryWrapper alwaysFails () 0).trace = [(), (), (), (), ()]
      ∧ (retryWrapper alwaysFails () 0).result = .error 5 := by
  obtain ⟨h1, e, he, hr⟩ := retryWrapper_always_fails alwaysFails () 0 (fun _ s1 => ⟨s1 + 1, rfl⟩)
  refine ⟨h1, ?_⟩
  have he5 : (Except.error 5 : Except Nat String) = .error e := he
  injection he5 with he5
  rw [hr, ← he5]

/-- C6: when the operation fails on its first `k - 1` invocations and
succeeds with `v` on invocation `k`, `1 ≤ k ≤ 5`, the function returned by
`retryWrapper(fn)` returns `v` and has invoked the operation exactly `k`
times. -/
theorem retryWrapper_succeeds_at {A σ ε α : Type} (fn : Operation A σ ε α) (args : A) (s : σ)
    (k : Nat) (v : α) (hk1 : 1 ≤ k) (hk5 : k ≤ 5)
    (hfail : ∀ i, i < k - 1 → ∃ e, outcome fn args i s = .error e)
    (hok : outcome fn args (k - 1) s = .ok v) :
    (retryWrapper fn args s).result = .ok (some v)
      ∧ invocations (retryWrapper fn args s).trace = List.replicate k args := by
  have h := loop_success fn args 5 5000 v (k - 1) 1 s (by omega) hfail hok
  unfold retryWrapper
  rw [h]
  refine ⟨rfl, ?_⟩
  show invocations (failedRounds args 5000 1 (k - 1) ++ [.invoke args]) = _
  rw [invocations_failedRounds]
  show List.replicate (k - 1) args ++ [args] = _
  obtain ⟨m, rfl⟩ : ∃ m, k = m + 1 := ⟨k - 1, by omega⟩
  simp only [Nat.add_sub_cancel]
  exact (List.replicate_add m 1 args).symm

/-- The counting operation that fails four times and then succeeds: the
value is returned after exactly five invocations. -/
theorem retryWrapper_succeeds_at_witness :
    (retryWrapper (failsThenSucceeds 4 "ok") () 0).result = .ok (some "ok")
      ∧ invocations (retryWrapper (failsThenSucceeds 4 "ok") () 0).trace
        = List.replicate 5 () :=
  retryWrapper_succeeds_at (failsThenSucceeds 4 "ok") () 0 5 "ok" (by decide) (by decide)
    (fun i hi => by
      have hi4 : i < 4 := hi
      interval_cases i <;> exact ⟨_, rfl⟩)
    rfl

/-! ## The catalog client -/

/-- C7: for every coordinate `[x, y]`, direction `d` and optional
collection, the filter built by `queryItems` and handed to the catalog is
the conjunction of exactly `contains(geometry, Point [x, y])` and
`eq(direction, d)`, followed by `eq(collection, c)` exactly when a
collection `c` is supplied, that is when the argument is a non-empty string
(the test is JavaScript truthiness: `undefined` and the empty string add no
term); the point echoes `x`, `y` and the direction term is `d`. -/
theorem queryItems_filter {σ ε ρ : Type} (getSTAC : Operation SearchRequest σ ε ρ)
    (x y : JSNum) (d : String) (collection : Option String) (limit : Option JSNum) (s : σ) :
    queryItems.search_query [x, y] d collection = andFilter (requiredTerms x y d collection)
      ∧ queryItems getSTAC ⟨[x, y], d, collection, limit⟩ s
        = getSTAC ⟨limit.getD 1, andFilter (requiredTerms x y d collection)⟩ s := by
  have h1 : queryItems.search_query [x, y] d collection
      = andFilter (requiredTerms x y d collection) := by
    cases collection with
    | none => rfl
    | some c =>
      by_cases hc : c = ""
      · subst hc
        rfl
      · simp [queryItems.search_query, truthy, hc, andFilter, requiredTerms,
          FilterTerm.toJSValue, elementAt]
  refine ⟨h1, ?_⟩
  unfold queryItems
  simp only [h1]
  rcases getSTAC ⟨limit.getD 1, andFilter (requiredTerms x y d collection)⟩ s with ⟨r, s1⟩
  cases r <;> rfl

/-- C8: the result of `getCollections` holds no collection whose id
contains `test` in any letter case, and holds every collection of the
catalog's list whose id does not. -/
theorem getCollections_excludes_test {σ ε : Type} (localeCompare : String → String → Int)
    (getSTAC : Operation String σ ε (List Collection)) (s : σ) (collections : List Collection)
    (hget : (getSTAC "/collections" s).1 = .ok collections) :
    ∃ result, (getCollections localeCompare getSTAC () s).1 = .ok result
      ∧ ∀ c, c ∈ result ↔ c ∈ collections ∧ ¬ containsTestAnyCase c.id :=
  ⟨_, getCollections_ok localeCompare getSTAC s collections hget,
    fun c => mem_onData localeCompare collections c⟩

/-- The sample list: the collection `skraafotos_TEST` is left out and the
two others are kept. -/
theorem getCollections_excludes_test_witness :
    ∃ result, (getCollections compareCodePoints
        (fun _ s => (Except.ok sampleCollections, s) : Operation String Unit String _) () ()).1
          = .ok result
      ∧ ∀ c, c ∈ result ↔ c ∈ sampleCollections ∧ ¬ containsTestAnyCase c.id :=
  getCollections_excludes_test compareCodePoints _ () sampleCollections rfl

/-- C9, as the code has it: the result of `getCollections` is the
catalog's list without the `test` collections, rearranged in ascending
order of collection id for the order that `localeCompare` defines on
strings (a consistent comparator: total and transitive), which is the
platform's collation and not the lexicographic order of the code points. -/
theorem getCollections_sorted {σ ε : Type} (localeCompare : String → String → Int)
    (getSTAC : Operation String σ ε (List Collection)) (s : σ) (collections : List Collection)
    (htotal : ∀ a b, localeCompare a b ≤ 0 ∨ localeCompare b a ≤ 0)
    (htrans : ∀ a b c, localeCompare a b ≤ 0 → localeCompare b c ≤ 0 → localeCompare a c ≤ 0)
    (hget : (getSTAC "/collections" s).1 = .ok collections) :
    ∃ result, (getCollections localeCompare getSTAC () s).1 = .ok result
      ∧ result.Pairwise (fun a b => localeCompare a.id b.id ≤ 0)
      ∧ result.Perm (collections.filter (fun coll => !includes (toLowerCase coll.id) "test")) := by
  refine ⟨_, getCollections_ok localeCompare getSTAC s collections hget, ?_, ?_⟩
  · haveI : IsTotal Collection (fun a b => localeCompare a.id b.id ≤ 0) :=
      ⟨fun a b => htotal a.id b.id⟩
    haveI : IsTrans Collection (fun a b => localeCompare a.id b.id ≤ 0) :=
      ⟨fun a b c => htrans a.id b.id c.id⟩
    unfold getCollections.onData sortBy
    exact (List.sorted_insertionSort (fun a b : Collection => localeCompare a.id b.id ≤ 0)
      collections).filter _
  · unfold getCollections.onData sortBy
    exact (List.perm_insertionSort _ collections).filter _

/-- The sample list under comparison by code points: the result is sorted
and holds the collections that are not `test` ones. -/
theorem getCollections_sorted_witness :
    ∃ result, (getCollections compareCodePoints
        (fun _ s => (Except.ok sampleCollections, s) : Operation String Unit String _) () ()).1
          = .ok result
      ∧ result.Pairwise (fun a b => compareCodePoints a.id b.id ≤ 0)
      ∧ result.Perm (sampleCollections.filter (fun coll => !includes (toLowerCase coll.id) "test")) :=
  getCollections_sorted compareCodePoints _ () sampleCollections
    (fun a b => by
      rw [compareCodePoints_le, compareCodePoints_le]
      exact le_total a b)
    (fun a b c => by
      rw [compareCodePoints_le, compareCodePoints_le, compareCodePoints_le]
      exact le_trans)
    rfl

/-- C9 fails as stated: with a `localeCompare` that follows the platform's
collation, in which the underscore sorts before the digits, the list of
`skraafotos2017` and `skraafotos_x` comes back with `skraafotos_x` first,
while in the lexicographic order of the code points `skraafotos2017` is the
smaller id (`2` is U+0032, `_` is U+005F). -/
theorem getCollections_sorted_counterexample :
    (getCollections collationCompare
        (fun _ s => (Except.ok underscoreCollections, s) : Operation String Unit String _) () ()).1
      = .ok [⟨"skraafotos_x", "extra"⟩, ⟨"skraafotos2017", "2017"⟩]
    ∧ "skraafotos2017" < "skraafotos_x" := by
  have h1 : includes (toLowerCase "skraafotos2017") "test" = false := by
    simp only [includes, toLowerCase, String.map_eq]
    decide
  have h2 : includes (toLowerCase "skraafotos_x") "test" = false := by
    simp only [includes, toLowerCase, String.map_eq]
    decide
  have c1 : collationCompare "skraafotos2017" "skraafotos_x" ≤ 0 ↔ False := by
    have : collationCompare "skraafotos2017" "skraafotos_x" = 1 := by decide
    rw [this]
    decide
  constructor
  · simp [getCollections, getCollections.onData, sortBy, underscoreCollections,
      List.insertionSort, List.orderedInsert, c1, h1, h2, List.filter]
  · rw [String.lt_iff_toList_lt]
    decide

/-- C10: whenever the bounding-box sweep returns, the sequence returned by
`findImgLinksInBox` holds no item whose id is the sentinel
`2023_jul_i_job`. -/
theorem findImgLinksInBox_no_sentinel (fetchPage : String → Option Page) (fuel : Nat)
    (bbox : List String) (result : List Feature)
    (h : findImgLinksInBox fetchPage fuel bbox = some (.ok result)) :
    ∀ e ∈ result, e.id ≠ "2023_jul_i_job" := by
  unfold findImgLinksInBox at h
  cases h1 : fetchPage (findImgLinksInBox.url bbox) with
  | none => simp [h1] at h
  | some first =>
    simp only [h1] at h
    cases h2 : getNextSet fetchPage fuel first with
    | none => simp [h2] at h
    | some r =>
      obtain ⟨batches, ending⟩ := r
      cases ending with
      | error e => simp [h2] at h
      | ok u =>
        simp only [h2, Option.some.injEq, Except.ok.injEq] at h
        subst h
        intro e he
        have := (List.mem_filter.mp he).2
        simpa using this

/-- The two-page catalog, whose first page carries the sentinel item: the
sweep returns the items `a` and `b` only. -/
theorem findImgLinksInBox_no_sentinel_witness :
    findImgLinksInBox twoPageCatalog 2 ["1", "2", "3", "4"]
        = some (.ok [bareFeature "a", bareFeature "b"])
      ∧ ∀ e ∈ [bareFeature "a", bareFeature "b"], e.id ≠ "2023_jul_i_job" :=
  ⟨rfl, findImgLinksInBox_no_sentinel twoPageCatalog 2 ["1", "2", "3", "4"] _ rfl⟩

/-- C11 at a failing input: the chain `p0 → p1` in which `p1` has fewer
than two links.  The sweep fetches `p1`, then reads `next.links[1].rel` on
it and raises a `TypeError` instead of terminating normally. -/
theorem findImgLinksInBox_short_last_page (fuel : Nat) :
    getNextSet shortLastPageCatalog (fuel + 1)
        ⟨[⟨"self", "p0"⟩, ⟨"next", "p1"⟩], [bareFeature "a"]⟩
      = some ⟨[[bareFeature "a"]], .error .typeError⟩
    ∧ findImgLinksInBox shortLastPageCatalog (fuel + 1) ["1", "2", "3", "4"]
      = some (.error .typeError) :=
  ⟨rfl, rfl⟩

/-- C12, as the code has it: on a catalog that answers every page request
with the same page, whose second link has relation `next`, the sweep never
stops: whatever the number of loop iterations allowed, it is still
running. -/
theorem getNextSet_echo_never_stops (fetchPage : String → Option Page) (p : Page) (link : Link)
    (hecho : ∀ url, fetchPage url = some p) (hlen : ¬ p.links.length < 2)
    (hlink : p.links.get? 1 = some link) (hrel : link.rel = "next") (bbox : List String) :
    ∀ fuel, getNextSet fetchPage fuel p = none ∧ findImgLinksInBox fetchPage fuel bbox = none := by
  have hlink1 : p.links[1]? = some link := by simpa using hlink
  have hgen : ∀ fuel, getNextSet fetchPage fuel p = none := by
    intro fuel
    induction fuel with
    | zero => rfl
    | succ fuel ih =>
      simp [getNextSet, hlen, hlink1, hecho, hrel, ih]
  intro fuel
  refine ⟨hgen fuel, ?_⟩
  simp [findImgLinksInBox, hecho, hgen]

/-- The echoing sample catalog: after a thousand iterations the sweep is
still running. -/
theorem getNextSet_echo_never_stops_witness :
    getNextSet echoCatalog 1000 echoPage = none
      ∧ findImgLinksInBox echoCatalog 1000 ["1", "2", "3", "4"] = none :=
  getNextSet_echo_never_stops echoCatalog echoPage ⟨"next", "p"⟩ (fun _ => rfl) (by decide) rfl rfl
    ["1", "2", "3", "4"] 1000

/-- C12 fails as stated: on the echoing sample catalog no bound on the
number of page fetches makes the sweep stop; for no number of loop
iterations has it returned or raised. -/
theorem getNextSet_echo_counterexample :
    echoCatalog "p" = some echoPage ∧ (echoPage.links.get? 1).map Link.rel = some "next"
      ∧ ¬ ∃ fuel r, getNextSet echoCatalog fuel echoPage = some r := by
  refine ⟨rfl, rfl, ?_⟩
  rintro ⟨fuel, r, h⟩
  have hnone : ∀ n, getNextSet echoCatalog n echoPage = none := by
    intro n
    induction n with
    | zero => rfl
    | succ n ih =>
      simp [getNextSet, echoPage, echoCatalog] at ih ⊢
      exact ih
  rw [hnone fuel] at h
  cases h

/-- C13 at a failing input: a single page with fewer than two links that
carries the item `a`.  The sweep returns at once without yielding the
page's features, so `findImgLinksInBox` returns the empty sequence instead
of `[a]`. -/
theorem findImgLinksInBox_single_page (fuel : Nat) :
    getNextSet singlePageCatalog (fuel + 1) ⟨[⟨"self", "p0"⟩], [bareFeature "a"]⟩
      = some ⟨[], .ok ()⟩
    ∧ findImgLinksInBox singlePageCatalog (fuel + 1) ["1", "2", "3", "4"] = some (.ok []) :=
  ⟨rfl, rfl⟩

/-! ## The elevation client -/

/-- C14: for an elevation response whose envelope `HentKoterRespons.data`
holds at least one sample, `getElevationData` returns the `kote` of the
first sample; for an envelope that holds no sample it fails with the
no-elevation-data error instead of returning a value. -/
theorem getElevationData_first_kote {σ ε : Type} (configuration : Configuration)
    (axiosGet : Operation ElevationRequest σ ε ElevationResponse) (a : ElevationArgs) (s : σ)
    (coordinates : List String) (samples : List Sample)
    (hc : a.coordinates = some coordinates)
    (hget : (axiosGet ⟨a.username.getD configuration.API_DHM_TOKENA,
        a.password.getD configuration.API_DHM_TOKENB,
        "POINT(" ++ " ".intercalate coordinates ++ ")"⟩ s).1
      = .ok ⟨some ⟨some ⟨some samples⟩⟩⟩) :
    (∀ sample rest, samples = sample :: rest →
        (getElevationData configuration axiosGet a s).1 = .ok sample.kote)
      ∧ (samples = [] →
        (getElevationData configuration axiosGet a s).1 = .error .noElevationData) := by
  have h := getElevationData_of_response configuration axiosGet a s coordinates samples hc hget
  constructor
  · intro sample rest hs
    rw [h, hs]
    rfl
  · intro hs
    rw [h, hs]
    rfl

/-- A service answering with the samples `12.5` and `13`: the first is
returned; a service answering with no sample: the call fails. -/
theorem getElevationData_first_kote_witness :
    (getElevationData sampleConfiguration
        (elevationService [⟨some (fin (25 / 2))⟩, ⟨some (fin 13)⟩]) sampleElevationArgs ()).1
      = .ok (some (fin (25 / 2)))
    ∧ (getElevationData sampleConfiguration (elevationService []) sampleElevationArgs ()).1
      = .error .noElevationData :=
  ⟨(getElevationData_first_kote sampleConfiguration
      (elevationService [⟨some (fin (25 / 2))⟩, ⟨some (fin 13)⟩]) sampleElevationArgs ()
      ["728368.05", "6174304.56"] _ rfl rfl).1 _ _ rfl,
    (getElevationData_first_kote sampleConfiguration (elevationService []) sampleElevationArgs ()
      ["728368.05", "6174304.56"] _ rfl rfl).2 rfl⟩

/-- C15, as the code has it: the wrapper retries every failure alike.
When the service answers each request with a well-formed envelope holding
no sample, the exported `getElevationData` issues five GETs, pauses four
times for 5000 ms, and then raises the no-elevation-data error. -/
theorem getElevationData_empty_is_retried {σ ε : Type} (configuration : Configuration)
    (axiosGet : Operation ElevationRequest σ ε ElevationResponse) (a : ElevationArgs) (s : σ)
    (coordinates : List String) (hc : a.coordinates = some coordinates)
    (hempty : ∀ req s1, (axiosGet req s1).1 = .ok ⟨some ⟨some ⟨some []⟩⟩⟩) :
    (getElevationDataWithRetry configuration (counted axiosGet) a (s, 0)).result
        = .error .noElevationData
      ∧ (getElevationDataWithRetry configuration (counted axiosGet) a (s, 0)).state.2 = 5
      ∧ waits (getElevationDataWithRetry configuration (counted axiosGet) a (s, 0)).trace
        = [5000, 5000, 5000, 5000] := by
  have hfail : ∀ i, outcome (getElevationData configuration (counted axiosGet)) a i (s, 0)
      = .error .noElevationData := by
    intro i
    exact getElevationData_of_response configuration (counted axiosGet) a _ coordinates [] hc
      (hempty _ _)
  have h := retryWrapper_five_failures (getElevationData configuration (counted axiosGet)) a
    (s, 0) .noElevationData (fun i _ => ⟨_, hfail i⟩) (hfail 4)
  unfold getElevationDataWithRetry
  rw [h]
  refine ⟨rfl, ?_, ?_⟩
  · have := stateAfter_counter (getElevationData configuration (counted axiosGet)) a
      (getElevationData_counted configuration axiosGet a coordinates hc) 5 (s, 0)
    simpa using this
  · show waits (failedRounds a 5000 1 4 ++ [.invoke a, .logFailed 5]) = _
    rw [waits_failedRounds]
    rfl

/-- The service that always answers with no sample: five GETs and four
pauses, then the error. -/
theorem getElevationData_empty_is_retried_witness :
    (getElevationDataWithRetry sampleConfiguration (counted (elevationService []))
        sampleElevationArgs ((), 0)).result = .error .noElevationData
      ∧ (getElevationDataWithRetry sampleConfiguration (counted (elevationService []))
        sampleElevationArgs ((), 0)).state.2 = 5
      ∧ waits (getElevationDataWithRetry sampleConfiguration (counted (elevationService []))
        sampleElevationArgs ((), 0)).trace = [5000, 5000, 5000, 5000] :=
  getElevationData_empty_is_retried sampleConfiguration (elevationService []) sampleElevationArgs
    () ["728368.05", "6174304.56"] rfl (fun _ _ => rfl)

/-- C15 fails as stated: with a service that answers every request with a
well-formed envelope holding no sample, the exported `getElevationData`
issues five GETs, not one. -/
theorem getElevationData_empty_counterexample :
    (getElevationDataWithRetry sampleConfiguration (counted (elevationService []))
        sampleElevationArgs ((), 0)).state.2 = 5
      ∧ (getElevationDataWithRetry sampleConfiguration (counted (elevationService []))
        sampleElevationArgs ((), 0)).state.2 ≠ 1 := by
  have h5 : (getElevationDataWithRetry sampleConfiguration (counted (elevationService []))
      sampleElevationArgs ((), 0)).state.2 = 5 := by
    have h := retryWrapper_five_failures
      (getElevationData sampleConfiguration (counted (elevationService []))) sampleElevationArgs
      ((), 0) .noElevationData (fun _ _ => ⟨_, rfl⟩) rfl
    unfold getElevationDataWithRetry
    rw [h]
    rfl
  exact ⟨h5, by rw [h5]; decide⟩

/-! ## The retry policy -/

/-- C23 at a failing input: `retryWrapper(fn, 1, 0)` around an operation
that always fails.  The arguments `retries = 1` and `delay = 0` are
ignored: the operation is invoked five times with four pauses of 5000 ms,
not once without a pause. -/
theorem retryWrapper_policy_ignored :
    invocations (retryWrapper.withPolicy alwaysFails 1 0 () 0).trace = List.replicate 5 ()
      ∧ waits (retryWrapper.withPolicy alwaysFails 1 0 () 0).trace = [5000, 5000, 5000, 5000]
      ∧ (retryWrapper.withPolicy alwaysFails 1 0 () 0).result = .error 5 := by
  have h := retryWrapper_five_failures alwaysFails () 0 5 (fun _ _ => ⟨_, rfl⟩) rfl
  unfold retryWrapper.withPolicy
  rw [h]
  exact ⟨rfl, rfl, rfl⟩

/-- C24: in every run of a function returned by `retryWrapper`, the trace
is `j ≤ 4` failed attempts, each followed by a pause of 5000 ms and then by
a further attempt, ended by a successful attempt or by the failure of
attempt 5; so a pause occurs only after a failed attempt that is not the
final one, every pause is 5000 ms, and the pauses add up to at most
`5 × 5000` ms. -/
theorem retryWrapper_waits {A σ ε α : Type} (fn : Operation A σ ε α) (args : A) (s : σ) :
    ∃ j, j ≤ 4
      ∧ ((retryWrapper fn args s).trace = failedRounds args 5000 1 j ++ [.invoke args]
        ∨ (j = 4 ∧ (retryWrapper fn args s).trace
            = failedRounds args 5000 1 4 ++ [.invoke args, .logFailed 5]))
      ∧ waits (retryWrapper fn args s).trace = List.replicate j 5000
      ∧ (waits (retryWrapper fn args s).trace).sum ≤ 5 * 5000 := by
  obtain ⟨j, hj, h⟩ := loop_trace fn args 5 5000 4 1 s rfl
  have hw : waits (retryWrapper fn args s).trace = List.replicate j 5000 := by
    unfold retryWrapper
    rcases h with h | ⟨_, h⟩ <;> rw [h, waits_failedRounds] <;> simp [waits]
  refine ⟨j, hj, ?_, hw, ?_⟩
  · rcases h with h | ⟨hj4, h⟩
    · exact Or.inl h
    · right
      subst hj4
      exact ⟨rfl, h⟩
  · rw [hw, List.sum_replicate]
    simp only [smul_eq_mul]
    omega

/-! ## The polygon address search -/

/-- C30: `imgsFromPolygon` never raises; when the address request fails or
answers with a non-OK status it returns `undefined`; hence the exported,
retry-wrapped `imgsFromPolygon` invokes it once, issues exactly one
request, and never pauses or retries. -/
theorem imgsFromPolygon_never_retries {P σ ε D : Type}
    (fetch : Operation P σ ε (AddressResponse ε D)) (polygon : P) (s : σ) :
    (∃ r, (imgsFromPolygon fetch polygon s).1 = .ok r)
      ∧ ((∀ e, (fetch polygon s).1 = .error e → (imgsFromPolygon fetch polygon s).1 = .ok none)
        ∧ ∀ response, (fetch polygon s).1 = .ok response → response.ok = false →
            (imgsFromPolygon fetch polygon s).1 = .ok none)
      ∧ invocations (imgsFromPolygonWithRetry fetch polygon s).trace = [polygon]
      ∧ waits (imgsFromPolygonWithRetry fetch polygon s).trace = []
      ∧ (imgsFromPolygonWithRetry (counted fetch) polygon (s, 0)).state.2 = 1 := by
  have hok : ∀ (st : Type) (f : Operation P st ε (AddressResponse ε D)) (s0 : st),
      ∃ r, (imgsFromPolygon f polygon s0).1 = .ok r := by
    intro st f s0
    unfold imgsFromPolygon
    rcases imgsFromPolygon.tryBlock f polygon s0 with ⟨r, s1⟩
    cases r with
    | ok d => exact ⟨_, rfl⟩
    | error e => exact ⟨_, rfl⟩
  refine ⟨hok σ fetch s, ⟨?_, ?_⟩, ?_, ?_, ?_⟩
  · intro e he
    unfold imgsFromPolygon imgsFromPolygon.tryBlock
    rcases hf : fetch polygon s with ⟨r, s1⟩
    rw [hf] at he
    simp only at he
    subst he
    rfl
  · intro response hr hnot
    unfold imgsFromPolygon imgsFromPolygon.tryBlock
    rcases hf : fetch polygon s with ⟨r, s1⟩
    rw [hf] at hr
    simp only at hr
    subst hr
    simp [hnot]
  · obtain ⟨r, hr⟩ := hok σ fetch s
    unfold imgsFromPolygonWithRetry
    rw [retryWrapper_first_success _ _ _ r hr]
    rfl
  · obtain ⟨r, hr⟩ := hok σ fetch s
    unfold imgsFromPolygonWithRetry
    rw [retryWrapper_first_success _ _ _ r hr]
    rfl
  · obtain ⟨r, hr⟩ := hok (σ × Nat) (counted fetch) (s, 0)
    unfold imgsFromPolygonWithRetry
    rw [retryWrapper_first_success _ _ _ r hr]
    show (imgsFromPolygon (counted fetch) polygon (s, 0)).2.2 = 1
    unfold imgsFromPolygon imgsFromPolygon.tryBlock counted
    simp only
    generalize fetch polygon s = x
    obtain ⟨r1, s1⟩ := x
    cases r1 with
    | error e => rfl
    | ok response =>
      obtain ⟨okFlag, status, json⟩ := response
      cases okFlag <;> cases json <;> rfl

/-- The address service that answers 503: `undefined` is returned after a
single request. -/
theorem imgsFromPolygon_never_retries_witness :
    (imgsFromPolygon unavailableAddressService "polygon" ()).1 = .ok none
      ∧ invocations (imgsFromPolygonWithRetry unavailableAddressService "polygon" ()).trace
        = ["polygon"]
      ∧ (imgsFromPolygonWithRetry (counted unavailableAddressService) "polygon" ((), 0)).state.2
        = 1 :=
  ⟨(imgsFromPolygon_never_retries unavailableAddressService "polygon" ()).2.1.2 _ rfl rfl,
    (imgsFromPolygon_never_retries unavailableAddressService "polygon" ()).2.2.1,
    (imgsFromPolygon_never_retries unavailableAddressService "polygon" ()).2.2.2.2⟩

/-! ## The address lookup -/

/-- C25 at a failing input: the lookup answers with a candidate on `Other
Road` followed by one on `Main Street`, both with house number `1` and
postal code `1000`.  For the address `Main Street 1, 1000` the function
`addressToCoords` returns the coordinates of the candidate on `Other Road`:
the road name is not compared. -/
theorem addressToCoords_ignores_road :
    (addressToCoords twoRoadsLookup ⟨"Main Street", "1", "1000"⟩ ()).1 = .ok [fin 1, fin 2] := by
  rfl

/-- C26 at a failing input: on the sample list, `getCollections` returns the
collection records (with their titles), not their id strings. -/
theorem getCollections_returns_records :
    (getCollections compareCodePoints
        (fun _ s => (Except.ok sampleCollections, s) : Operation String Unit String _) () ()).1
      = .ok [⟨"skraafotos2017", "2017"⟩, ⟨"skraafotos2021", "2021"⟩] := by
  have h1 : includes (toLowerCase "skraafotos2021") "test" = false := by
    simp only [includes, toLowerCase, String.map_eq]
    decide
  have h2 : includes (toLowerCase "skraafotos_TEST") "test" = true := by
    simp only [includes, toLowerCase, String.map_eq]
    decide
  have h3 : includes (toLowerCase "skraafotos2017") "test" = false := by
    simp only [includes, toLowerCase, String.map_eq]
    decide
  have c1 : compareCodePoints "skraafotos_TEST" "skraafotos2017" ≤ 0 ↔ False := by
    rw [compareCodePoints_le, String.le_iff_toList_le]
    decide
  have c2 : compareCodePoints "skraafotos2021" "skraafotos2017" ≤ 0 ↔ False := by
    rw [compareCodePoints_le, String.le_iff_toList_le]
    decide
  have c3 : compareCodePoints "skraafotos2021" "skraafotos_TEST" ≤ 0 ↔ True := by
    rw [compareCodePoints_le, String.le_iff_toList_le]
    decide
  simp [getCollections, getCollections.onData, sortBy, sampleCollections, List.insertionSort,
    List.orderedInsert, c1, c2, c3, h1, h2, h3, List.filter]

/-! ## The direction orchestrator -/

/-- C18, as the code has it: in a fetch round of `MapPage` every failed
query sets the 503 state and every empty query the 401 state, in the order
of `directions`, and the last call wins.  Whenever the selected direction's
query ends in an error, the error state published when the round completes
is that of the last direction whose query failed or was empty, whichever
direction is selected. -/
theorem MapPage_error_last_wins {σ ε : Type} (M : MathLib)
    (queryItems : Operation QueryArgs σ ε QueryResponse)
    (getElevationData : Operation (List JSNum) σ ε (Option JSNum))
    (coordinates : List JSNum) (sd sc : String) (s : σ) (st : MapPageState)
    (hsel : ∀ x ∈ (MapPage.fetchImages M queryItems getElevationData coordinates sd sc
      s).1.queries, x.1.direction = sd → ∃ e, x.2 = .error e) :
    (st.after (MapPage.fetchImages M queryItems getElevationData coordinates sd sc
        s).1.setters).errorMessage
      = publishedError st.errorMessage
        (MapPage.fetchImages M queryItems getElevationData coordinates sd sc s).1.queries :=
  (MapPage_after M queryItems getElevationData coordinates sd sc s st).2.2
    (Or.inr (pickSelected_none sd _ hsel))

/-- The catalog in which `north` fails and `nadir` is empty, with `north`
selected: the state published is that of `nadir`, the last direction. -/
theorem MapPage_error_last_wins_witness :
    (MapPageState.initial.after (MapPage.fetchImages approxMath northDownCatalog flatElevation
        [fin 0, fin 0] "north" "skraafotos2023" ()).1.setters).errorMessage
      = publishedError none (MapPage.fetchImages approxMath northDownCatalog flatElevation
        [fin 0, fin 0] "north" "skraafotos2023" ()).1.queries :=
  MapPage_error_last_wins approxMath northDownCatalog flatElevation [fin 0, fin 0] "north"
    "skraafotos2023" () MapPageState.initial (by
      intro x hx hd
      have hq : (MapPage.fetchImages approxMath northDownCatalog flatElevation
          [fin 0, fin 0] "north" "skraafotos2023" ()).1.queries.map
            (fun x => (x.1.direction, x.2.toOption.isSome))
          = [("north", false), ("south", true), ("east", true), ("west", true),
            ("nadir", true)] := rfl
      have hm : (x.1.direction, x.2.toOption.isSome) ∈
          [("north", false), ("south", true), ("east", true), ("west", true),
            ("nadir", true)] := by
        rw [← hq]
        exact List.mem_map_of_mem _ hx
      rw [hd] at hm
      have hfalse : x.2.toOption.isSome = false := by
        simp only [List.mem_cons, Prod.mk.injEq, List.mem_singleton, List.not_mem_nil] at hm
        rcases hm with h | h | h | h | h | h
        · exact h.2
        all_goals first
          | exact absurd h.1 (by rw [← hd]; intro hh; simp_all)
          | cases h
      rcases hx2 : x.2 with e | r
      · exact ⟨e, rfl⟩
      · rw [hx2] at hfalse
        cases hfalse)

/-- C18 fails as stated: with `north` selected, the query for `north`
failing and the query for `nadir` empty, the error state published when the
round completes is the 401 (no coverage) state, not the 503 state. -/
theorem MapPage_error_counterexample :
    ((MapPage.fetchImages approxMath northDownCatalog flatElevation [fin 0, fin 0] "north"
        "skraafotos2023" ()).1.queries.map (fun x => (x.1.direction, x.2.toOption.isSome))
      = [("north", false), ("south", true), ("east", true), ("west", true), ("nadir", true)])
    ∧ (MapPageState.initial.after (MapPage.fetchImages approxMath northDownCatalog flatElevation
        [fin 0, fin 0] "north" "skraafotos2023" ()).1.setters).errorMessage
      = some ("Invalid authorization credentials", 401) :=
  ⟨rfl, rfl⟩

/-- C19, as the code has it: nothing resets the error state.  A round of
`MapPage` in which all five queries return items and the elevation fetch
does not fail makes no call of `setErrorMessage`, so the error state
published before the round is still published after it. -/
theorem MapPage_error_persists {σ ε : Type} (M : MathLib)
    (queryItems : Operation QueryArgs σ ε QueryResponse)
    (getElevationData : Operation (List JSNum) σ ε (Option JSNum))
    (coordinates : List JSNum) (sd sc : String) (s : σ) (st : MapPageState)
    (hitems : ∀ x ∈ (MapPage.fetchImages M queryItems getElevationData coordinates sd sc
      s).1.queries, ∃ response feature, x.2 = .ok response ∧ firstFeature response = some feature)
    (helev : ∀ e, (MapPage.fetchImages M queryItems getElevationData coordinates sd sc
      s).1.elevation ≠ some (coordinates, .error e)) :
    (st.after (MapPage.fetchImages M queryItems getElevationData coordinates sd sc
        s).1.setters).errorMessage = st.errorMessage := by
  rw [(MapPage_after M queryItems getElevationData coordinates sd sc s st).2.2 (Or.inl helev)]
  have hnil : (MapPage.fetchImages M queryItems getElevationData coordinates sd sc
      s).1.queries.filterMap errorOf = [] := by
    rw [List.filterMap_eq_nil_iff]
    intro x hx
    obtain ⟨response, feature, h1, h2⟩ := hitems x hx
    simp only [errorOf, h1, h2]
  simp only [publishedError, hnil, List.getLast?_nil]

/-- A round on the full catalog, started from a state in which the 401
state is published: the 401 state is still published afterwards. -/
theorem MapPage_error_persists_witness :
    ((⟨[], none, none, some ("Invalid authorization credentials", 401)⟩ : MapPageState).after
      (MapPage.fetchImages approxMath fullCatalog flatElevation [fin 1, fin 1] "north"
        "skraafotos2023" ()).1.setters).errorMessage
      = some ("Invalid authorization credentials", 401) :=
  MapPage_error_persists approxMath fullCatalog flatElevation [fin 1, fin 1] "north"
    "skraafotos2023" () ⟨[], none, none, some ("Invalid authorization credentials", 401)⟩
    (by
      intro x hx
      have hq : (MapPage.fetchImages approxMath fullCatalog flatElevation [fin 1, fin 1] "north"
          "skraafotos2023" ()).1.queries
          = directions.map (fun d => (⟨[fin 1, fin 1], d, some "skraafotos2023", some limit⟩,
              (fullCatalog ⟨[fin 1, fin 1], d, some "skraafotos2023", some limit⟩ ()).1)) := rfl
      rw [hq] at hx
      obtain ⟨d, -, rfl⟩ := List.mem_map.mp hx
      exact ⟨_, _, rfl, rfl⟩)
    (by
      intro e h
      have he : (MapPage.fetchImages approxMath fullCatalog flatElevation [fin 1, fin 1] "north"
          "skraafotos2023" ()).1.elevation = some ([fin 1, fin 1], .ok (some (fin 12))) := rfl
      rw [he] at h
      cases h)

/-- C19 fails as stated: a first round with two empty directions publishes
the 401 state; a second round for a new coordinate, in which all five
queries return items and the elevation fetch succeeds, leaves the 401 state
published. -/
theorem MapPage_error_counterexample_reset :
    (MapPageState.initial.after (MapPage.fetchImages approxMath twoEmptyCatalog flatElevation
        [fin 0, fin 0] "north" "skraafotos2023" ()).1.setters).errorMessage
        = some ("Invalid authorization credentials", 401)
      ∧ ((MapPageState.initial.after (MapPage.fetchImages approxMath twoEmptyCatalog
          flatElevation [fin 0, fin 0] "north" "skraafotos2023" ()).1.setters).after
        (MapPage.fetchImages approxMath fullCatalog flatElevation [fin 1, fin 1] "north"
          "skraafotos2023" ()).1.setters).errorMessage
        = some ("Invalid authorization credentials", 401) :=
  ⟨rfl, rfl⟩

/-- C20, as the code has it: a round publishes without checking the
coordinate it was started for.  When the round for coordinate `A` completes
after the round for coordinate `B`, the published mapping, selected item
and, when `A`'s round sets one, centre are those of `A`. -/
theorem MapPage_last_round_wins {σ ε : Type} (M : MathLib)
    (queryItems : Operation QueryArgs σ ε QueryResponse)
    (getElevationData : Operation (List JSNum) σ ε (Option JSNum))
    (coordsA coordsB : List JSNum) (sd sc : String) (sA sB : σ) (st : MapPageState) :
    ((st.after (MapPage.fetchImages M queryItems getElevationData coordsB sd sc
        sB).1.setters).after
      (MapPage.fetchImages M queryItems getElevationData coordsA sd sc sA).1.setters).imagesTif
        = (MapPage.fetchImages M queryItems getElevationData coordsA sd sc sA).1.queries.map
          entryOf
      ∧ ((st.after (MapPage.fetchImages M queryItems getElevationData coordsB sd sc
          sB).1.setters).after
        (MapPage.fetchImages M queryItems getElevationData coordsA sd sc
          sA).1.setters).selectedItem
        = pickSelected sd none
          (MapPage.fetchImages M queryItems getElevationData coordsA sd sc sA).1.queries
      ∧ ∀ c, Setter.setCenter c ∈
          (MapPage.fetchImages M queryItems getElevationData coordsA sd sc sA).1.setters →
        ((st.after (MapPage.fetchImages M queryItems getElevationData coordsB sd sc
            sB).1.setters).after
          (MapPage.fetchImages M queryItems getElevationData coordsA sd sc
            sA).1.setters).center = some c := by
  refine ⟨(MapPage_after M queryItems getElevationData coordsA sd sc sA _).1,
    (MapPage_after M queryItems getElevationData coordsA sd sc sA _).2.1, ?_⟩
  intro c hc
  obtain ⟨tail, -, hset, htail, -⟩ :=
    MapPage_round M queryItems getElevationData coordsA sd sc sA
  rw [hset] at hc ⊢
  rw [MapPageState.after_append, MapPageState.after_append, MapPageState.after_errors]
  rcases htail with rfl | ⟨c1, rfl⟩ | ⟨rfl, -⟩
  · simp at hc
  · have : c = c1 := by simpa using hc
    subst this
    rfl
  · simp at hc

/-- C20 fails as stated: on the full catalog, when the round for coordinate
`A = [0, 0]` publishes after the round for `B = [1, 1]`, the published
mapping is that of `A`, not that of `B`. -/
theorem MapPage_stale_counterexample :
    ((MapPageState.initial.after (MapPage.fetchImages approxMath fullCatalog flatElevation
        [fin 1, fin 1] "north" "skraafotos2023" ()).1.setters).after
      (MapPage.fetchImages approxMath fullCatalog flatElevation [fin 0, fin 0] "north"
        "skraafotos2023" ()).1.setters).imagesTif
      = [("north", some "A-north.tif"), ("south", some "A-south.tif"),
          ("east", some "A-east.tif"), ("west", some "A-west.tif"),
          ("nadir", some "A-nadir.tif")]
    ∧ (MapPageState.initial.after (MapPage.fetchImages approxMath fullCatalog flatElevation
        [fin 1, fin 1] "north" "skraafotos2023" ()).1.setters).imagesTif
      = [("north", some "B-north.tif"), ("south", some "B-south.tif"),
          ("east", some "B-east.tif"), ("west", some "B-west.tif"),
          ("nadir", some "B-nadir.tif")] := by
  constructor <;> decide

/-- C16: whatever the five direction queries answer, after `fetchImages`
has completed the published mapping has one entry for each of the five
directions, in order: for the call `queryItems(coordinates, direction,
collection, limit)` made for the direction, the data asset link of
`features[0]` (`null` when the link is absent) when the answer has a
feature, and `null` when the answer is empty or the call failed; in
`MapPage` and in `MultiViewerPage` alike, where the thumbnails are
published the same way.  The calls are those of `issueAll`: `queryItems`
applied to the five argument lists in order, each on the state of the
outside world that the previous call left. -/
theorem fetchImages_mapping {σ ε : Type} (M : MathLib)
    (queryItems : Operation QueryArgs σ ε QueryResponse)
    (getElevationData : Operation (List JSNum) σ ε (Option JSNum))
    (coordinates : List JSNum) (sd sc : String) (s : σ) (st : MapPageState) :
    ((st.after (MapPage.fetchImages M queryItems getElevationData coordinates sd sc
          s).1.setters).imagesTif
        = (issueAll queryItems (directions.map (fun d =>
            (⟨coordinates, d, some sc, some limit⟩ : QueryArgs))) s).1.map entryOf
      ∧ ((issueAll queryItems (directions.map (fun d =>
            (⟨coordinates, d, some sc, some limit⟩ : QueryArgs))) s).1.map entryOf).map Prod.fst
        = directions)
    ∧ ((MultiViewerPage.fetchImages queryItems coordinates sd s).1.setters
        = [.setSelectedItem (pickSelected sd none
              (issueAll queryItems (directions.map (fun d =>
                (⟨coordinates, d, some MultiViewerPage.collection, some limit⟩ : QueryArgs)))
                s).1),
            .setImages ((issueAll queryItems (directions.map (fun d =>
                (⟨coordinates, d, some MultiViewerPage.collection, some limit⟩ : QueryArgs)))
                s).1.map thumbnailOf),
            .setImagesTif ((issueAll queryItems (directions.map (fun d =>
                (⟨coordinates, d, some MultiViewerPage.collection, some limit⟩ : QueryArgs)))
                s).1.map entryOf)]
      ∧ ((issueAll queryItems (directions.map (fun d =>
            (⟨coordinates, d, some MultiViewerPage.collection, some limit⟩ : QueryArgs)))
            s).1.map entryOf).map Prod.fst = directions) := by
  have key : ∀ (args : String → QueryArgs) (_ : ∀ d, (args d).direction = d) (l : List String),
      ((issueAll queryItems (l.map args) s).1.map entryOf).map Prod.fst = l := by
    intro args hargs l
    calc ((issueAll queryItems (l.map args) s).1.map entryOf).map Prod.fst
        = ((issueAll queryItems (l.map args) s).1.map Prod.fst).map QueryArgs.direction := by
          simp only [List.map_map]
          rfl
      _ = (l.map args).map QueryArgs.direction := by rw [issueAll_fst]
      _ = l := by simp [List.map_map, Function.comp_def, hargs]
  refine ⟨⟨?_, key _ (fun _ => rfl) directions⟩, ?_, key _ (fun _ => rfl) directions⟩
  · rw [(MapPage_after M queryItems getElevationData coordinates sd sc s st).1,
      (MapPage_calls M queryItems getElevationData coordinates sd sc s).1]
  · rw [(MultiViewerPage_round queryItems coordinates sd s).2,
      (MultiViewerPage_calls queryItems coordinates sd s).1]

/-- Two empty and three non-empty responses: exactly the three are
populated and the other two are `null`, none dropped, in `MapPage` and in
`MultiViewerPage`. -/
theorem fetchImages_mapping_witness :
    (MapPageState.initial.after (MapPage.fetchImages approxMath twoEmptyCatalog flatElevation
        [fin 0, fin 0] "north" "skraafotos2023" ()).1.setters).imagesTif
      = [("north", some "north.tif"), ("south", some "south.tif"), ("east", none),
          ("west", none), ("nadir", some "nadir.tif")]
    ∧ (MultiViewerPage.fetchImages twoEmptyCatalog [fin 0, fin 0] "north" ()).1.setters
      = [.setSelectedItem (some (sampleFeature "north" "north.tif" "north")),
          .setImages [("north", none), ("south", none), ("east", none), ("west", none),
            ("nadir", none)],
          .setImagesTif [("north", some "north.tif"), ("south", some "south.tif"),
            ("east", none), ("west", none), ("nadir", some "nadir.tif")]] :=
  ⟨(fetchImages_mapping approxMath twoEmptyCatalog flatElevation [fin 0, fin 0] "north"
      "skraafotos2023" () MapPageState.initial).1.1.trans (by decide),
    (fetchImages_mapping approxMath twoEmptyCatalog flatElevation [fin 0, fin 0] "north"
      "skraafotos2023" () MapPageState.initial).2.1.trans rfl⟩

/-- C17, as the code has it: `refreshItems` is all-or-nothing.  When the
query for one direction fails or returns no features, `refreshItems` fails
as a whole: it rejects and returns no mapping. -/
theorem refreshItems_all_or_nothing {σ ε T : Type}
    (queryItems : Operation QueryArgs σ ε QueryResponse)
    (getTerrainData : Operation (Option Feature) σ ε T)
    (coordinates : List JSNum) (collection : Option String) (s : σ)
    (h : ∃ x ∈ (refreshItems queryItems getTerrainData coordinates collection s).1.queries,
      (∃ e, x.2 = .error e) ∨ ∃ response, x.2 = .ok response ∧ firstFeature response = none) :
    ∃ e, (refreshItems queryItems getTerrainData coordinates collection s).1.result = .error e := by
  unfold refreshItems at h ⊢
  simp only at h ⊢
  generalize issueAll queryItems
    (refreshItems.keys.map (fun key => (⟨coordinates, key, collection, none⟩ : QueryArgs))) s
    = P at h ⊢
  cases hp : promiseAll (P.1.map Prod.snd) with
  | error e => exact ⟨_, rfl⟩
  | ok items =>
    simp only [hp] at h ⊢
    have hitems := promiseAll_ok _ _ hp
    rcases ht : refreshItems.terrains getTerrainData items P.2 with ⟨r, s2⟩
    cases r with
    | error e =>
      exact ⟨_, rfl⟩
    | ok tps =>
      simp only [ht] at h ⊢
      cases hp2 : promiseAll tps with
      | error e => exact ⟨_, rfl⟩
      | ok terrains =>
        simp only [hp2] at h ⊢
        obtain ⟨x, hx, hbad⟩ := h
        have hx2 : x.2 ∈ items.map Except.ok := by
          rw [← hitems]
          exact List.mem_map_of_mem _ hx
        obtain ⟨response, hmem, hresp⟩ := List.mem_map.mp hx2
        have hnone : firstFeature response = none := by
          rcases hbad with ⟨e, he⟩ | ⟨r2, hr2, hf⟩
          · rw [he] at hresp
            cases hresp
          · rw [hr2] at hresp
            cases hresp
            exact hf
        have hlen : items.length ≤ terrains.length := by
          have h1 := terrains_length getTerrainData items P.2 s2 tps ht
          have h2 := congrArg List.length (promiseAll_ok _ _ hp2)
          simp only [List.length_map] at h2
          omega
        obtain ⟨t, ht2⟩ := exists_mem_zip items terrains response hmem hlen
        exact assign_error _ _ ⟨(response, t), ht2, hnone⟩

/-- The catalog in which `east` and `west` are empty: `refreshItems`
rejects. -/
theorem refreshItems_all_or_nothing_witness :
    ∃ e, (refreshItems twoEmptyCatalog idTerrain [fin 0, fin 0] (some "skraafotos2023")
      ()).1.result = .error e :=
  refreshItems_all_or_nothing twoEmptyCatalog idTerrain [fin 0, fin 0] (some "skraafotos2023") ()
    ⟨(⟨[fin 0, fin 0], "east", some "skraafotos2023", none⟩, .ok ⟨some []⟩),
      by simp [refreshItems, issueAll, refreshItems.keys, twoEmptyCatalog, promiseAll,
        refreshItems.terrains, idTerrain],
      Or.inr ⟨_, rfl, rfl⟩⟩

/-- C17 fails as stated: with the query for `north` failing, or with the
queries for `east` and `west` returning no features, `refreshItems` returns
no mapping at all: it rejects. -/
theorem refreshItems_counterexample :
    (refreshItems northDownCatalog idTerrain [fin 0, fin 0] (some "skraafotos2023")
        ()).1.result = .error (.rejected "503")
      ∧ (refreshItems twoEmptyCatalog idTerrain [fin 0, fin 0] (some "skraafotos2023")
        ()).1.result = .error .typeError :=
  ⟨rfl, rfl⟩

/-- C21 at a failing input: `MultiViewerPage` with the state `kote` still
`null` and an elevation service that answers `12`.  The effect calls
`getElevationData`, which returns `12`, and then calls `updateCenter` with
the stale state value `kote = null`, not with the elevation just returned. -/
theorem MultiViewerPage_stale_kote :
    (MultiViewerPage.fetchElevationAndUpdateCenter approxMath flatElevation
        (some [fin 0, fin 0]) (some (sampleFeature "a" "a.tif" "north")) none ()).1.elevation
      = some ([fin 0, fin 0], .ok (some (fin 12)))
    ∧ (MultiViewerPage.fetchElevationAndUpdateCenter approxMath flatElevation
        (some [fin 0, fin 0]) (some (sampleFeature "a" "a.tif" "north")) none ()).1.projection
      = some ([fin 0, fin 0], sampleFeature "a" "a.tif" "north", none) := by
  constructor <;> rfl

/-- C22: in every fetch round of `fetchImages` in `MapPage` and in
`MultiViewerPage` and in every call of `refreshItems`, whatever the calls
answer, `queryItems` is called exactly five times, with the round's
coordinate each time and once with each of the directions `north`, `south`,
`east`, `west`, `nadir` (in `refreshItems` in the order of its keys, a
rearrangement of the five).  The calls are counted where they arrive: with
`queryItems` instrumented to record its invocations, the record after the
round, started empty, holds exactly these five argument lists. -/
theorem queryItems_once_per_direction {σ ε T : Type} (M : MathLib)
    (queryItems : Operation QueryArgs σ ε QueryResponse)
    (getElevationData : Operation (List JSNum) σ ε (Option JSNum))
    (getTerrainData : Operation (Option Feature) σ ε T)
    (coordinates : List JSNum) (sd sc : String) (collection : Option String) (s : σ) :
    (MapPage.fetchImages M (recorded queryItems) (unrecorded getElevationData) coordinates sd sc
        (s, [])).2.2
        = directions.map (fun d => ⟨coordinates, d, some sc, some limit⟩)
      ∧ (MultiViewerPage.fetchImages (recorded queryItems) coordinates sd (s, [])).2.2
        = directions.map (fun d => ⟨coordinates, d, some MultiViewerPage.collection, some limit⟩)
      ∧ (refreshItems (recorded queryItems) (unrecorded getTerrainData) coordinates collection
          (s, [])).2.2
        = refreshItems.keys.map (fun key => ⟨coordinates, key, collection, none⟩)
      ∧ refreshItems.keys.Perm directions
      ∧ directions.length = 5 ∧ directions.Nodup := by
  refine ⟨?_, ?_, ?_, by decide, rfl, by decide⟩
  · rcases (MapPage_calls M (recorded queryItems) (unrecorded getElevationData) coordinates sd sc
      (s, [])).2 with h | h
    · rw [h, issueAll_recorded]
      rfl
    · rw [h]
      show (issueAll (recorded queryItems) _ (s, [])).2.2 = _
      rw [issueAll_recorded]
      rfl
  · rw [(MultiViewerPage_calls (recorded queryItems) coordinates sd (s, [])).2,
      issueAll_recorded]
    rfl
  · have hlog := issueAll_recorded queryItems
      (refreshItems.keys.map (fun key => (⟨coordinates, key, collection, none⟩ : QueryArgs)))
      (s, [])
    simp only [List.nil_append] at hlog
    unfold refreshItems
    simp only
    generalize issueAll (recorded queryItems)
      (refreshItems.keys.map (fun key => (⟨coordinates, key, collection, none⟩ : QueryArgs)))
      (s, []) = P at hlog ⊢
    cases hp : promiseAll (P.1.map Prod.snd) with
    | error e => exact hlog
    | ok items =>
      simp only
      have ht := terrains_unrecorded getTerrainData items P.2
      rcases hr : refreshItems.terrains (unrecorded getTerrainData) items P.2 with ⟨r, s2⟩
      rw [hr] at ht
      cases r with
      | error e => exact ht.trans hlog
      | ok tps =>
        simp only
        cases promiseAll tps with
        | error e => exact ht.trans hlog
        | ok terrains => exact ht.trans hlog

/-- A round of each orchestrator against the catalog in which `north`
fails and `nadir` is empty: the record of the instrumented `queryItems`
holds the five calls, none dropped after the failure. -/
theorem queryItems_once_per_direction_witness :
    (MapPage.fetchImages approxMath (recorded northDownCatalog) (unrecorded flatElevation)
        [fin 0, fin 0] "north" "skraafotos2023" ((), [])).2.2
        = [⟨[fin 0, fin 0], "north", some "skraafotos2023", some limit⟩,
            ⟨[fin 0, fin 0], "south", some "skraafotos2023", some limit⟩,
            ⟨[fin 0, fin 0], "east", some "skraafotos2023", some limit⟩,
            ⟨[fin 0, fin 0], "west", some "skraafotos2023", some limit⟩,
            ⟨[fin 0, fin 0], "nadir", some "skraafotos2023", some limit⟩]
      ∧ (MultiViewerPage.fetchImages (recorded northDownCatalog) [fin 0, fin 0] "north"
          ((), [])).2.2
        = [⟨[fin 0, fin 0], "north", some MultiViewerPage.collection, some limit⟩,
            ⟨[fin 0, fin 0], "south", some MultiViewerPage.collection, some limit⟩,
            ⟨[fin 0, fin 0], "east", some MultiViewerPage.collection, some limit⟩,
            ⟨[fin 0, fin 0], "west", some MultiViewerPage.collection, some limit⟩,
            ⟨[fin 0, fin 0], "nadir", some MultiViewerPage.collection, some limit⟩]
      ∧ (refreshItems (recorded northDownCatalog) (unrecorded idTerrain) [fin 0, fin 0]
          (some "skraafotos2023") ((), [])).2.2
        = [⟨[fin 0, fin 0], "nadir", some "skraafotos2023", none⟩,
            ⟨[fin 0, fin 0], "north", some "skraafotos2023", none⟩,
            ⟨[fin 0, fin 0], "south", some "skraafotos2023", none⟩,
            ⟨[fin 0, fin 0], "east", some "skraafotos2023", none⟩,
            ⟨[fin 0, fin 0], "west", some "skraafotos2023", none⟩] :=
  ⟨(queryItems_once_per_direction approxMath northDownCatalog flatElevation idTerrain
      [fin 0, fin 0] "north" "skraafotos2023" (some "skraafotos2023") ()).1,
    (queryItems_once_per_direction approxMath northDownCatalog flatElevation idTerrain
      [fin 0, fin 0] "north" "skraafotos2023" (some "skraafotos2023") ()).2.1,
    (queryItems_once_per_direction approxMath northDownCatalog flatElevation idTerrain
      [fin 0, fin 0] "north" "skraafotos2023" (some "skraafotos2023") ()).2.2.1⟩

end Skraafoto
